import Mathlib

/-!
The VMSS Flex resolution cache of cloud-provider-azure.

A shallow embedding of `pkg/provider/azure_vmssflex_cache.go`: the three secondary
indices of `FlexScaleSet`, the two timed caches, the refresh functions (getters) and the
resolver operations, followed by theorems about them.

Conventions of the embedding.

* A Go pointer that may be nil is an `Option`.
* A method of `FlexScaleSet` is a function from the state before the call to the state after
  it together with an `Outcome`: a value, a Go `error`, or a run-time panic.
* The remote collaborators (the REST clients and `getVirtualMachine`) are the fields of `Cloud`;
  every call of one of them is recorded in the `trace` field of the state, as is every
  `LockEntry` and `UnlockEntry`.
* Go strings are Lean strings; `len` and slicing count UTF-8 bytes, `strings.ToLower` and
  `strings.EqualFold` fold the ASCII letters only.
-/

namespace Provider

/-! ## Go strings -/

/-- The UTF-8 bytes of a string: what `len` counts and what Go slices. -/
def utf8Bytes (s : String) : List Nat :=
  s.data.flatMap (fun c => (String.utf8EncodeChar c).map UInt8.toNat)

/-- Go `strings.ToLower`, on the ASCII letters. -/
def ToLower (s : String) : String :=
  String.mk (s.data.map Char.toLower)

/-- Lower-case form of one byte (ASCII letters only). -/
def foldByte (b : Nat) : Nat :=
  if 65 ≤ b ∧ b ≤ 90 then b + 32 else b

/-- Go `strings.EqualFold` on byte strings, folding the ASCII letters. -/
def EqualFold (a b : List Nat) : Bool :=
  a.map foldByte == b.map foldByte

/-! ## sync.Map -/

/-- A Go `sync.Map` with string keys: a finite list of key/value pairs in which `Load` returns
the first binding of a key. `Range` visits the entries in list order (Go leaves the order
unspecified). -/
structure SyncMap (α : Type) where
  entries : List (String × α)
deriving DecidableEq, Repr

namespace SyncMap

variable {α : Type}

/-- The first value bound to a key in a list of entries. -/
def lookupKey (key : String) : List (String × α) → Option α
  | [] => none
  | (k, v) :: rest => if k = key then some v else lookupKey key rest

/-- The entries of a list that are not bound to a key. -/
def eraseKey (key : String) : List (String × α) → List (String × α)
  | [] => []
  | (k, v) :: rest => if k = key then eraseKey key rest else (k, v) :: eraseKey key rest

/-- The map `&sync.Map{}`. -/
def empty : SyncMap α := ⟨[]⟩

/-- The method `Load`. -/
def Load (m : SyncMap α) (key : String) : Option α :=
  lookupKey key m.entries

/-- The method `Delete`. -/
def Delete (m : SyncMap α) (key : String) : SyncMap α :=
  ⟨eraseKey key m.entries⟩

/-- The method `Store`: the previous binding of the key, if any, is replaced. -/
def Store (m : SyncMap α) (key : String) (value : α) : SyncMap α :=
  ⟨(key, value) :: eraseKey key m.entries⟩

/-- The entries in the order `Range` visits them. -/
def Range (m : SyncMap α) : List (String × α) :=
  m.entries

/-- The keys of the map, each one once. -/
def keys (m : SyncMap α) : List String :=
  (m.entries.map Prod.fst).dedup

/-- Number of keys of the map. -/
def size (m : SyncMap α) : Nat :=
  m.keys.length

end SyncMap

/-! ## Errors and outcomes -/

/-- A Go `error` value. `InstanceNotFound` is the sentinel `cloudprovider.InstanceNotFound`;
`wrapped` is the error that `(*retry.Error).Error()` builds around its `RawError` (with `%w`,
so that `errors.Is` looks through it). -/
inductive GoError where
  | InstanceNotFound
  | other (msg : String)
  | wrapped (HTTPStatusCode : Nat) (RawError : GoError)
deriving DecidableEq, Repr

/-- The test `errors.Is(err, cloudprovider.InstanceNotFound)`. -/
def GoError.isInstanceNotFound : GoError → Bool
  | .InstanceNotFound => true
  | .other _ => false
  | .wrapped _ raw => raw.isInstanceNotFound

/-- The `*retry.Error` a REST client returns. -/
structure RetryError where
  HTTPStatusCode : Nat
  RawError : GoError
deriving DecidableEq, Repr

/-- Modelled from the spec: `(*retry.Error).IsNotFound` of `pkg/retry`, a package that
is not embedded here: the "not-found" class of a listing error, HTTP status 404. -/
def RetryError.IsNotFound (rerr : RetryError) : Bool :=
  rerr.HTTPStatusCode == 404

/-- Modelled from the spec: `(*retry.Error).Error` of `pkg/retry`, a package that is
not embedded here: the propagated remote error, wrapped around the raw error. -/
def RetryError.Error (rerr : RetryError) : GoError :=
  .wrapped rerr.HTTPStatusCode rerr.RawError

/-- How a call ends: with a value, with a Go `error`, or with a run-time panic. -/
inductive Outcome (α : Type) where
  | ok (value : α)
  | err (e : GoError)
  | panic (msg : String)
deriving DecidableEq, Repr

/-- The read policies `azcache.AzureCacheReadType`. -/
inductive AzureCacheReadType where
  | CacheReadTypeDefault
  | CacheReadTypeUnsafe
  | CacheReadTypeForceRefresh
  | CacheReadTypeNoRefresh
deriving DecidableEq, Repr

/-! ## Descriptors (the fields of the SDK types that the cache reads) -/

/-- The type `compute.OSProfile`. -/
structure OSProfile where
  ComputerName : Option String
deriving DecidableEq, Repr

/-- The type `compute.SubResource`. -/
structure SubResource where
  ID : Option String
deriving DecidableEq, Repr

/-- The type `compute.VirtualMachineInstanceView`. -/
structure VirtualMachineInstanceView where
  PlatformFaultDomain : Option Int
  Statuses : Option (List String)
deriving DecidableEq, Repr

/-- The type `compute.VirtualMachineProperties`. -/
structure VirtualMachineProperties where
  OsProfile : Option OSProfile
  ProvisioningState : Option String
  VirtualMachineScaleSet : Option SubResource
  InstanceView : Option VirtualMachineInstanceView
deriving DecidableEq, Repr

/-- The type `compute.VirtualMachine`; `VirtualMachineProperties` is an embedded pointer, so
reading `vm.OsProfile` when it is nil panics. -/
structure VirtualMachine where
  Name : Option String
  ID : Option String
  VirtualMachineProperties : Option VirtualMachineProperties
deriving DecidableEq, Repr

/-- The two orchestration modes. -/
inductive OrchestrationMode where
  | Uniform
  | Flexible
deriving DecidableEq, Repr

/-- The type `compute.VirtualMachineScaleSetOSProfile`. -/
structure VirtualMachineScaleSetOSProfile where
  ComputerNamePrefix : Option String
deriving DecidableEq, Repr

/-- The type `compute.VirtualMachineScaleSetVMProfile`. -/
structure VirtualMachineScaleSetVMProfile where
  OsProfile : Option VirtualMachineScaleSetOSProfile
deriving DecidableEq, Repr

/-- The type `compute.VirtualMachineScaleSetProperties`. -/
structure VirtualMachineScaleSetProperties where
  VirtualMachineProfile : Option VirtualMachineScaleSetVMProfile
  OrchestrationMode : OrchestrationMode
deriving DecidableEq, Repr

/-- The type `compute.VirtualMachineScaleSet`; its properties are an embedded pointer. -/
structure VirtualMachineScaleSet where
  ID : Option String
  Name : Option String
  VirtualMachineScaleSetProperties : Option VirtualMachineScaleSetProperties
deriving DecidableEq, Repr

/-- The node name a descriptor is cached under: its computer name, lower-cased. -/
def VirtualMachine.nodeName (vm : VirtualMachine) : Option String :=
  match vm.VirtualMachineProperties with
  | none => none
  | some p =>
    match p.OsProfile with
    | none => none
    | some os => os.ComputerName.map ToLower

/-- The owning scale-set identifier of a descriptor, when it has one. -/
def VirtualMachine.vmssID (vm : VirtualMachine) : Option String :=
  match vm.VirtualMachineProperties with
  | none => none
  | some p =>
    match p.VirtualMachineScaleSet with
    | none => none
    | some sub => sub.ID

/-! ## The timed cache -/

/-- One entry of a timed cache: the payload of the last successful refresh and its instant. -/
structure AzureCacheEntry (α : Type) where
  Data : Option α
  lastUpdate : Nat
deriving DecidableEq, Repr

/-- The store and the time-to-live of an `azcache.Resource`. -/
structure TimedCache (α : Type) where
  TTL : Nat
  Store : SyncMap (AzureCacheEntry α)
deriving DecidableEq, Repr

/-- The payload cached under a key, if any. -/
def TimedCache.cached {α : Type} (t : TimedCache α) (key : String) : Option α :=
  match t.Store.Load key with
  | none => none
  | some entry => entry.Data

/-- Modelled from the spec: `TimedCache.Update` of `pkg/cache`, a package that is not
embedded here: replaces the stored payload directly, without going through the refresh function. The instant
of the last refresh stays as it was (`now` for an entry that did not exist). -/
def TimedCache.Update {α : Type} (t : TimedCache α) (now : Nat) (key : String) (data : α) :
    TimedCache α :=
  match t.Store.Load key with
  | none => { t with Store := t.Store.Store key ⟨some data, now⟩ }
  | some entry => { t with Store := t.Store.Store key ⟨some data, entry.lastUpdate⟩ }

/-- Modelled from the spec: `TimedCache.Get` of `pkg/cache`, a package that is not embedded
here, on the state `σ` that the refresh function (getter) reads and writes.
With the disable flag every read is a pass-through to the getter and nothing is stored.
`Default` returns a payload younger than the TTL and refreshes otherwise; `ForceRefresh` always
refreshes; `Unsafe` returns what is cached and is not-found when nothing is; `NoRefresh` returns
what is cached (nil when nothing is) and never refreshes. A failed refresh returns its error and
leaves the store as it was. -/
def TimedCache.Get {σ α : Type} (t : TimedCache α) (disabled : Bool) (now : Nat)
    (getter : σ → String → σ × Outcome α) (s : σ) (key : String)
    (crt : AzureCacheReadType) : σ × TimedCache α × Outcome (Option α) :=
  let refresh : σ × TimedCache α × Outcome (Option α) :=
    match getter s key with
    | (s1, .ok data) =>
      if disabled then (s1, t, .ok (some data))
      else (s1, { t with Store := t.Store.Store key ⟨some data, now⟩ }, .ok (some data))
    | (s1, .err e) => (s1, t, .err e)
    | (s1, .panic msg) => (s1, t, .panic msg)
  if disabled then refresh
  else
    match crt with
    | .CacheReadTypeForceRefresh => refresh
    | .CacheReadTypeUnsafe =>
      match t.cached key with
      | some data => (s, t, .ok (some data))
      | none => (s, t, .err .InstanceNotFound)
    | .CacheReadTypeNoRefresh => (s, t, .ok (t.cached key))
    | .CacheReadTypeDefault =>
      match t.Store.Load key with
      | some ⟨some data, lastUpdate⟩ =>
        if now - lastUpdate < t.TTL then (s, t, .ok (some data)) else refresh
      | _ => refresh

/-! ## The state of a FlexScaleSet and its collaborators -/

/-- What the trace records: lock operations and calls of remote collaborators. -/
inductive Event where
  | LockEntry (key : String)
  | UnlockEntry (key : String)
  | GetResourceGroups
  | ListScaleSets (resourceGroup : String)
  | ListVmssFlexVMsWithoutInstanceView (key : String)
  | ListVmssFlexVMsWithOnlyInstanceView (key : String)
  | getVirtualMachine (vmName : String) (crt : AzureCacheReadType)
deriving DecidableEq, Repr

/-- Whether an event is a call of a remote collaborator. -/
def Event.isRemoteCall : Event → Bool
  | .LockEntry _ => false
  | .UnlockEntry _ => false
  | _ => true

/-- The collaborators of the cache and the constants of `pkg/consts` it uses. The answers are
those given during one operation. `getVirtualMachine` is the lookup of a VM by its name in
`azure_wrap.go`, a file that is not embedded here. -/
structure Cloud where
  VmssFlexKey : String
  GetNodeVmssFlexIDLockKey : String
  GetResourceGroups : Outcome (List String)
  ListScaleSets : String → Except RetryError (List VirtualMachineScaleSet)
  ListVmssFlexVMsWithoutInstanceView : String → Except RetryError (List VirtualMachine)
  ListVmssFlexVMsWithOnlyInstanceView : String → Except RetryError (List VirtualMachine)
  getVirtualMachine : String → AzureCacheReadType → Outcome VirtualMachine

/-- The fields of `FlexScaleSet` that the cache reads and writes, the clock, and the trace. -/
structure FlexScaleSet where
  DisableAPICallCache : Bool
  now : Nat
  vmssFlexCache : TimedCache (SyncMap VirtualMachineScaleSet)
  vmssFlexVMCache : TimedCache (SyncMap VirtualMachine)
  vmssFlexVMNameToNodeName : SyncMap String
  vmssFlexNodeNameToVMName : SyncMap String
  vmssFlexNodeNameToVmssID : SyncMap String
  trace : List Event
deriving DecidableEq, Repr

/-- Appends one event to the trace. -/
def FlexScaleSet.record (fs : FlexScaleSet) (e : Event) : FlexScaleSet :=
  { fs with trace := fs.trace ++ [e] }

/-! ## The index maintainer -/

/-- The method `cacheVirtualMachine`. The state is unchanged when it panics: `*vm.Name` is
evaluated before the first `Store`. -/
def cacheVirtualMachine (fs : FlexScaleSet) (vm : VirtualMachine) : FlexScaleSet × Outcome Unit :=
  match vm.VirtualMachineProperties with
  | none => (fs, .panic "nil pointer dereference: vm.OsProfile")
  | some p =>
    match p.OsProfile with
    | none => (fs, .ok ())
    | some os =>
      match os.ComputerName with
      | none => (fs, .ok ())
      | some computerName =>
        match vm.Name with
        | none => (fs, .panic "nil pointer dereference: *vm.Name")
        | some name =>
          let fs1 := { fs with
            vmssFlexVMNameToNodeName := fs.vmssFlexVMNameToNodeName.Store name (ToLower computerName) }
          let fs2 := { fs1 with
            vmssFlexNodeNameToVMName := fs1.vmssFlexNodeNameToVMName.Store (ToLower computerName) name }
          match p.VirtualMachineScaleSet with
          | none => (fs2, .ok ())
          | some sub =>
            match sub.ID with
            | none => (fs2, .ok ())
            | some id =>
              ({ fs2 with
                  vmssFlexNodeNameToVmssID :=
                    fs2.vmssFlexNodeNameToVmssID.Store (ToLower computerName) id }, .ok ())

/-- The index removals at the end of `DeleteCacheForNode` (from `cachedVMName, isCached :=`
to the last `Delete`). -/
def deleteNodeFromIndices (fs : FlexScaleSet) (nodeName : String) : FlexScaleSet :=
  let fs1 :=
    match fs.vmssFlexNodeNameToVMName.Load nodeName with
    | some vmName => { fs with vmssFlexVMNameToNodeName := fs.vmssFlexVMNameToNodeName.Delete vmName }
    | none => fs
  let fs2 := { fs1 with vmssFlexNodeNameToVmssID := fs1.vmssFlexNodeNameToVmssID.Delete nodeName }
  { fs2 with vmssFlexNodeNameToVMName := fs2.vmssFlexNodeNameToVMName.Delete nodeName }

/-! ## The refresh functions -/

/-- The inner loop of the getter of `newVmssFlexCache`: the scale sets of one resource group.
Reading `scaleSet.OrchestrationMode` goes through the embedded properties pointer. -/
def cacheScaleSets (localCache : SyncMap VirtualMachineScaleSet) :
    List VirtualMachineScaleSet → Outcome (SyncMap VirtualMachineScaleSet)
  | [] => .ok localCache
  | scaleSet :: rest =>
    match scaleSet.ID with
    | none => cacheScaleSets localCache rest
    | some id =>
      if id = "" then cacheScaleSets localCache rest
      else
        match scaleSet.VirtualMachineScaleSetProperties with
        | none => .panic "nil pointer dereference: scaleSet.OrchestrationMode"
        | some p =>
          if p.OrchestrationMode = .Flexible then cacheScaleSets (localCache.Store id scaleSet) rest
          else cacheScaleSets localCache rest

/-- The outer loop of the getter of `newVmssFlexCache`: one listing per resource group; a
not-found listing error is skipped, any other one ends the refresh. -/
def listScaleSetsOfGroups (w : Cloud) :
    List String → FlexScaleSet → SyncMap VirtualMachineScaleSet →
      FlexScaleSet × Outcome (SyncMap VirtualMachineScaleSet)
  | [], fs, localCache => (fs, .ok localCache)
  | resourceGroup :: rest, fs, localCache =>
    let fs1 := fs.record (.ListScaleSets resourceGroup)
    match w.ListScaleSets resourceGroup with
    | .error rerr =>
      if rerr.IsNotFound then listScaleSetsOfGroups w rest fs1 localCache
      else (fs1, .err rerr.Error)
    | .ok allScaleSets =>
      match cacheScaleSets localCache allScaleSets with
      | .ok localCache1 => listScaleSetsOfGroups w rest fs1 localCache1
      | .err e => (fs1, .err e)
      | .panic msg => (fs1, .panic msg)

/-- The getter of `newVmssFlexCache`. -/
def vmssFlexCacheGetter (w : Cloud) (fs : FlexScaleSet) (_key : String) :
    FlexScaleSet × Outcome (SyncMap VirtualMachineScaleSet) :=
  let fs1 := fs.record .GetResourceGroups
  match w.GetResourceGroups with
  | .ok allResourceGroups => listScaleSetsOfGroups w allResourceGroups fs1 SyncMap.empty
  | .err e => (fs1, .err e)
  | .panic msg => (fs1, .panic msg)

/-- The first loop of the getter of `newVmssFlexVMCache`: every listed descriptor with a
computer name is stored in the local collection, and every one is absorbed into the indices. -/
def cacheListedVMs :
    List VirtualMachine → FlexScaleSet → SyncMap VirtualMachine →
      FlexScaleSet × Outcome (SyncMap VirtualMachine)
  | [], fs, localCache => (fs, .ok localCache)
  | vm :: rest, fs, localCache =>
    match vm.VirtualMachineProperties with
    | none => (fs, .panic "nil pointer dereference: vm.OsProfile")
    | some p =>
      let localCache1 :=
        match p.OsProfile with
        | none => localCache
        | some os =>
          match os.ComputerName with
          | none => localCache
          | some computerName => localCache.Store (ToLower computerName) vm
      match cacheVirtualMachine fs vm with
      | (fs1, .ok _) => cacheListedVMs rest fs1 localCache1
      | (fs1, .err e) => (fs1, .err e)
      | (fs1, .panic msg) => (fs1, .panic msg)

/-- The second loop of the getter of `newVmssFlexVMCache`: the instance view of each entry is
written into the cached descriptor of the same VM name. The write through the pointer that
the collection holds is a `Store` of the updated descriptor under the same key. -/
def mergeInstanceViews (fs : FlexScaleSet) :
    List VirtualMachine → SyncMap VirtualMachine → Outcome (SyncMap VirtualMachine)
  | [], localCache => .ok localCache
  | vm :: rest, localCache =>
    match vm.Name with
    | none => mergeInstanceViews fs rest localCache
    | some name =>
      match fs.vmssFlexVMNameToNodeName.Load name with
      | none => mergeInstanceViews fs rest localCache
      | some nodeName =>
        match localCache.Load nodeName with
        | none => mergeInstanceViews fs rest localCache
        | some cachedVM =>
          match cachedVM.VirtualMachineProperties, vm.VirtualMachineProperties with
          | some cp, some p =>
            mergeInstanceViews fs rest
              (localCache.Store nodeName
                { cachedVM with
                  VirtualMachineProperties := some { cp with InstanceView := p.InstanceView } })
          | _, _ => .panic "nil pointer dereference: VirtualMachineProperties.InstanceView"

/-- The getter of `newVmssFlexVMCache`. -/
def vmssFlexVMCacheGetter (w : Cloud) (fs : FlexScaleSet) (key : String) :
    FlexScaleSet × Outcome (SyncMap VirtualMachine) :=
  let fs1 := fs.record (.ListVmssFlexVMsWithoutInstanceView key)
  match w.ListVmssFlexVMsWithoutInstanceView key with
  | .error rerr => (fs1, .err rerr.Error)
  | .ok vms =>
    match cacheListedVMs vms fs1 SyncMap.empty with
    | (fs2, .err e) => (fs2, .err e)
    | (fs2, .panic msg) => (fs2, .panic msg)
    | (fs2, .ok localCache) =>
      let fs3 := fs2.record (.ListVmssFlexVMsWithOnlyInstanceView key)
      match w.ListVmssFlexVMsWithOnlyInstanceView key with
      | .error rerr => (fs3, .err rerr.Error)
      | .ok views => (fs3, mergeInstanceViews fs3 views localCache)

/-- The call `fs.vmssFlexCache.Get(ctx, key, crt)`. -/
def vmssFlexCacheGet (w : Cloud) (fs : FlexScaleSet) (key : String) (crt : AzureCacheReadType) :
    FlexScaleSet × Outcome (Option (SyncMap VirtualMachineScaleSet)) :=
  match fs.vmssFlexCache.Get fs.DisableAPICallCache fs.now (vmssFlexCacheGetter w) fs key crt with
  | (fs1, t, r) => ({ fs1 with vmssFlexCache := t }, r)

/-- The call `fs.vmssFlexVMCache.Get(ctx, key, crt)`. -/
def vmssFlexVMCacheGet (w : Cloud) (fs : FlexScaleSet) (key : String) (crt : AzureCacheReadType) :
    FlexScaleSet × Outcome (Option (SyncMap VirtualMachine)) :=
  match fs.vmssFlexVMCache.Get fs.DisableAPICallCache fs.now (vmssFlexVMCacheGetter w) fs key crt with
  | (fs1, t, r) => ({ fs1 with vmssFlexVMCache := t }, r)

/-! ## The resolver -/

/-- The name a scale set is matched by: its computer-name-prefix, or its name without one. -/
def vmssNameToMatch (vmssFlex : VirtualMachineScaleSet)
    (p : VirtualMachineScaleSetProperties) : String :=
  match p.VirtualMachineProfile with
  | none => vmssFlex.Name.getD ""
  | some vmProfile =>
    match vmProfile.OsProfile with
    | none => vmssFlex.Name.getD ""
    | some os =>
      match os.ComputerNamePrefix with
      | none => vmssFlex.Name.getD ""
      | some computerNamePrefix => computerNamePrefix

/-- The `Range` callback of the getter inside `getNodeVmssFlexID`, over the entries in the
order they are visited: a scale set matching the node name without its last six bytes is
prepended, any other one appended. `nodeName[:len(nodeName)-6]` panics on a shorter name. -/
def candidateVmssFlexIDs (nodeName : String) :
    List (String × VirtualMachineScaleSet) → List String → Outcome (List String)
  | [], vmssFlexIDs => .ok vmssFlexIDs
  | (vmssFlexID, vmssFlex) :: rest, vmssFlexIDs =>
    match vmssFlex.VirtualMachineScaleSetProperties with
    | none => .panic "nil pointer dereference: vmssFlex.VirtualMachineProfile"
    | some p =>
      if (utf8Bytes nodeName).length < 6 then .panic "slice bounds out of range"
      else if EqualFold (utf8Bytes (vmssNameToMatch vmssFlex p))
          ((utf8Bytes nodeName).take ((utf8Bytes nodeName).length - 6)) then
        candidateVmssFlexIDs nodeName rest (vmssFlexID :: vmssFlexIDs)
      else candidateVmssFlexIDs nodeName rest (vmssFlexIDs ++ [vmssFlexID])

/-- The loop over the candidates inside `getNodeVmssFlexID`: the VM collection of each one is
force-refreshed until the node is in the node-name to scale-set-id index. -/
def probeVmssFlexIDs (w : Cloud) (nodeName : String) :
    List String → FlexScaleSet → FlexScaleSet × Outcome String
  | [], fs => (fs, .err .InstanceNotFound)
  | vmssID :: rest, fs =>
    match vmssFlexVMCacheGet w fs vmssID .CacheReadTypeForceRefresh with
    | (fs1, .err e) => (fs1, .err e)
    | (fs1, .panic msg) => (fs1, .panic msg)
    | (fs1, .ok _) =>
      match fs1.vmssFlexNodeNameToVmssID.Load nodeName with
      | some cachedVmssFlexID => (fs1, .ok cachedVmssFlexID)
      | none => probeVmssFlexIDs w nodeName rest fs1

/-- The closure `getter` inside `getNodeVmssFlexID`: one lookup pass under a read policy. -/
def getNodeVmssFlexID.getter (w : Cloud) (fs : FlexScaleSet) (nodeName : String)
    (crt : AzureCacheReadType) : FlexScaleSet × Outcome String :=
  match vmssFlexCacheGet w fs w.VmssFlexKey crt with
  | (fs1, .err e) => (fs1, .err e)
  | (fs1, .panic msg) => (fs1, .panic msg)
  | (fs1, .ok none) => (fs1, .panic "interface conversion: interface is nil, not *sync.Map")
  | (fs1, .ok (some vmssFlexes)) =>
    match candidateVmssFlexIDs nodeName vmssFlexes.Range [] with
    | .err e => (fs1, .err e)
    | .panic msg => (fs1, .panic msg)
    | .ok vmssFlexIDs => probeVmssFlexIDs w nodeName vmssFlexIDs fs1

/-- The method `getNodeVmssFlexID`. The deferred `UnlockEntry` runs on every way out. -/
def getNodeVmssFlexID (w : Cloud) (fs : FlexScaleSet) (nodeName : String) :
    FlexScaleSet × Outcome String :=
  let fs0 := fs.record (.LockEntry w.GetNodeVmssFlexIDLockKey)
  let r : FlexScaleSet × Outcome String :=
    match fs0.vmssFlexNodeNameToVmssID.Load nodeName with
    | some cachedVmssFlexID => (fs0, .ok cachedVmssFlexID)
    | none =>
      match getNodeVmssFlexID.getter w fs0 nodeName .CacheReadTypeDefault with
      | (fs1, .err e) =>
        if e.isInstanceNotFound then
          getNodeVmssFlexID.getter w fs1 nodeName .CacheReadTypeForceRefresh
        else (fs1, .err e)
      | (fs1, .ok vmssFlexID) => (fs1, .ok vmssFlexID)
      | (fs1, .panic msg) => (fs1, .panic msg)
  (r.1.record (.UnlockEntry w.GetNodeVmssFlexIDLockKey), r.2)

/-- The method `getVmssFlexVMByVMName`. -/
def getVmssFlexVMByVMName (w : Cloud) (fs : FlexScaleSet) (vmName : String)
    (crt : AzureCacheReadType) : FlexScaleSet × Outcome VirtualMachine :=
  let fs1 := fs.record (.getVirtualMachine vmName crt)
  match w.getVirtualMachine vmName crt with
  | .err e => (fs1, .err e)
  | .panic msg => (fs1, .panic msg)
  | .ok vm =>
    match cacheVirtualMachine fs1 vm with
    | (fs2, .ok _) => (fs2, .ok vm)
    | (fs2, .err e) => (fs2, .err e)
    | (fs2, .panic msg) => (fs2, .panic msg)

/-- The method `getVmssFlexVM`. -/
def getVmssFlexVM (w : Cloud) (fs : FlexScaleSet) (nodeName : String)
    (crt : AzureCacheReadType) : FlexScaleSet × Outcome VirtualMachine :=
  match fs.vmssFlexNodeNameToVMName.Load nodeName with
  | some cachedVMName => getVmssFlexVMByVMName w fs cachedVMName crt
  | none =>
    match getNodeVmssFlexID w fs nodeName with
    | (fs1, .err e) => (fs1, .err e)
    | (fs1, .panic msg) => (fs1, .panic msg)
    | (fs1, .ok vmssFlexID) =>
      match vmssFlexVMCacheGet w fs1 vmssFlexID crt with
      | (fs2, .err e) => (fs2, .err e)
      | (fs2, .panic msg) => (fs2, .panic msg)
      | (fs2, .ok none) => (fs2, .panic "interface conversion: interface is nil, not *sync.Map")
      | (fs2, .ok (some vmMap)) =>
        match vmMap.Load nodeName with
        | none => (fs2, .err .InstanceNotFound)
        | some cachedVM => (fs2, .ok cachedVM)

/-- The method `DeleteCacheForNode`. -/
def DeleteCacheForNode (w : Cloud) (fs : FlexScaleSet) (nodeName : String) :
    FlexScaleSet × Outcome Unit :=
  if fs.DisableAPICallCache then (fs, .ok ())
  else
    match getNodeVmssFlexID w fs nodeName with
    | (fs1, .err e) => (fs1, .err e)
    | (fs1, .panic msg) => (fs1, .panic msg)
    | (fs1, .ok vmssFlexID) =>
      let fs2 := fs1.record (.LockEntry vmssFlexID)
      match vmssFlexVMCacheGet w fs2 vmssFlexID .CacheReadTypeNoRefresh with
      | (fs3, .err e) => (fs3.record (.UnlockEntry vmssFlexID), .err e)
      | (fs3, .panic msg) => (fs3.record (.UnlockEntry vmssFlexID), .panic msg)
      | (fs3, .ok cached) =>
        let fs4 :=
          match cached with
          | none => fs3
          | some vmMap =>
            { fs3 with
              vmssFlexVMCache :=
                fs3.vmssFlexVMCache.Update fs3.now vmssFlexID (vmMap.Delete nodeName) }
        ((deleteNodeFromIndices fs4 nodeName).record (.UnlockEntry vmssFlexID), .ok ())

/-! ## Reachable index states -/

/-- The index states reachable from empty indices by absorbing descriptors that satisfy `Q`
(with `cacheVirtualMachine`) and by the index removals of `DeleteCacheForNode`. -/
inductive IndexReachable (Q : VirtualMachine → Prop) : FlexScaleSet → Prop where
  | init (fs : FlexScaleSet)
      (h1 : fs.vmssFlexVMNameToNodeName = SyncMap.empty)
      (h2 : fs.vmssFlexNodeNameToVMName = SyncMap.empty)
      (h3 : fs.vmssFlexNodeNameToVmssID = SyncMap.empty) : IndexReachable Q fs
  | absorb (fs fs1 : FlexScaleSet) (vm : VirtualMachine) (h : IndexReachable Q fs) (hQ : Q vm)
      (hstep : cacheVirtualMachine fs vm = (fs1, .ok ())) : IndexReachable Q fs1
  | remove (fs : FlexScaleSet) (nodeName : String) (h : IndexReachable Q fs) :
      IndexReachable Q (deleteNodeFromIndices fs nodeName)

/-- The descriptors that follow a naming `nodeOf` of VM names to node names. -/
def FollowsNaming (nodeOf : String → String) (vm : VirtualMachine) : Prop :=
  ∀ name n, vm.Name = some name → vm.nodeName = some n → n = nodeOf name

/-! ## Fixtures: the descriptors of the tests and some states -/

/-- A descriptor with a VM name, a computer name and possibly an owning scale set. -/
def testVM (name computerName : String) (vmssFlexID : Option String) : VirtualMachine :=
  { Name := some name
    ID := none
    VirtualMachineProperties := some
      { OsProfile := some { ComputerName := some computerName }
        ProvisioningState := none
        VirtualMachineScaleSet := vmssFlexID.map (fun id => { ID := some id })
        InstanceView := none } }

/-- The identifier `testVmssFlex1ID` of the tests. -/
def testVmssFlex1ID : String :=
  "subscriptions/sub/resourceGroups/rg/providers/Microsoft.Compute/virtualMachineScaleSets/vmssflex1"

/-- The descriptors `testVM1`, `testVM2`, `testVM3` of the tests (without instance view). -/
def testVM1 : VirtualMachine := testVM "testvm1" "vmssflex1000001" (some testVmssFlex1ID)

/-- See `testVM1`. -/
def testVM2 : VirtualMachine := testVM "testvm2" "vmssflex1000002" (some testVmssFlex1ID)

/-- See `testVM1`. -/
def testVM3 : VirtualMachine := testVM "testvm3" "vmssflex1000003" (some testVmssFlex1ID)

/-- A VM that is not a member of a scale set. -/
def standaloneVM : VirtualMachine := testVM "testvm9" "VM9" none

/-- A fresh `FlexScaleSet`: empty caches and indices, caching enabled. -/
def emptyFlexScaleSet : FlexScaleSet :=
  { DisableAPICallCache := false
    now := 0
    vmssFlexCache := { TTL := 600, Store := SyncMap.empty }
    vmssFlexVMCache := { TTL := 600, Store := SyncMap.empty }
    vmssFlexVMNameToNodeName := SyncMap.empty
    vmssFlexNodeNameToVMName := SyncMap.empty
    vmssFlexNodeNameToVmssID := SyncMap.empty
    trace := [] }

/-- The descriptor of a VM re-created under a new VM name with the computer name of `testVM1`. -/
def testVM1Recreated : VirtualMachine :=
  testVM "testvm1b" "vmssflex1000001" (some testVmssFlex1ID)

/-- The state after absorbing `testVM1` and then `testVM1Recreated` into empty indices. -/
def twoNamesOneNode : FlexScaleSet :=
  (cacheVirtualMachine (cacheVirtualMachine emptyFlexScaleSet testVM1).1 testVM1Recreated).1

/-- A state whose node-name to scale-set-id index has an entry for the node "vm9". -/
def staleVmssIDEntry : FlexScaleSet :=
  { emptyFlexScaleSet with
    vmssFlexNodeNameToVmssID := SyncMap.empty.Store "vm9" testVmssFlex1ID }

/-- A one-to-one naming that sends the VM name "testvm1" to the node name "vmssflex1000001". -/
def testNaming : String → String :=
  Equiv.swap "testvm1" "vmssflex1000001"

/-! ## Invariants -/

/-- The two facts that absorbing under a one-to-one naming keeps true: the node-name to VM-name
index is the inverse of the VM-name to node-name index, and every VM name is mapped to the node
name the naming gives it. -/
def IndicesInverse (nodeOf : String → String) (fs : FlexScaleSet) : Prop :=
  (∀ n v, fs.vmssFlexNodeNameToVMName.Load n = some v ↔
      fs.vmssFlexVMNameToNodeName.Load v = some n) ∧
  (∀ v n, fs.vmssFlexVMNameToNodeName.Load v = some n → n = nodeOf v)

/-- The VM listings of the remote side return only descriptors that satisfy `Q`. -/
def ListsOnly (w : Cloud) (Q : VirtualMachine → Prop) : Prop :=
  ∀ key vms, w.ListVmssFlexVMsWithoutInstanceView key = .ok vms → ∀ vm ∈ vms, Q vm

/-- A property `P` of the state that no step of the refresh machinery destroys: recording an
event, absorbing a descriptor that satisfies `Q`, and what a read of a timed cache does with
the state `fs1` that the getter left (or with the state `fs` before the read itself): it puts
back the cache as it was, or, with caching enabled, it stores the payload of a successful
refresh under the key. -/
structure Preserved (w : Cloud) (Q : VirtualMachine → Prop) (P : FlexScaleSet → Prop) : Prop where
  record : ∀ fs e, P fs → P (fs.record e)
  absorb : ∀ fs vm, Q vm → P fs → P (cacheVirtualMachine fs vm).1
  keepVmssFlexCache : ∀ fs fs1, P fs → P fs1 → P { fs1 with vmssFlexCache := fs.vmssFlexCache }
  setVmssFlexCache : ∀ fs fs1 key data, P fs → P fs1 → fs.DisableAPICallCache = false →
    vmssFlexCacheGetter w fs key = (fs1, .ok data) →
    P { fs1 with
        vmssFlexCache :=
          { fs.vmssFlexCache with Store := fs.vmssFlexCache.Store.Store key ⟨some data, fs.now⟩ } }
  keepVmssFlexVMCache : ∀ fs fs1, P fs → P fs1 → P { fs1 with vmssFlexVMCache := fs.vmssFlexVMCache }
  setVmssFlexVMCache : ∀ fs fs1 key data, P fs → P fs1 → fs.DisableAPICallCache = false →
    vmssFlexVMCacheGetter w fs key = (fs1, .ok data) →
    P { fs1 with
        vmssFlexVMCache :=
          { fs.vmssFlexVMCache with
            Store := fs.vmssFlexVMCache.Store.Store key ⟨some data, fs.now⟩ } }

/-- With API-call caching disabled nothing is cached: the stores of both timed caches are
empty. -/
def FlexScaleSet.WellFormed (fs : FlexScaleSet) : Prop :=
  fs.DisableAPICallCache = true →
    fs.vmssFlexCache.Store = SyncMap.empty ∧ fs.vmssFlexVMCache.Store = SyncMap.empty

/-! ## Fixtures: a remote side with one scale set of three VMs -/

/-- The scale set `testVmssFlex1` of the tests. -/
def testVmssFlex1 : VirtualMachineScaleSet :=
  { ID := some testVmssFlex1ID
    Name := some "vmssflex1"
    VirtualMachineScaleSetProperties := some
      { VirtualMachineProfile := some { OsProfile := some { ComputerNamePrefix := some "vmssflex1" } }
        OrchestrationMode := .Flexible } }

/-- The instance view that the tests give every VM. -/
def testInstanceView : VirtualMachineInstanceView :=
  { PlatformFaultDomain := some 1, Statuses := some ["PowerState/running"] }

/-- An entry of the listing with only instance views. -/
def testVMWithOnlyInstanceView (name : String) : VirtualMachine :=
  { Name := some name
    ID := none
    VirtualMachineProperties := some
      { OsProfile := none
        ProvisioningState := none
        VirtualMachineScaleSet := none
        InstanceView := some testInstanceView } }

/-- The descriptor `testVM1` with its instance view merged in. -/
def testVM1WithInstanceView : VirtualMachine :=
  { Name := some "testvm1"
    ID := none
    VirtualMachineProperties := some
      { OsProfile := some { ComputerName := some "vmssflex1000001" }
        ProvisioningState := none
        VirtualMachineScaleSet := some { ID := some testVmssFlex1ID }
        InstanceView := some testInstanceView } }

/-- A remote side with one resource group holding the scale set `testVmssFlex1` and its three
VMs. -/
def testCloud : Cloud :=
  { VmssFlexKey := "k8sVmssFlexKey"
    GetNodeVmssFlexIDLockKey := "k8sGetNodeVmssFlexIDLockKey"
    GetResourceGroups := .ok ["rg"]
    ListScaleSets := fun _ => .ok [testVmssFlex1]
    ListVmssFlexVMsWithoutInstanceView := fun _ => .ok [testVM1, testVM2, testVM3]
    ListVmssFlexVMsWithOnlyInstanceView := fun _ =>
      .ok [testVMWithOnlyInstanceView "testvm1", testVMWithOnlyInstanceView "testvm2",
        testVMWithOnlyInstanceView "testvm3"]
    getVirtualMachine := fun vmName _ =>
      if vmName = "testvm1" then .ok testVM1WithInstanceView else .err .InstanceNotFound }

/-- The state after the first resolution of the node "vmssflex1000001" against `testCloud`:
both collections cached, the three VMs indexed. -/
def warmFlexScaleSet : FlexScaleSet :=
  (getVmssFlexVM testCloud emptyFlexScaleSet "vmssflex1000001" .CacheReadTypeDefault).1

/-- A state with API-call caching disabled in which `testVM1` is indexed. -/
def disabledFlexScaleSet : FlexScaleSet :=
  { (cacheVirtualMachine emptyFlexScaleSet testVM1).1 with DisableAPICallCache := true }

/-- The descriptor a second resource group holds under the VM name "testvm1", with another
computer name. -/
def testVM1OtherGroup : VirtualMachine :=
  testVM "testvm1" "vmssflex1000007" (some testVmssFlex1ID)

/-- The state after absorbing `testVM1` and then `testVM1OtherGroup` into empty indices. -/
def oneNameTwoNodes : FlexScaleSet :=
  (cacheVirtualMachine (cacheVirtualMachine emptyFlexScaleSet testVM1).1 testVM1OtherGroup).1

/-- The remote side `testCloud`, except that the lookup of the VM name "testvm1" answers with
the descriptor of the other resource group, whose computer name is "vmssflex1000007". -/
def otherGroupCloud : Cloud :=
  { testCloud with
    getVirtualMachine := fun vmName _ =>
      if vmName = "testvm1" then .ok testVM1OtherGroup else .err .InstanceNotFound }

/-! ## A remote side that answers every call -/

/-- Every scale set of a collection has its properties sub-object. -/
def AllHaveProperties (coll : SyncMap VirtualMachineScaleSet) : Prop :=
  ∀ e ∈ coll.entries, e.2.VirtualMachineScaleSetProperties ≠ none

/-- Every descriptor of a VM collection has its properties sub-object. -/
def AllVMsHaveProperties (coll : SyncMap VirtualMachine) : Prop :=
  ∀ e ∈ coll.entries, e.2.VirtualMachineProperties ≠ none

/-- Every scale set of every cached scale-set collection has its properties sub-object (the
refresh stores no other). -/
def FlexScaleSet.ScaleSetsHaveProperties (fs : FlexScaleSet) : Prop :=
  ∀ key coll, fs.vmssFlexCache.cached key = some coll → AllHaveProperties coll

/-- The remote side answers every call, and with descriptors that have their properties
sub-object (and a VM name when they have a computer name): the resource groups are listed, the
scale sets of a resource group are listed or the group is not found, and both VM listings of
every scale set succeed. -/
structure Cloud.Healthy (w : Cloud) : Prop where
  groups : ∃ groups, w.GetResourceGroups = .ok groups
  scaleSets : ∀ resourceGroup,
    (∃ rerr, w.ListScaleSets resourceGroup = .error rerr ∧ rerr.IsNotFound = true) ∨
    (∃ all, w.ListScaleSets resourceGroup = .ok all ∧
      ∀ scaleSet ∈ all, scaleSet.VirtualMachineScaleSetProperties ≠ none)
  vms : ∀ key, ∃ vms, w.ListVmssFlexVMsWithoutInstanceView key = .ok vms ∧
    ∀ vm ∈ vms, vm.VirtualMachineProperties ≠ none ∧ (vm.nodeName ≠ none → vm.Name ≠ none)
  views : ∀ key, ∃ views, w.ListVmssFlexVMsWithOnlyInstanceView key = .ok views ∧
    ∀ vm ∈ views, vm.VirtualMachineProperties ≠ none

/-- The remote side `testCloud` after the VM "testvm1" is gone: the listings of the scale set
return the two other VMs only. -/
def shrunkCloud : Cloud :=
  { testCloud with
    ListVmssFlexVMsWithoutInstanceView := fun _ => .ok [testVM2, testVM3]
    ListVmssFlexVMsWithOnlyInstanceView := fun _ =>
      .ok [testVMWithOnlyInstanceView "testvm2", testVMWithOnlyInstanceView "testvm3"]
    getVirtualMachine := fun _ _ => .err .InstanceNotFound }

/-! ## The other resolvers -/

/-- The closure `getter` inside `getNodeNameByVMName`: one lookup pass under a read policy. -/
def getNodeNameByVMName.getter (w : Cloud) (fs : FlexScaleSet) (vmName : String)
    (crt : AzureCacheReadType) : FlexScaleSet × Outcome String :=
  match getVmssFlexVMByVMName w fs vmName crt with
  | (fs1, .err e) => (fs1, .err e)
  | (fs1, .panic msg) => (fs1, .panic msg)
  | (fs1, .ok vm) =>
    match vm.VirtualMachineProperties with
    | none => (fs1, .panic "nil pointer dereference: vm.OsProfile")
    | some p =>
      match p.OsProfile with
      | none => (fs1, .err .InstanceNotFound)
      | some os =>
        match os.ComputerName with
        | none => (fs1, .err .InstanceNotFound)
        | some computerName => (fs1, .ok (ToLower computerName))

/-- The method `getNodeNameByVMName`. The deferred `UnlockEntry` runs on every way out. -/
def getNodeNameByVMName (w : Cloud) (fs : FlexScaleSet) (vmName : String) :
    FlexScaleSet × Outcome String :=
  let fs0 := fs.record (.LockEntry w.GetNodeVmssFlexIDLockKey)
  let r : FlexScaleSet × Outcome String :=
    match fs0.vmssFlexVMNameToNodeName.Load vmName with
    | some cachedNodeName => (fs0, .ok cachedNodeName)
    | none =>
      match getNodeNameByVMName.getter w fs0 vmName .CacheReadTypeDefault with
      | (fs1, .err e) =>
        if e.isInstanceNotFound then
          getNodeNameByVMName.getter w fs1 vmName .CacheReadTypeForceRefresh
        else (fs1, .err e)
      | (fs1, .ok nodeName) => (fs1, .ok nodeName)
      | (fs1, .panic msg) => (fs1, .panic msg)
  (r.1.record (.UnlockEntry w.GetNodeVmssFlexIDLockKey), r.2)

/-- The retry that `getNodeVmssFlexID` and `getNodeNameByVMName` both end with, over any
pass: one pass under the default policy, and one more under `ForceRefresh` when the first one
ended with an error that is `cloudprovider.InstanceNotFound`. -/
def retryOnNotFound {σ α : Type} (pass : σ → AzureCacheReadType → σ × Outcome α) (s : σ) :
    σ × Outcome α :=
  match pass s .CacheReadTypeDefault with
  | (s1, .err e) =>
    if e.isInstanceNotFound then pass s1 .CacheReadTypeForceRefresh else (s1, .err e)
  | (s1, .ok value) => (s1, .ok value)
  | (s1, .panic msg) => (s1, .panic msg)

/-- A pass that also writes its read policy into a log of the passes that ran. -/
def loggedPass {σ α : Type} (pass : σ → AzureCacheReadType → σ × Outcome α) :
    σ × List AzureCacheReadType → AzureCacheReadType →
      (σ × List AzureCacheReadType) × Outcome α :=
  fun s crt => (((pass s.1 crt).1, s.2 ++ [crt]), (pass s.1 crt).2)

/-- The method `getVmssFlexByVmssFlexID`; a nil result with an error is the outcome `err`. -/
def getVmssFlexByVmssFlexID (w : Cloud) (fs : FlexScaleSet) (vmssFlexID : String)
    (crt : AzureCacheReadType) : FlexScaleSet × Outcome VirtualMachineScaleSet :=
  match vmssFlexCacheGet w fs w.VmssFlexKey crt with
  | (fs1, .err e) => (fs1, .err e)
  | (fs1, .panic msg) => (fs1, .panic msg)
  | (fs1, .ok none) => (fs1, .panic "interface conversion: interface is nil, not *sync.Map")
  | (fs1, .ok (some vmssFlexes)) =>
    match vmssFlexes.Load vmssFlexID with
    | some vmssFlex => (fs1, .ok vmssFlex)
    | none =>
      match vmssFlexCacheGet w fs1 w.VmssFlexKey .CacheReadTypeForceRefresh with
      | (fs2, .err e) => (fs2, .err e)
      | (fs2, .panic msg) => (fs2, .panic msg)
      | (fs2, .ok none) => (fs2, .panic "interface conversion: interface is nil, not *sync.Map")
      | (fs2, .ok (some refreshed)) =>
        match refreshed.Load vmssFlexID with
        | some vmssFlex => (fs2, .ok vmssFlex)
        | none => (fs2, .err .InstanceNotFound)

/-- The characters of a string after its last separator (the whole string without one). -/
def trailingSegment (ID : String) (separator : Char) : String :=
  String.mk (ID.data.reverse.takeWhile (fun c => c ≠ separator)).reverse

/-- Modelled from the spec: `getLastSegment` of `azure_utils.go`, a file that is not embedded
here: the trailing path segment of an identifier; the error that its callers skip (`none`) is
an empty trailing segment. The callers pass the separator "/". -/
def getLastSegment (ID : String) (separator : Char) : Option String :=
  if trailingSegment ID separator = "" then none else some (trailingSegment ID separator)

/-- The `Range` callback of `getVmssFlexIDByName`, over the entries in the order they are
visited: the first identifier whose last segment is the name, ignoring case, or "" without
one. -/
def findVmssFlexIDByName (vmssFlexName : String) : List (String × VirtualMachineScaleSet) → String
  | [] => ""
  | (vmssFlexID, _) :: rest =>
    match getLastSegment vmssFlexID '/' with
    | none => findVmssFlexIDByName vmssFlexName rest
    | some name =>
      if EqualFold (utf8Bytes name) (utf8Bytes vmssFlexName) then vmssFlexID
      else findVmssFlexIDByName vmssFlexName rest

/-- The method `getVmssFlexIDByName`. -/
def getVmssFlexIDByName (w : Cloud) (fs : FlexScaleSet) (vmssFlexName : String) :
    FlexScaleSet × Outcome String :=
  match vmssFlexCacheGet w fs w.VmssFlexKey .CacheReadTypeDefault with
  | (fs1, .err e) => (fs1, .err e)
  | (fs1, .panic msg) => (fs1, .panic msg)
  | (fs1, .ok none) => (fs1, .panic "interface conversion: interface is nil, not *sync.Map")
  | (fs1, .ok (some vmssFlexes)) =>
    if findVmssFlexIDByName vmssFlexName vmssFlexes.Range ≠ "" then
      (fs1, .ok (findVmssFlexIDByName vmssFlexName vmssFlexes.Range))
    else (fs1, .err .InstanceNotFound)

/-- The `Range` callback of `getVmssFlexByName`: the first scale set whose identifier has the
name as its last segment, ignoring case. -/
def findVmssFlexByName (vmssFlexName : String) :
    List (String × VirtualMachineScaleSet) → Option VirtualMachineScaleSet
  | [] => none
  | (vmssFlexID, vmssFlex) :: rest =>
    match getLastSegment vmssFlexID '/' with
    | none => findVmssFlexByName vmssFlexName rest
    | some name =>
      if EqualFold (utf8Bytes name) (utf8Bytes vmssFlexName) then some vmssFlex
      else findVmssFlexByName vmssFlexName rest

/-- The method `getVmssFlexByName`; a nil result with an error is the outcome `err`. -/
def getVmssFlexByName (w : Cloud) (fs : FlexScaleSet) (vmssFlexName : String) :
    FlexScaleSet × Outcome VirtualMachineScaleSet :=
  match vmssFlexCacheGet w fs w.VmssFlexKey .CacheReadTypeDefault with
  | (fs1, .err e) => (fs1, .err e)
  | (fs1, .panic msg) => (fs1, .panic msg)
  | (fs1, .ok none) => (fs1, .panic "interface conversion: interface is nil, not *sync.Map")
  | (fs1, .ok (some vmssFlexes)) =>
    match findVmssFlexByName vmssFlexName vmssFlexes.Range with
    | some vmssFlex => (fs1, .ok vmssFlex)
    | none => (fs1, .err .InstanceNotFound)

/-! ## Runs of a lookup pass that find nothing -/

/-- The VM collection of every candidate is force-refreshed without error, and after each
refresh the node is still absent from the node-name to scale-set-id index. -/
def probesWithoutFinding (w : Cloud) (nodeName : String) : List String → FlexScaleSet → Bool
  | [], _ => true
  | vmssID :: rest, fs =>
    match vmssFlexVMCacheGet w fs vmssID .CacheReadTypeForceRefresh with
    | (fs1, .ok _) =>
      (fs1.vmssFlexNodeNameToVmssID.Load nodeName).isNone &&
        probesWithoutFinding w nodeName rest fs1
    | _ => false

/-- A lookup pass in which the scale-set collection is read without error, the candidate list
is built, and probing the candidates finds nothing (see `probesWithoutFinding`). -/
def passFindsNothing (w : Cloud) (fs : FlexScaleSet) (nodeName : String)
    (crt : AzureCacheReadType) : Bool :=
  match vmssFlexCacheGet w fs w.VmssFlexKey crt with
  | (fs1, .ok (some vmssFlexes)) =>
    match candidateVmssFlexIDs nodeName vmssFlexes.Range [] with
    | .ok vmssFlexIDs => probesWithoutFinding w nodeName vmssFlexIDs fs1
    | _ => false
  | _ => false

/-! ## The candidate ranking -/

/-- Whether a scale set is ranked first for a node name: its computer-name-prefix, or its name
without one, equals the node name without its last six bytes, ignoring case. -/
def matchesNodeName (nodeName : String) (vmssFlex : VirtualMachineScaleSet) : Bool :=
  match vmssFlex.VirtualMachineScaleSetProperties with
  | none => false
  | some p =>
    EqualFold (utf8Bytes (vmssNameToMatch vmssFlex p))
      ((utf8Bytes nodeName).take ((utf8Bytes nodeName).length - 6))

/-- The keys of a `sync.Map` are distinct. -/
def SyncMap.NodupKeys {α : Type} (m : SyncMap α) : Prop :=
  (m.entries.map Prod.fst).Nodup

/-- The identifier `testVmssFlex2ID` of the tests. -/
def testVmssFlex2ID : String :=
  "subscriptions/sub/resourceGroups/rg/providers/Microsoft.Compute/virtualMachineScaleSets/vmssflex2"

/-- A second flexible scale set, "vmssflex2". -/
def testVmssFlex2 : VirtualMachineScaleSet :=
  { ID := some testVmssFlex2ID
    Name := some "vmssflex2"
    VirtualMachineScaleSetProperties := some
      { VirtualMachineProfile := some { OsProfile := some { ComputerNamePrefix := some "VmssFlex2" } }
        OrchestrationMode := .Flexible } }

/-- A collection of two scale sets in which `Range` visits "vmssflex2" first. -/
def twoScaleSets : SyncMap VirtualMachineScaleSet :=
  (SyncMap.empty.Store testVmssFlex1ID testVmssFlex1).Store testVmssFlex2ID testVmssFlex2

/-- The number of refreshes of the scale-set collection so far: every run of the getter of
`newVmssFlexCache` obtains the resource groups once. -/
def FlexScaleSet.refreshes (fs : FlexScaleSet) : Nat :=
  fs.trace.count .GetResourceGroups

/-- The remote side `testCloud` before the scale set was created: no scale set is listed. -/
def noScaleSetsCloud : Cloud :=
  { testCloud with ListScaleSets := fun _ => .ok [] }

/-- A state whose cached scale-set collection is empty and younger than the TTL: the state
after a read against `noScaleSetsCloud`. -/
def staleScaleSets : FlexScaleSet :=
  (vmssFlexCacheGet noScaleSetsCloud emptyFlexScaleSet "k8sVmssFlexKey" .CacheReadTypeDefault).1

/-- Whether the last segment of an identifier, which `getLastSegment` returns when it is not
empty, is the name, ignoring case. -/
def segmentMatches (vmssFlexName vmssFlexID : String) : Bool :=
  match getLastSegment vmssFlexID '/' with
  | none => false
  | some name => EqualFold (utf8Bytes name) (utf8Bytes vmssFlexName)

/-- Every scale set that a listing of the remote side returns has its properties sub-object. -/
def Cloud.ListsScaleSetsWithProperties (w : Cloud) : Prop :=
  ∀ resourceGroup all, w.ListScaleSets resourceGroup = .ok all →
    ∀ scaleSet ∈ all, scaleSet.VirtualMachineScaleSetProperties ≠ none

/-- A remote side with two resource groups: the listing of "rg1" answers not-found, "rg2" holds
the scale set `testVmssFlex1` (the second listing of `TestGetVmssFlexByVmssFlexID`). -/
def twoGroupsCloud : Cloud :=
  { testCloud with
    GetResourceGroups := .ok ["rg1", "rg2"]
    ListScaleSets := fun resourceGroup =>
      if resourceGroup = "rg1" then .error ⟨404, .other "not found"⟩ else .ok [testVmssFlex1] }

/-- A listed scale set that the refresh stores under an identifier: the identifier is its own
and is not empty, and its orchestration mode is `Flexible`. -/
def StoredUnder (vmssFlexID : String) (scaleSet : VirtualMachineScaleSet) : Prop :=
  scaleSet.ID = some vmssFlexID ∧ vmssFlexID ≠ "" ∧
    ∃ p, scaleSet.VirtualMachineScaleSetProperties = some p ∧ p.OrchestrationMode = .Flexible

/-- A uniform scale set, listed next to a flexible one. -/
def testVmssUniform : VirtualMachineScaleSet :=
  { testVmssFlex1 with
    ID := some "subscriptions/sub/resourceGroups/rg/providers/Microsoft.Compute/virtualMachineScaleSets/vmss1"
    Name := some "vmss1"
    VirtualMachineScaleSetProperties :=
      testVmssFlex1.VirtualMachineScaleSetProperties.map
        (fun p => { p with OrchestrationMode := .Uniform }) }

/-- The remote side `twoGroupsCloud` whose second resource group also lists a uniform scale set
and a scale set without identifier. -/
def mixedScaleSetsCloud : Cloud :=
  { twoGroupsCloud with
    ListScaleSets := fun resourceGroup =>
      if resourceGroup = "rg1" then .error ⟨404, .other "not found"⟩
      else .ok [testVmssUniform, { testVmssFlex1 with ID := none }, testVmssFlex1] }

/-- The instance view that a descriptor carries (none without properties). -/
def VirtualMachine.instanceView (vm : VirtualMachine) : Option VirtualMachineInstanceView :=
  match vm.VirtualMachineProperties with
  | none => none
  | some p => p.InstanceView

/-- A descriptor with its instance view replaced: the assignment
`cachedVM.VirtualMachineProperties.InstanceView = ...` on a descriptor that has properties. -/
def VirtualMachine.withInstanceView (vm : VirtualMachine)
    (instanceView : Option VirtualMachineInstanceView) : VirtualMachine :=
  match vm.VirtualMachineProperties with
  | none => vm
  | some p => { vm with VirtualMachineProperties := some { p with InstanceView := instanceView } }

/-- The descriptor as it is, or with the instance view that was found for it. -/
def VirtualMachine.applyInstanceView (vm : VirtualMachine)
    (found : Option (Option VirtualMachineInstanceView)) : VirtualMachine :=
  match found with
  | none => vm
  | some instanceView => vm.withInstanceView instanceView

/-- The instance view of the last entry of a listing whose VM name the index maps to the node
name, if there is such an entry. -/
def lastInstanceViewFor (index : SyncMap String) (nodeName : String) :
    List VirtualMachine → Option (Option VirtualMachineInstanceView)
  | [] => none
  | vm :: rest =>
    match lastInstanceViewFor index nodeName rest with
    | some instanceView => some instanceView
    | none =>
      match vm.Name with
      | none => none
      | some name => if index.Load name = some nodeName then some vm.instanceView else none

/-- The instance view of the last entry of a listing with the VM name, if there is such an
entry. -/
def lastInstanceViewNamed (vmName : String) :
    List VirtualMachine → Option (Option VirtualMachineInstanceView)
  | [] => none
  | vm :: rest =>
    match lastInstanceViewNamed vmName rest with
    | some instanceView => some instanceView
    | none => if vm.Name = some vmName then some vm.instanceView else none

/-- A state in which `testVM1` is indexed: the VM name "testvm1" is mapped to the node name
"vmssflex1000001". -/
def testVM1Indexed : FlexScaleSet :=
  (cacheVirtualMachine emptyFlexScaleSet testVM1).1

/-- The remote side `testCloud` after the VM of the node "vmssflex1000001" was re-created as
"testvm1b": the listing without instance view returns `testVM1Recreated` only, the listing with
only instance views still returns an entry named "testvm1". -/
def recreatedCloud : Cloud :=
  { testCloud with
    ListVmssFlexVMsWithoutInstanceView := fun _ => .ok [testVM1Recreated]
    ListVmssFlexVMsWithOnlyInstanceView := fun _ => .ok [testVMWithOnlyInstanceView "testvm1"] }

/-- The three descriptors of `testCloud` as the first loop of the refresh stores them. -/
def testBaseVMs : SyncMap VirtualMachine :=
  ((SyncMap.empty.Store "vmssflex1000001" testVM1).Store "vmssflex1000002" testVM2).Store
    "vmssflex1000003" testVM3

/-- The three descriptors of `testCloud` with their instance views merged in. -/
def testMergedVMs : SyncMap VirtualMachine :=
  ((SyncMap.empty.Store "vmssflex1000001" testVM1WithInstanceView).Store "vmssflex1000002"
    (testVM2.withInstanceView (some testInstanceView))).Store "vmssflex1000003"
    (testVM3.withInstanceView (some testInstanceView))

/-- The three secondary indices of a state. -/
def FlexScaleSet.indices (fs : FlexScaleSet) : SyncMap String × SyncMap String × SyncMap String :=
  (fs.vmssFlexVMNameToNodeName, fs.vmssFlexNodeNameToVMName, fs.vmssFlexNodeNameToVmssID)

/-- The state after `cacheVirtualMachine` absorbed each descriptor of a listing in turn: what
the first loop of the getter of `newVmssFlexVMCache` does to the state. -/
def absorbListed (vms : List VirtualMachine) (fs : FlexScaleSet) : FlexScaleSet :=
  vms.foldl (fun s vm => (cacheVirtualMachine s vm).1) fs

/-- The remote side `testCloud` whose listing with only instance views fails with a server
error. -/
def viewsFailCloud : Cloud :=
  { testCloud with
    ListVmssFlexVMsWithOnlyInstanceView := fun _ => .error ⟨500, .other "internal server error"⟩ }

/-- The remote side `testCloud` whose listing without instance view fails with a server
error. -/
def listingFailsCloud : Cloud :=
  { testCloud with
    ListVmssFlexVMsWithoutInstanceView := fun _ => .error ⟨500, .other "internal server error"⟩ }

/-! ## Definitions for the scale sets that the remote side no longer has -/

/-- The remote side lists its resource groups and answers not-found to the listing of the scale
sets of each of them. -/
def Cloud.ScaleSetsGone (w : Cloud) : Prop :=
  ∃ groups, w.GetResourceGroups = .ok groups ∧
    ∀ resourceGroup ∈ groups, ∃ rerr, w.ListScaleSets resourceGroup = .error rerr ∧
      rerr.IsNotFound = true

/-- What is cached of the scale-set collection, if anything, is the empty collection, or caching
is disabled and every read refreshes. -/
def FlexScaleSet.CachesNoScaleSet (fs : FlexScaleSet) (key : String) : Prop :=
  fs.DisableAPICallCache = true ∨
    ∀ data lastUpdate, fs.vmssFlexCache.Store.Load key = some ⟨some data, lastUpdate⟩ →
      data = SyncMap.empty

/-- The remote side `testCloud` after its resource group was deleted: every listing and every
lookup of a VM answers not-found. -/
def goneCloud : Cloud :=
  { VmssFlexKey := "k8sVmssFlexKey"
    GetNodeVmssFlexIDLockKey := "k8sGetNodeVmssFlexIDLockKey"
    GetResourceGroups := .ok ["rg"]
    ListScaleSets := fun _ => .error ⟨404, .other "resource group not found"⟩
    ListVmssFlexVMsWithoutInstanceView := fun _ => .error ⟨404, .other "resource group not found"⟩
    ListVmssFlexVMsWithOnlyInstanceView := fun _ => .error ⟨404, .other "resource group not found"⟩
    getVirtualMachine := fun _ _ => .err .InstanceNotFound }

/-! ## The resource-graph VM client (`pkg/azureclients/v2/vmclient`) -/

/-- A Go `interface{}` value as `encoding/json` decodes it: `nil`, a `bool`, a number (only
its being one matters here), a `string`, a `[]interface{}` or a `map[string]interface{}`. -/
inductive JSONValue where
  | null
  | bool (b : Bool)
  | number (n : Int)
  | string (s : String)
  | array (items : List JSONValue)
  | object (fields : List (String × JSONValue))

/-- The value of a map under a key; Go yields the nil interface for a missing key. -/
def JSONValue.field (key : String) : List (String × JSONValue) → JSONValue
  | [] => .null
  | (k, v) :: rest => if k = key then v else JSONValue.field key rest

/-- The fields of `arg.QueryResponse` that `GetVMNameByComputerName` reads: `TotalRecords` is
an `*int64`, `Data` an `interface{}`. -/
structure QueryResponse where
  TotalRecords : Option Int
  Data : JSONValue

/-- The `*retry.Error` of the resource-graph path, with the fields that this path reads or
sets. -/
structure QueryError where
  Retriable : Bool
  HTTPStatusCode : Nat
  RetryAfter : Nat
  RawError : GoError
deriving DecidableEq, Repr

/-- Modelled from the spec: `(*retry.Error).IsThrottled` of `pkg/retry`, a package that is not
embedded here: the throttling class of an error, HTTP status 429. -/
def QueryError.IsThrottled (rerr : QueryError) : Bool :=
  rerr.HTTPStatusCode == 429

/-- Modelled from the spec: `retry.NewErrorOrNil` of `pkg/retry`, a package that is not
embedded here, on an error that is not nil: the error wrapped with the retriable flag. -/
def NewErrorOrNil (retriable : Bool) (err : GoError) : QueryError :=
  { Retriable := retriable, HTTPStatusCode := 0, RetryAfter := 0, RawError := err }

/-- Modelled from the spec: `retry.GetRateLimitError` of `pkg/retry`, a package that is not
embedded here: the error of a call that the rate limiter rejects. -/
def GetRateLimitError (isWrite : Bool) (opName : String) : QueryError :=
  { Retriable := true, HTTPStatusCode := 0, RetryAfter := 0
    RawError := .other ("azure cloud provider rate limited(" ++
      (if isWrite then "write" else "read") ++ ") for operation " ++ opName) }

/-- Modelled from the spec: `retry.GetThrottlingError` of `pkg/retry`, a package that is not
embedded here: the error of a call made before the retry-after instant has passed. -/
def GetThrottlingError (operation reason : String) (expiration : Nat) : QueryError :=
  { Retriable := true, HTTPStatusCode := 0, RetryAfter := expiration
    RawError := .other ("azure cloud provider throttled for operation " ++ operation ++
      " with reason " ++ reason) }

/-- The fields of the `Client` of `vmclient` that a lookup reads or writes. -/
structure Client where
  subscriptionID : String
  RetryAfterReader : Nat
deriving DecidableEq, Repr

/-- What one lookup meets: the answer of the rate limiter, the clock, and the answer of
`SendQuery` to a subscription and a query text. -/
structure QueryEnv where
  TryAccept : Bool
  now : Nat
  SendQuery : String → String → Except QueryError QueryResponse

/-- How a call ends that returns a pair of results: it returns them, or panics. -/
inductive Returned (α : Type) where
  | returned (results : α)
  | panic (msg : String)
deriving DecidableEq, Repr

/-- The query text `fmt.Sprintf(query, computerName, resourceGroupName)`. -/
def vmGetQuery (computerName resourceGroupName : String) : String :=
  "Resources\n| where type =~ \x27Microsoft.Compute/virtualMachines\x27\n" ++
  "| where properties[\x27osProfile\x27][\x27computerName\x27] =~ \x27" ++ computerName ++
  "\x27\n| where resourceGroup =~ \x27" ++ resourceGroupName ++
  "\x27\n| limit 1\n| project name"

/-- The method `GetVMNameByComputerName`: the state of the client after the call, and the
pair of a VM name and an error (`none` for `nil`) that it returns. -/
def GetVMNameByComputerName (c : Client) (env : QueryEnv)
    (resourceGroupName computerName : String) :
    Client × Returned (String × Option QueryError) :=
  if env.TryAccept = false then
    (c, .returned ("", some (GetRateLimitError false "VMGetV2")))
  else if env.now < c.RetryAfterReader then
    (c, .returned ("",
      some (GetThrottlingError "VMGetV2" "client throttled" c.RetryAfterReader)))
  else
    match env.SendQuery c.subscriptionID (vmGetQuery computerName resourceGroupName) with
    | .error rerr =>
      ((if rerr.IsThrottled then { c with RetryAfterReader := rerr.RetryAfter } else c),
        .returned ("", some rerr))
    | .ok result =>
      match result.TotalRecords with
      | none =>
        (c, .returned ("",
          some (NewErrorOrNil true (.other "no matching virtual machine found"))))
      | some totalRecords =>
        if totalRecords = 0 then
          (c, .returned ("",
            some (NewErrorOrNil true (.other "no matching virtual machine found"))))
        else if 1 < totalRecords then
          (c, .returned ("",
            some (NewErrorOrNil true (.other "more than one matching virtual machine found"))))
        else
          match result.Data with
          | .array [] => (c, .panic "index out of range [0] with length 0")
          | .array (data :: _) =>
            match data with
            | .null =>
              (c, .returned ("",
                some (NewErrorOrNil true (.other "no matching virtual machine found"))))
            | .object fields =>
              match JSONValue.field "name" fields with
              | .string name => (c, .returned (name, none))
              | _ => (c, .panic "interface conversion: interface \x7b\x7d is not string")
            | _ =>
              (c, .panic "interface conversion: interface \x7b\x7d is not map[string]interface \x7b\x7d")
          | _ => (c, .panic "interface conversion: interface \x7b\x7d is not []interface \x7b\x7d")

/-- A client that was never throttled. -/
def testClient : Client :=
  { subscriptionID := "sub", RetryAfterReader := 0 }

/-- A lookup that the rate limiter accepts and to which `SendQuery` answers with a response. -/
def answering (result : QueryResponse) : QueryEnv :=
  { TryAccept := true, now := 10, SendQuery := fun _ _ => .ok result }

/-- A response with one record, the row of the VM "testvm1". -/
def oneRecord : QueryResponse :=
  { TotalRecords := some 1, Data := .array [.object [("name", .string "testvm1")]] }

/-- A response that announces one record and carries an empty list of rows. -/
def oneRecordNoRow : QueryResponse :=
  { TotalRecords := some 1, Data := .array [] }

/-- A response that announces one record and carries a table (columns and rows) instead of a
list of rows. -/
def oneRecordAsTable : QueryResponse :=
  { TotalRecords := some 1
    Data := .object [("columns", .array [.object [("name", .string "name")]]),
      ("rows", .array [.array [.string "testvm1"]])] }

/-- A response that announces one record whose row has no "name" field. -/
def oneRecordNoName : QueryResponse :=
  { TotalRecords := some 1, Data := .array [.object [("id", .string "testvm1")]] }

/-! ## Definitions for the case of node names -/

/-- Every key of the two indices that are keyed by node name is lower-case. -/
def FlexScaleSet.LowerCaseKeys (fs : FlexScaleSet) : Prop :=
  (∀ n, fs.vmssFlexNodeNameToVMName.Load n ≠ none → ToLower n = n) ∧
  (∀ n, fs.vmssFlexNodeNameToVmssID.Load n ≠ none → ToLower n = n)

/-! ## Definitions for the lock operations of a trace -/

/-- The lock operations among the events of a trace, in their order. -/
def lockEvents (events : List Event) : List Event :=
  events.filter (fun e => !e.isRemoteCall)

/-- The keys an operation holds after an event, from the keys it held before: `LockEntry`
takes the key, `UnlockEntry` gives it back, a remote call changes nothing. -/
def holdAfter (e : Event) (held : List String) : List String :=
  match e with
  | .LockEntry key => key :: held
  | .UnlockEntry key => held.erase key
  | _ => held

/-- The keys an operation holds after a run of events. -/
def heldKeys : List Event → List String → List String
  | [], held => held
  | e :: rest, held => heldKeys rest (holdAfter e held)

/-- Whether the operation holds at most one key before, between and after the events of a
run. -/
def heldSingly : List Event → List String → Bool
  | [], held => decide (held.length ≤ 1)
  | e :: rest, held => decide (held.length ≤ 1) && heldSingly rest (holdAfter e held)

/-- The trace of a state continues a trace `before` with events whose lock operations are
`locks`. -/
def FlexScaleSet.Continues (fs : FlexScaleSet) (before locks : List Event) : Prop :=
  ∃ events, fs.trace = before ++ events ∧ lockEvents events = locks

/-- A property `P` of the state that the steps of the refresh machinery below the lock
operations keep: recording a remote call, absorbing a descriptor, and replacing either timed
cache. -/
structure PreservedByCalls (P : FlexScaleSet → Prop) : Prop where
  record : ∀ fs e, e.isRemoteCall = true → P fs → P (fs.record e)
  absorb : ∀ fs vm, P fs → P (cacheVirtualMachine fs vm).1
  setVmssFlexCache : ∀ fs t, P fs → P { fs with vmssFlexCache := t }
  setVmssFlexVMCache : ∀ fs t, P fs → P { fs with vmssFlexVMCache := t }

/-! ## Definitions for the keys of a scale-set collection -/

/-- Every scale set of a collection is stored under its own identifier and is flexible. -/
def KeyedByID (coll : SyncMap VirtualMachineScaleSet) : Prop :=
  ∀ vmssFlexID scaleSet, coll.Load vmssFlexID = some scaleSet →
    scaleSet.ID = some vmssFlexID ∧
    ∃ p, scaleSet.VirtualMachineScaleSetProperties = some p ∧ p.OrchestrationMode = .Flexible

/-- Every cached scale-set collection is keyed by the identifiers of its scale sets (the
refresh stores no other). -/
def FlexScaleSet.ScaleSetsKeyedByID (fs : FlexScaleSet) : Prop :=
  ∀ key coll, fs.vmssFlexCache.cached key = some coll → KeyedByID coll

/-! ## The default sender of the resource-graph client (`pkg/azureclients/v2/resourcegraph`) -/

/-- The constant `http.StatusTooManyRequests`. -/
def StatusTooManyRequests : Int := 429

/-- The `http.Client` that `sender` builds, by what tells one from another here: whether its
transport is wrapped for tracing. -/
structure HTTPClient where
  tracing : Bool
deriving DecidableEq, Repr

/-- The package variables that `sender` reads and writes: `defaultSenders.sender`, whether the
`sync.Once` of `defaultSenders.init` has run, and `autorest.StatusCodesForRetry`. -/
structure Senders where
  initDone : Bool
  sender : Option HTTPClient
  StatusCodesForRetry : List Int
deriving DecidableEq, Repr

/-- The loop of `sender` over `autorest.StatusCodesForRetry`: every code other than
`http.StatusTooManyRequests` is appended to `statusCodesForRetry`. -/
def appendCodesForRetry : List Int → List Int → List Int
  | [], statusCodesForRetry => statusCodesForRetry
  | code :: rest, statusCodesForRetry =>
    if code ≠ StatusTooManyRequests then
      appendCodesForRetry rest (statusCodesForRetry ++ [code])
    else appendCodesForRetry rest statusCodesForRetry

/-- The function `sender`: the package variables after the call and the sender it returns.
`tracingEnabled` is the answer of `tracing.IsEnabled()`. -/
def sender (tracingEnabled : Bool) (s : Senders) : Senders × Option HTTPClient :=
  if s.initDone then (s, s.sender)
  else
    ({ initDone := true
       sender := some { tracing := tracingEnabled }
       StatusCodesForRetry := appendCodesForRetry s.StatusCodesForRetry [] },
      some { tracing := tracingEnabled })

/-- The package variables before the first call of `sender`, with the status codes that
`autorest` retries on: 408, 429, 500, 502, 503 and 504. -/
def initialSenders : Senders :=
  { initDone := false, sender := none, StatusCodesForRetry := [408, 429, 500, 502, 503, 504] }

/-! ## Fixtures: descriptors with absent fields -/

/-- A descriptor whose properties sub-object is absent. -/
def vmWithoutProperties : VirtualMachine :=
  { Name := some "testvm1", ID := none, VirtualMachineProperties := none }

/-- The descriptor `testVM1` without its VM name. -/
def vmWithoutName : VirtualMachine :=
  { testVM1 with Name := none }

/-- The remote side `testCloud` whose listing without instance view returns a descriptor
without its properties sub-object. -/
def bareListingCloud : Cloud :=
  { testCloud with ListVmssFlexVMsWithoutInstanceView := fun _ => .ok [vmWithoutProperties] }

/-! ## The claims' words on names, for ASCII strings

The definitions of this section follow the words of the claims, not the code: they say what
"ignoring case", "without its last six characters" and "its computer-name-prefix, or its name
when it has no computer-name-prefix" mean, on strings of ASCII characters, where Go's
`strings.EqualFold` and the byte slice of the code have no other meaning. -/

/-- Whether every character of a string is an ASCII character. -/
def asciiOnly (s : String) : Bool :=
  s.data.all (fun c => decide (c.toNat < 128))

/-- Spec side: two strings are equal ignoring case when their lower-case forms are equal. -/
def equalIgnoringCase (a b : String) : Bool :=
  decide (ToLower a = ToLower b)

/-- Spec side: a node name without its last six characters. -/
def withoutLastSix (nodeName : String) : String :=
  String.mk (nodeName.data.take (nodeName.data.length - 6))

/-- Spec side: the computer-name-prefix of a scale set, when it has one. -/
def VirtualMachineScaleSet.computerNamePrefix (vmssFlex : VirtualMachineScaleSet) :
    Option String :=
  vmssFlex.VirtualMachineScaleSetProperties.bind (fun p =>
    p.VirtualMachineProfile.bind (fun vmProfile =>
      vmProfile.OsProfile.bind (fun os => os.ComputerNamePrefix)))

/-- Spec side: the name a scale set is ranked by: its computer-name-prefix, or its name when it
has no computer-name-prefix. -/
def VirtualMachineScaleSet.rankingName (vmssFlex : VirtualMachineScaleSet) : String :=
  match vmssFlex.computerNamePrefix with
  | some computerNamePrefix => computerNamePrefix
  | none => vmssFlex.Name.getD ""

/-- Spec side: whether the computer-name-prefix of a scale set (or its name, when it has no
computer-name-prefix) equals, ignoring case, the node name without its last six characters. -/
def rankedFirst (nodeName : String) (vmssFlex : VirtualMachineScaleSet) : Bool :=
  equalIgnoringCase vmssFlex.rankingName (withoutLastSix nodeName)

/-- Spec side, on bytes: whether the name a scale set is ranked by equals the node name without
its last six bytes under `strings.EqualFold`. On ASCII strings this is `rankedFirst`. -/
def matchesRankingName (nodeName : String) (vmssFlex : VirtualMachineScaleSet) : Bool :=
  EqualFold (utf8Bytes vmssFlex.rankingName)
    ((utf8Bytes nodeName).take ((utf8Bytes nodeName).length - 6))

/-- The identifier of `pooledVmssFlex`. -/
def pooledVmssFlexID : String :=
  "subscriptions/sub/resourceGroups/rg/providers/Microsoft.Compute/virtualMachineScaleSets/vmssflex3"

/-- A flexible scale set whose name is "vmssflex3" and whose computer-name-prefix is
"Pool3". -/
def pooledVmssFlex : VirtualMachineScaleSet :=
  { ID := some pooledVmssFlexID
    Name := some "vmssflex3"
    VirtualMachineScaleSetProperties := some
      { VirtualMachineProfile := some { OsProfile := some { ComputerNamePrefix := some "Pool3" } }
        OrchestrationMode := .Flexible } }

/-- The identifier of `unprofiledVmssFlex`. -/
def unprofiledVmssFlexID : String :=
  "subscriptions/sub/resourceGroups/rg/providers/Microsoft.Compute/virtualMachineScaleSets/VmssFlex4"

/-- A flexible scale set without VM profile, and so without computer-name-prefix, whose name is
"VmssFlex4". -/
def unprofiledVmssFlex : VirtualMachineScaleSet :=
  { ID := some unprofiledVmssFlexID
    Name := some "VmssFlex4"
    VirtualMachineScaleSetProperties := some
      { VirtualMachineProfile := none, OrchestrationMode := .Flexible } }

/-- A collection of three scale sets that `Range` visits in the order `testVmssFlex1`,
`pooledVmssFlex`, `unprofiledVmssFlex`. -/
def rankingScaleSets : SyncMap VirtualMachineScaleSet :=
  ((SyncMap.empty.Store unprofiledVmssFlexID unprofiledVmssFlex).Store pooledVmssFlexID
    pooledVmssFlex).Store testVmssFlex1ID testVmssFlex1

/-! ## Fixtures for the refresh of the scale-set collection and for the record count -/

/-- A listed scale set with the identifier of `testVmssFlex1` and without properties
sub-object. -/
def scaleSetWithoutProperties : VirtualMachineScaleSet :=
  { testVmssFlex1 with VirtualMachineScaleSetProperties := none }

/-- A remote side with two resource groups: "rg1" lists a scale set without properties, the
listing of "rg2" fails with the status 500. -/
def unpropertiedCloud : Cloud :=
  { testCloud with
    GetResourceGroups := .ok ["rg1", "rg2"]
    ListScaleSets := fun resourceGroup =>
      if resourceGroup = "rg1" then .ok [scaleSetWithoutProperties]
      else .error ⟨500, .other "internal server error"⟩ }

/-- A response that announces minus one record and carries the row of the VM "testvm1". -/
def minusOneRecord : QueryResponse :=
  { TotalRecords := some (-1), Data := .array [.object [("name", .string "testvm1")]] }

end Provider

namespace Provider
namespace SyncMap
variable {α : Type}

theorem lookupKey_eraseKey (l : List (String × α)) (k k' : String) :
    lookupKey k (eraseKey k' l) = if k = k' then none else lookupKey k l := by
  induction l with
  | nil => simp [lookupKey, eraseKey]
  | cons e rest ih =>
    obtain ⟨a, b⟩ := e
    by_cases hak : a = k'
    · subst hak
      by_cases hk : k = a
      · subst hk; simp [eraseKey, ih]
      · have hak : a ≠ k := fun h => hk h.symm
        simp [eraseKey, lookupKey, ih, hk, hak]
    · by_cases hk : a = k
      · subst hk; simp [eraseKey, lookupKey, hak]
      · simp [eraseKey, lookupKey, hak, hk, ih]

theorem eraseKey_eraseKey (l : List (String × α)) (k : String) :
    eraseKey k (eraseKey k l) = eraseKey k l := by
  induction l with
  | nil => rfl
  | cons e rest ih =>
    obtain ⟨a, b⟩ := e
    by_cases hak : a = k
    · simp [eraseKey, hak, ih]
    · simp [eraseKey, hak, ih]

theorem eraseKey_of_lookupKey_none (l : List (String × α)) (k : String)
    (h : lookupKey k l = none) : eraseKey k l = l := by
  induction l with
  | nil => rfl
  | cons e rest ih =>
    obtain ⟨a, b⟩ := e
    by_cases hak : a = k
    · simp [lookupKey, hak] at h
    · simp only [lookupKey, hak, if_false] at h
      simp [eraseKey, hak, ih h]

theorem mem_eraseKey (l : List (String × α)) (k : String) (e : String × α) :
    e ∈ eraseKey k l ↔ e ∈ l ∧ e.1 ≠ k := by
  induction l with
  | nil => simp [eraseKey]
  | cons x rest ih =>
    obtain ⟨a, b⟩ := x
    by_cases hak : a = k
    · subst hak
      simp only [eraseKey, if_true, ih, List.mem_cons]
      constructor
      · rintro ⟨h1, h2⟩; exact ⟨Or.inr h1, h2⟩
      · rintro ⟨h1 | h1, h2⟩
        · subst h1; exact absurd rfl h2
        · exact ⟨h1, h2⟩
    · simp only [eraseKey, hak, if_false, List.mem_cons, ih]
      constructor
      · rintro (h1 | ⟨h1, h2⟩)
        · subst h1; exact ⟨Or.inl rfl, hak⟩
        · exact ⟨Or.inr h1, h2⟩
      · rintro ⟨h1 | h1, h2⟩
        · exact Or.inl h1
        · exact Or.inr ⟨h1, h2⟩

theorem lookupKey_ne_none_iff (l : List (String × α)) (k : String) :
    lookupKey k l ≠ none ↔ k ∈ l.map Prod.fst := by
  induction l with
  | nil => simp [lookupKey]
  | cons e rest ih =>
    obtain ⟨a, b⟩ := e
    by_cases hak : a = k
    · simp [lookupKey, hak]
    · have hka : ¬ k = a := fun h => hak h.symm
      simp only [lookupKey, hak, if_false, ih, List.map_cons, List.mem_cons, hka, false_or]

@[simp] theorem Load_empty (k : String) : (empty : SyncMap α).Load k = none := rfl

@[simp] theorem Load_Store_self (m : SyncMap α) (k : String) (v : α) :
    (m.Store k v).Load k = some v := by
  simp [Load, Store, lookupKey]

theorem Load_Store_ne (m : SyncMap α) {k k' : String} (v : α) (h : k' ≠ k) :
    (m.Store k v).Load k' = m.Load k' := by
  have h' : k ≠ k' := fun e => h e.symm
  simp [Load, Store, lookupKey, lookupKey_eraseKey, h, h']

theorem Load_Store (m : SyncMap α) (k k' : String) (v : α) :
    (m.Store k v).Load k' = if k' = k then some v else m.Load k' := by
  by_cases h : k' = k
  · subst h; simp
  · simp [h, Load_Store_ne]

@[simp] theorem Load_Delete_self (m : SyncMap α) (k : String) : (m.Delete k).Load k = none := by
  simp [Load, Delete, lookupKey_eraseKey]

theorem Load_Delete_ne (m : SyncMap α) {k k' : String} (h : k' ≠ k) :
    (m.Delete k).Load k' = m.Load k' := by
  simp [Load, Delete, lookupKey_eraseKey, h]

theorem Load_Delete (m : SyncMap α) (k k' : String) :
    (m.Delete k).Load k' = if k' = k then none else m.Load k' := by
  simp [Load, Delete, lookupKey_eraseKey]

@[simp] theorem Delete_Store (m : SyncMap α) (k : String) (v : α) :
    (m.Store k v).Delete k = m.Delete k := by
  simp [Store, Delete, eraseKey, eraseKey_eraseKey]

@[simp] theorem Store_Delete (m : SyncMap α) (k : String) (v : α) :
    (m.Delete k).Store k v = m.Store k v := by
  simp [Store, Delete, eraseKey_eraseKey]

@[simp] theorem Store_Store (m : SyncMap α) (k : String) (v v' : α) :
    (m.Store k v).Store k v' = m.Store k v' := by
  simp [Store, eraseKey, eraseKey_eraseKey]

@[simp] theorem Delete_Delete (m : SyncMap α) (k : String) :
    (m.Delete k).Delete k = m.Delete k := by
  simp [Delete, eraseKey_eraseKey]

theorem Delete_of_Load_none (m : SyncMap α) (k : String) (h : m.Load k = none) :
    m.Delete k = m := by
  obtain ⟨l⟩ := m
  simp only [Delete, Load] at *
  rw [eraseKey_of_lookupKey_none l k h]

theorem mem_keys_iff (m : SyncMap α) (k : String) : k ∈ m.keys ↔ m.Load k ≠ none := by
  simp only [keys, Load, List.mem_dedup, lookupKey_ne_none_iff]

theorem size_Delete (m : SyncMap α) (k : String) (h : m.Load k ≠ none) :
    (m.Delete k).size + 1 = m.size := by
  have hk : k ∈ m.entries.map Prod.fst := (lookupKey_ne_none_iff _ _).1 h
  simp only [size, keys, Delete]
  rw [← List.card_toFinset, ← List.card_toFinset]
  have : ((eraseKey k m.entries).map Prod.fst).toFinset
      = (m.entries.map Prod.fst).toFinset.erase k := by
    ext x
    simp only [List.mem_toFinset, List.mem_map, mem_eraseKey, Finset.mem_erase]
    constructor
    · rintro ⟨e, ⟨he, hne⟩, rfl⟩
      exact ⟨hne, e, he, rfl⟩
    · rintro ⟨hne, e, he, rfl⟩
      exact ⟨e, ⟨he, hne⟩, rfl⟩
  rw [this]
  apply Finset.card_erase_add_one
  simpa using hk

end SyncMap
end Provider

namespace Provider

/-! ## The index maintainer: lemmas -/

theorem VirtualMachine.nodeName_eq_some {vm : VirtualMachine} {n : String}
    (h : vm.nodeName = some n) :
    ∃ p os cn, vm.VirtualMachineProperties = some p ∧ p.OsProfile = some os ∧
      os.ComputerName = some cn ∧ ToLower cn = n := by
  unfold VirtualMachine.nodeName at h
  split at h
  · cases h
  · next p hp =>
    split at h
    · cases h
    · next os hos =>
      cases hcn : os.ComputerName with
      | none => simp [hcn] at h
      | some cn =>
        simp only [hcn, Option.map_some', Option.some.injEq] at h
        exact ⟨p, os, cn, hp, hos, hcn, h⟩

/-- What `cacheVirtualMachine` does with a descriptor that has a VM name and a computer name. -/
theorem cacheVirtualMachine_eq (fs : FlexScaleSet) {vm : VirtualMachine} {name n : String}
    (hname : vm.Name = some name) (hnode : vm.nodeName = some n) :
    cacheVirtualMachine fs vm =
      ({ fs with
          vmssFlexVMNameToNodeName := fs.vmssFlexVMNameToNodeName.Store name n
          vmssFlexNodeNameToVMName := fs.vmssFlexNodeNameToVMName.Store n name
          vmssFlexNodeNameToVmssID :=
            match vm.vmssID with
            | some id => fs.vmssFlexNodeNameToVmssID.Store n id
            | none => fs.vmssFlexNodeNameToVmssID }, .ok ()) := by
  obtain ⟨p, os, cn, hp, hos, hcn, hn⟩ := VirtualMachine.nodeName_eq_some hnode
  subst hn
  unfold cacheVirtualMachine VirtualMachine.vmssID
  simp only [hp, hos, hcn, hname]
  cases hss : p.VirtualMachineScaleSet with
  | none => rfl
  | some sub =>
    cases hid : sub.ID with
    | none => simp [hid]
    | some id => simp [hid]

/-- A descriptor without a computer name or without a VM name leaves the state as it is. -/
theorem cacheVirtualMachine_fst_of_none (fs : FlexScaleSet) {vm : VirtualMachine}
    (h : vm.Name = none ∨ vm.nodeName = none) : (cacheVirtualMachine fs vm).1 = fs := by
  unfold cacheVirtualMachine
  split
  · rfl
  · next p hp =>
    split
    · rfl
    · next os hos =>
      split
      · rfl
      · next cn hcn =>
        split
        · rfl
        · next name hname =>
          exfalso
          simp [VirtualMachine.nodeName, hp, hos, hcn, hname] at h

end Provider

namespace Provider

/-! ## C6: what absorbing a descriptor stores -/

/-- C6, counterexample: `standaloneVM` has a VM name and the non-empty computer name "VM9", yet
after `cacheVirtualMachine` the node-name to scale-set-id index has no entry for the node
"vm9": the descriptor has no owning scale set and the third `Store` is guarded. -/
theorem cacheVirtualMachine_standalone_no_vmssID_entry :
    standaloneVM.Name = some "testvm9" ∧ standaloneVM.nodeName = some "vm9" ∧
    (cacheVirtualMachine emptyFlexScaleSet standaloneVM).2 = .ok () ∧
    (cacheVirtualMachine emptyFlexScaleSet standaloneVM).1.vmssFlexNodeNameToVmssID.Load "vm9"
      = none := by
  decide

/-- C6, as amended: for a descriptor with a VM name and a computer name, `cacheVirtualMachine`
completes, the VM-name to node-name index maps the VM name to the node name `n` (the lower-cased
computer name), the node-name to VM-name index maps `n` to the VM name, and the node-name to
scale-set-id index maps `n` to the owning scale-set identifier when the descriptor has one and
is left as it was when it has none. -/
theorem cacheVirtualMachine_stores_indices (fs : FlexScaleSet) (vm : VirtualMachine)
    (name n : String) (hname : vm.Name = some name) (hnode : vm.nodeName = some n) :
    (cacheVirtualMachine fs vm).2 = .ok () ∧
    (cacheVirtualMachine fs vm).1.vmssFlexVMNameToNodeName.Load name = some n ∧
    (cacheVirtualMachine fs vm).1.vmssFlexNodeNameToVMName.Load n = some name ∧
    (∀ id, vm.vmssID = some id →
      (cacheVirtualMachine fs vm).1.vmssFlexNodeNameToVmssID.Load n = some id) ∧
    (vm.vmssID = none →
      (cacheVirtualMachine fs vm).1.vmssFlexNodeNameToVmssID = fs.vmssFlexNodeNameToVmssID) := by
  rw [cacheVirtualMachine_eq fs hname hnode]
  refine ⟨rfl, by simp, by simp, ?_, ?_⟩
  · intro id hid; simp [hid]
  · intro hid; simp [hid]

/-- C6, witness: the descriptor `testVM1` of the tests, absorbed into empty indices. -/
theorem cacheVirtualMachine_stores_indices_witness :
    testVM1.Name = some "testvm1" ∧ testVM1.nodeName = some "vmssflex1000001" ∧
    (cacheVirtualMachine emptyFlexScaleSet testVM1).1.vmssFlexNodeNameToVmssID.Load
      "vmssflex1000001" = some testVmssFlex1ID :=
  ⟨by decide, by decide,
    (cacheVirtualMachine_stores_indices emptyFlexScaleSet testVM1 "testvm1" "vmssflex1000001"
      (by decide) (by decide)).2.2.2.1 testVmssFlex1ID (by decide)⟩

/-! ## C8: absorbing is idempotent -/

/-- C8: `cacheVirtualMachine` is idempotent: absorbing a descriptor a second time, in the state
the first absorption left, ends the same way and leaves exactly the same state (so the same
three index maps) as the first absorption. -/
theorem cacheVirtualMachine_idempotent (fs : FlexScaleSet) (vm : VirtualMachine) :
    cacheVirtualMachine (cacheVirtualMachine fs vm).1 vm = cacheVirtualMachine fs vm := by
  cases hname : vm.Name with
  | none =>
    rw [cacheVirtualMachine_fst_of_none fs (Or.inl hname)]
  | some name =>
    cases hnode : vm.nodeName with
    | none => rw [cacheVirtualMachine_fst_of_none fs (Or.inr hnode)]
    | some n =>
      rw [cacheVirtualMachine_eq fs hname hnode, cacheVirtualMachine_eq _ hname hnode]
      cases vm.vmssID <;> simp

/-! ## C9: absorb, remove, absorb again -/

/-- C9, counterexample: `standaloneVM` has the computer name "VM9" and no owning scale set, and
the node-name to scale-set-id index of `staleVmssIDEntry` has an entry for "vm9". The first
absorption leaves that entry; after removing the node and absorbing again it is gone, so the
node-name to scale-set-id maps differ. -/
theorem absorb_remove_absorb_differs :
    standaloneVM.nodeName = some "vm9" ∧
    (cacheVirtualMachine staleVmssIDEntry standaloneVM).2 = .ok () ∧
    (cacheVirtualMachine staleVmssIDEntry standaloneVM).1.vmssFlexNodeNameToVmssID.Load "vm9"
      = some testVmssFlex1ID ∧
    (cacheVirtualMachine
      (deleteNodeFromIndices (cacheVirtualMachine staleVmssIDEntry standaloneVM).1 "vm9")
      standaloneVM).1.vmssFlexNodeNameToVmssID.Load "vm9" = none := by
  decide

/-- C9, as amended: for a descriptor with a computer name whose absorption completes, and that
has an owning scale-set identifier (or whose node has no node-name to scale-set-id entry
beforehand), absorbing it, removing its node from the indices as `DeleteCacheForNode` does and
absorbing it again leaves exactly the state of the first absorption, so the same three index
maps. -/
theorem absorb_remove_absorb (fs fs1 : FlexScaleSet) (vm : VirtualMachine) (n : String)
    (habs : cacheVirtualMachine fs vm = (fs1, .ok ())) (hnode : vm.nodeName = some n)
    (hid : vm.vmssID ≠ none ∨ fs.vmssFlexNodeNameToVmssID.Load n = none) :
    cacheVirtualMachine (deleteNodeFromIndices fs1 n) vm = (fs1, .ok ()) := by
  cases hname : vm.Name with
  | none =>
    exfalso
    obtain ⟨p, os, cn, hp, hos, hcn, -⟩ := VirtualMachine.nodeName_eq_some hnode
    simp [cacheVirtualMachine, hp, hos, hcn, hname] at habs
  | some name =>
    rw [cacheVirtualMachine_eq fs hname hnode] at habs
    simp only [Prod.mk.injEq, and_true] at habs
    subst habs
    rw [cacheVirtualMachine_eq _ hname hnode]
    simp only [deleteNodeFromIndices, SyncMap.Load_Store_self, SyncMap.Delete_Store,
      SyncMap.Store_Delete]
    cases hv : vm.vmssID with
    | some id => simp
    | none =>
      have h0 : fs.vmssFlexNodeNameToVmssID.Load n = none := by
        rcases hid with h | h
        · exact absurd hv h
        · exact h
      simp [SyncMap.Delete_of_Load_none _ _ h0]

/-- C9, witness: `testVM1` absorbed into empty indices, removed, absorbed again. -/
theorem absorb_remove_absorb_witness :
    cacheVirtualMachine emptyFlexScaleSet testVM1
      = ((cacheVirtualMachine emptyFlexScaleSet testVM1).1, .ok ()) ∧
    testVM1.nodeName = some "vmssflex1000001" ∧
    cacheVirtualMachine
      (deleteNodeFromIndices (cacheVirtualMachine emptyFlexScaleSet testVM1).1 "vmssflex1000001")
      testVM1 = ((cacheVirtualMachine emptyFlexScaleSet testVM1).1, .ok ()) :=
  ⟨by decide, by decide,
    absorb_remove_absorb emptyFlexScaleSet _ testVM1 "vmssflex1000001" (by decide) (by decide)
      (Or.inl (by decide))⟩

end Provider

namespace Provider

/-! ## C7: the two name indices as inverses -/

theorem IndicesInverse.absorb {nodeOf : String → String} (hinj : Function.Injective nodeOf)
    {fs : FlexScaleSet} (hI : IndicesInverse nodeOf fs) {vm : VirtualMachine}
    (hQ : FollowsNaming nodeOf vm) : IndicesInverse nodeOf (cacheVirtualMachine fs vm).1 := by
  cases hname : vm.Name with
  | none => rw [cacheVirtualMachine_fst_of_none fs (Or.inl hname)]; exact hI
  | some name =>
    cases hnode : vm.nodeName with
    | none => rw [cacheVirtualMachine_fst_of_none fs (Or.inr hnode)]; exact hI
    | some n0 =>
      have hn0 : n0 = nodeOf name := hQ name n0 hname hnode
      rw [cacheVirtualMachine_eq fs hname hnode]
      obtain ⟨h1, h2⟩ := hI
      constructor
      · intro n v
        simp only [SyncMap.Load_Store]
        by_cases hn : n = n0
        · by_cases hv : v = name
          · simp [hn, hv]
          · simp only [hn, if_true, hv, if_false, Option.some.injEq]
            constructor
            · intro h; exact absurd h.symm hv
            · intro h
              have := h2 v n0 h
              exact absurd (hinj (this.symm.trans hn0)) hv
        · by_cases hv : v = name
          · simp only [hn, if_false, hv, if_true, Option.some.injEq]
            constructor
            · intro h
              have := h2 name n ((h1 n name).1 h)
              exact absurd (this.trans hn0.symm) hn
            · intro h; exact absurd h.symm hn
          · simp only [hn, if_false, hv]
            exact h1 n v
      · intro v n
        simp only [SyncMap.Load_Store]
        by_cases hv : v = name
        · simp only [hv, if_true, Option.some.injEq]
          intro h; rw [← h]; exact hn0
        · simp only [hv, if_false]
          exact h2 v n

theorem IndicesInverse.remove {nodeOf : String → String}
    {fs : FlexScaleSet} (hI : IndicesInverse nodeOf fs) (nodeName : String) :
    IndicesInverse nodeOf (deleteNodeFromIndices fs nodeName) := by
  obtain ⟨h1, h2⟩ := hI
  unfold deleteNodeFromIndices
  cases hl : fs.vmssFlexNodeNameToVMName.Load nodeName with
  | none =>
    simp only
    constructor
    · intro n v
      simp only [SyncMap.Load_Delete]
      by_cases hn : n = nodeName
      · simp only [hn, if_true]
        constructor
        · intro h; cases h
        · intro h
          have := (h1 nodeName v).2 h
          rw [hl] at this; cases this
      · simp only [hn, if_false]; exact h1 n v
    · exact h2
  | some vmName =>
    simp only
    constructor
    · intro n v
      simp only [SyncMap.Load_Delete]
      by_cases hn : n = nodeName
      · by_cases hv : v = vmName
        · simp [hn, hv]
        · simp only [hn, if_true, hv, if_false]
          constructor
          · intro h; cases h
          · intro h
            have := (h1 nodeName v).2 h
            rw [hl] at this
            exact absurd (Option.some.inj this).symm hv
      · by_cases hv : v = vmName
        · simp only [hn, if_false, hv, if_true]
          constructor
          · intro h
            have h3 := (h1 n vmName).1 h
            have h4 := (h1 nodeName vmName).1 hl
            rw [h3] at h4
            exact absurd (Option.some.inj h4) hn
          · intro h; cases h
        · simp only [hn, if_false, hv]; exact h1 n v
    · intro v n
      simp only [SyncMap.Load_Delete]
      by_cases hv : v = vmName
      · simp [hv]
      · simp only [hv, if_false]; exact h2 v n

theorem IndexReachable.indicesInverse {nodeOf : String → String}
    (hinj : Function.Injective nodeOf) {fs : FlexScaleSet}
    (h : IndexReachable (FollowsNaming nodeOf) fs) : IndicesInverse nodeOf fs := by
  induction h with
  | init fs h1 h2 h3 =>
    constructor
    · intro n v; simp [h1, h2]
    · intro v n; simp [h1]
  | absorb fs fs1 vm _ hQ hstep ih =>
    have := IndicesInverse.absorb hinj ih hQ
    rw [hstep] at this
    exact this
  | remove fs nodeName _ ih => exact IndicesInverse.remove ih nodeName

/-- C7, counterexample: absorbing `testVM1` and then a descriptor with another VM name and the
same computer name reaches a state in which the VM-name to node-name index maps "testvm1" to
"vmssflex1000001" while the node-name to VM-name index maps "vmssflex1000001" to "testvm1b". -/
theorem indices_not_inverse_two_names :
    IndexReachable (fun _ => True) twoNamesOneNode ∧
    twoNamesOneNode.vmssFlexVMNameToNodeName.Load "testvm1" = some "vmssflex1000001" ∧
    twoNamesOneNode.vmssFlexNodeNameToVMName.Load "vmssflex1000001" = some "testvm1b" := by
  refine ⟨?_, by decide, by decide⟩
  refine IndexReachable.absorb (cacheVirtualMachine emptyFlexScaleSet testVM1).1 _
    testVM1Recreated ?_ trivial (by decide)
  exact IndexReachable.absorb emptyFlexScaleSet _ testVM1 (IndexReachable.init _ rfl rfl rfl)
    trivial (by decide)

/-- C7, as amended: in every index state reachable from empty indices by absorbing descriptors
that follow a one-to-one naming of VM names to node names (each VM name always comes with the
same computer name, and no two VM names share one) and by the index removals of
`DeleteCacheForNode`, the node-name to VM-name index is the inverse of the VM-name to node-name
index. -/
theorem indices_inverse_of_naming (nodeOf : String → String)
    (hinj : Function.Injective nodeOf) (fs : FlexScaleSet)
    (h : IndexReachable (FollowsNaming nodeOf) fs) (n v : String) :
    fs.vmssFlexNodeNameToVMName.Load n = some v ↔
      fs.vmssFlexVMNameToNodeName.Load v = some n :=
  (IndexReachable.indicesInverse hinj h).1 n v

/-- C7, witness: the naming `testNaming` and the state after absorbing `testVM1`. -/
theorem indices_inverse_of_naming_witness :
    Function.Injective testNaming ∧
    IndexReachable (FollowsNaming testNaming) (cacheVirtualMachine emptyFlexScaleSet testVM1).1 ∧
    ((cacheVirtualMachine emptyFlexScaleSet testVM1).1.vmssFlexNodeNameToVMName.Load
        "vmssflex1000001" = some "testvm1" ↔
      (cacheVirtualMachine emptyFlexScaleSet testVM1).1.vmssFlexVMNameToNodeName.Load
        "testvm1" = some "vmssflex1000001") :=
  have hinj : Function.Injective testNaming := (Equiv.swap "testvm1" "vmssflex1000001").injective
  have hreach : IndexReachable (FollowsNaming testNaming)
      (cacheVirtualMachine emptyFlexScaleSet testVM1).1 :=
    IndexReachable.absorb emptyFlexScaleSet _ testVM1 (IndexReachable.init _ rfl rfl rfl)
      (by
        intro name n h1 h2
        have e1 : name = "testvm1" := (Option.some.inj h1).symm
        have e2 : n = "vmssflex1000001" := by
          have h3 : testVM1.nodeName = some "vmssflex1000001" := by decide
          rw [h3] at h2
          exact (Option.some.inj h2).symm
        subst e1 e2
        exact (Equiv.swap_apply_left _ _).symm)
      (by decide)
  ⟨hinj, hreach, indices_inverse_of_naming testNaming hinj _ hreach "vmssflex1000001" "testvm1"⟩

end Provider

namespace Provider

/-! ## The timed cache: lemmas -/

/-- The three things a read of a timed cache can do to the state and the store: nothing, run
a getter without storing (a failed refresh, or caching disabled), or run the getter and store
its payload. -/
theorem TimedCache.Get_cases {σ α : Type} (t : TimedCache α) (disabled : Bool) (now : Nat)
    (getter : σ → String → σ × Outcome α) (s : σ) (key : String) (crt : AzureCacheReadType) :
    ((t.Get disabled now getter s key crt).1 = s ∧
      (t.Get disabled now getter s key crt).2.1 = t) ∨
    ((t.Get disabled now getter s key crt).1 = (getter s key).1 ∧
      (t.Get disabled now getter s key crt).2.1 = t) ∨
    (disabled = false ∧ ∃ data, getter s key = ((getter s key).1, .ok data) ∧
      (t.Get disabled now getter s key crt).1 = (getter s key).1 ∧
      (t.Get disabled now getter s key crt).2.1
        = { t with Store := t.Store.Store key ⟨some data, now⟩ } ∧
      (t.Get disabled now getter s key crt).2.2 = .ok (some data)) := by
  unfold TimedCache.Get
  rcases hg : getter s key with ⟨s1, r⟩
  cases r <;> cases disabled <;> cases crt <;> simp <;>
    (try split) <;> (try split) <;> simp

theorem TimedCache.Get_NoRefresh {σ α : Type} (t : TimedCache α) (now : Nat)
    (getter : σ → String → σ × Outcome α) (s : σ) (key : String) :
    t.Get false now getter s key .CacheReadTypeNoRefresh = (s, t, .ok (t.cached key)) := by
  simp [TimedCache.Get]

/-! ## Properties of the state that a refresh preserves -/

variable {w : Cloud} {Q : VirtualMachine → Prop} {P : FlexScaleSet → Prop}

theorem Preserved.after_cacheListedVMs (hP : Preserved w Q P) (vms : List VirtualMachine) :
    ∀ (fs : FlexScaleSet) (localCache : SyncMap VirtualMachine),
      (∀ vm ∈ vms, Q vm) → P fs → P (cacheListedVMs vms fs localCache).1 := by
  induction vms with
  | nil => intro fs lc _ h; exact h
  | cons vm rest ih =>
    intro fs lc hQ h
    unfold Provider.cacheListedVMs
    cases hp : vm.VirtualMachineProperties with
    | none => exact h
    | some p =>
      have h1 : P (cacheVirtualMachine fs vm).1 := hP.absorb fs vm (hQ vm (List.mem_cons_self _ _)) h
      rcases hc : cacheVirtualMachine fs vm with ⟨fs1, r⟩
      rw [hc] at h1
      cases r with
      | ok u => exact ih _ _ (fun v hv => hQ v (List.mem_cons_of_mem _ hv)) h1
      | err e => exact h1
      | panic m => exact h1

theorem Preserved.after_vmssFlexVMCacheGetter (hP : Preserved w Q P) (hw : ListsOnly w Q)
    (fs : FlexScaleSet) (key : String) (h : P fs) : P (vmssFlexVMCacheGetter w fs key).1 := by
  unfold Provider.vmssFlexVMCacheGetter
  dsimp only
  have h1 := hP.record fs (.ListVmssFlexVMsWithoutInstanceView key) h
  cases hl : w.ListVmssFlexVMsWithoutInstanceView key with
  | error rerr => exact h1
  | ok vms =>
    dsimp only
    have h2 := hP.after_cacheListedVMs vms _ SyncMap.empty (hw key vms hl) h1
    rcases hc : Provider.cacheListedVMs vms (fs.record (.ListVmssFlexVMsWithoutInstanceView key))
      SyncMap.empty with ⟨fs2, r⟩
    rw [hc] at h2
    cases r with
    | err e => exact h2
    | panic m => exact h2
    | ok lc =>
      have h3 := hP.record fs2 (.ListVmssFlexVMsWithOnlyInstanceView key) h2
      dsimp only
      cases hv : w.ListVmssFlexVMsWithOnlyInstanceView key with
      | error rerr => exact h3
      | ok views => exact h3

theorem Preserved.after_vmssFlexVMCacheGet (hP : Preserved w Q P) (hw : ListsOnly w Q)
    (fs : FlexScaleSet) (key : String) (crt : AzureCacheReadType) (h : P fs) :
    P (vmssFlexVMCacheGet w fs key crt).1 := by
  unfold Provider.vmssFlexVMCacheGet
  have hg := hP.after_vmssFlexVMCacheGetter hw fs key h
  rcases TimedCache.Get_cases fs.vmssFlexVMCache fs.DisableAPICallCache fs.now
    (Provider.vmssFlexVMCacheGetter w) fs key crt with ⟨h1, h2⟩ | ⟨h1, h2⟩ | ⟨hd, data, h0, h1, h2, -⟩
  all_goals
    rcases hget : fs.vmssFlexVMCache.Get fs.DisableAPICallCache fs.now
      (Provider.vmssFlexVMCacheGetter w) fs key crt with ⟨fs1, t, r⟩
    rw [hget] at h1 h2
    simp only at h1 h2
    subst h1 h2
  · exact hP.keepVmssFlexVMCache _ _ h h
  · exact hP.keepVmssFlexVMCache _ _ h hg
  · exact hP.setVmssFlexVMCache _ _ key data h hg hd h0

theorem Preserved.after_listScaleSetsOfGroups (hP : Preserved w Q P) (groups : List String) :
    ∀ (fs : FlexScaleSet) (localCache : SyncMap VirtualMachineScaleSet),
      P fs → P (listScaleSetsOfGroups w groups fs localCache).1 := by
  induction groups with
  | nil => intro fs lc h; exact h
  | cons rg rest ih =>
    intro fs lc h
    unfold Provider.listScaleSetsOfGroups
    have h1 := hP.record fs (.ListScaleSets rg) h
    cases hl : w.ListScaleSets rg with
    | error rerr =>
      by_cases hnf : rerr.IsNotFound
      · simp only [hnf, if_true]; exact ih _ _ h1
      · simp only [hnf]; exact h1
    | ok all =>
      simp only
      cases cacheScaleSets lc all with
      | ok lc1 => exact ih _ _ h1
      | err e => exact h1
      | panic m => exact h1

theorem Preserved.after_vmssFlexCacheGetter (hP : Preserved w Q P)
    (fs : FlexScaleSet) (key : String) (h : P fs) : P (vmssFlexCacheGetter w fs key).1 := by
  unfold Provider.vmssFlexCacheGetter
  have h1 := hP.record fs .GetResourceGroups h
  cases w.GetResourceGroups with
  | ok groups => exact hP.after_listScaleSetsOfGroups groups _ _ h1
  | err e => exact h1
  | panic m => exact h1

theorem Preserved.after_vmssFlexCacheGet (hP : Preserved w Q P)
    (fs : FlexScaleSet) (key : String) (crt : AzureCacheReadType) (h : P fs) :
    P (vmssFlexCacheGet w fs key crt).1 := by
  unfold Provider.vmssFlexCacheGet
  have hg := hP.after_vmssFlexCacheGetter fs key h
  rcases TimedCache.Get_cases fs.vmssFlexCache fs.DisableAPICallCache fs.now
    (Provider.vmssFlexCacheGetter w) fs key crt with ⟨h1, h2⟩ | ⟨h1, h2⟩ | ⟨hd, data, h0, h1, h2, -⟩
  all_goals
    rcases hget : fs.vmssFlexCache.Get fs.DisableAPICallCache fs.now
      (Provider.vmssFlexCacheGetter w) fs key crt with ⟨fs1, t, r⟩
    rw [hget] at h1 h2
    simp only at h1 h2
    subst h1 h2
  · exact hP.keepVmssFlexCache _ _ h h
  · exact hP.keepVmssFlexCache _ _ h hg
  · exact hP.setVmssFlexCache _ _ key data h hg hd h0

theorem Preserved.after_probeVmssFlexIDs (hP : Preserved w Q P) (hw : ListsOnly w Q)
    (nodeName : String) (ids : List String) :
    ∀ fs : FlexScaleSet, P fs → P (probeVmssFlexIDs w nodeName ids fs).1 := by
  induction ids with
  | nil => intro fs h; exact h
  | cons id rest ih =>
    intro fs h
    unfold Provider.probeVmssFlexIDs
    have h1 := hP.after_vmssFlexVMCacheGet hw fs id .CacheReadTypeForceRefresh h
    rcases hc : vmssFlexVMCacheGet w fs id .CacheReadTypeForceRefresh with ⟨fs1, r⟩
    rw [hc] at h1
    cases r with
    | err e => exact h1
    | panic m => exact h1
    | ok d =>
      simp only
      cases fs1.vmssFlexNodeNameToVmssID.Load nodeName with
      | some c => exact h1
      | none => exact ih _ h1

theorem Preserved.after_getter (hP : Preserved w Q P) (hw : ListsOnly w Q)
    (fs : FlexScaleSet) (nodeName : String) (crt : AzureCacheReadType) (h : P fs) :
    P (getNodeVmssFlexID.getter w fs nodeName crt).1 := by
  unfold getNodeVmssFlexID.getter
  have h1 := hP.after_vmssFlexCacheGet fs w.VmssFlexKey crt h
  rcases hc : vmssFlexCacheGet w fs w.VmssFlexKey crt with ⟨fs1, r⟩
  rw [hc] at h1
  cases r with
  | err e => exact h1
  | panic m => exact h1
  | ok d =>
    cases d with
    | none => exact h1
    | some coll =>
      simp only
      cases candidateVmssFlexIDs nodeName coll.Range [] with
      | err e => exact h1
      | panic m => exact h1
      | ok ids => exact hP.after_probeVmssFlexIDs hw nodeName ids _ h1

theorem Preserved.after_getNodeVmssFlexID (hP : Preserved w Q P) (hw : ListsOnly w Q)
    (fs : FlexScaleSet) (nodeName : String) (h : P fs) :
    P (getNodeVmssFlexID w fs nodeName).1 := by
  unfold Provider.getNodeVmssFlexID
  simp only
  apply hP.record
  have h0 := hP.record fs (.LockEntry w.GetNodeVmssFlexIDLockKey) h
  cases (fs.record (.LockEntry w.GetNodeVmssFlexIDLockKey)).vmssFlexNodeNameToVmssID.Load nodeName with
  | some c => exact h0
  | none =>
    simp only
    have h1 := hP.after_getter hw _ nodeName .CacheReadTypeDefault h0
    rcases hc : getNodeVmssFlexID.getter w (fs.record (.LockEntry w.GetNodeVmssFlexIDLockKey))
      nodeName .CacheReadTypeDefault with ⟨fs1, r⟩
    rw [hc] at h1
    cases r with
    | ok id => exact h1
    | panic m => exact h1
    | err e =>
      simp only
      split
      · exact hP.after_getter hw _ nodeName .CacheReadTypeForceRefresh h1
      · exact h1

end Provider

namespace Provider

/-! ## Three preserved properties -/

/-- Absorbing a descriptor touches the three indices only. -/
theorem cacheVirtualMachine_frame (fs : FlexScaleSet) (vm : VirtualMachine) :
    (cacheVirtualMachine fs vm).1.DisableAPICallCache = fs.DisableAPICallCache ∧
    (cacheVirtualMachine fs vm).1.now = fs.now ∧
    (cacheVirtualMachine fs vm).1.vmssFlexCache = fs.vmssFlexCache ∧
    (cacheVirtualMachine fs vm).1.vmssFlexVMCache = fs.vmssFlexVMCache ∧
    (cacheVirtualMachine fs vm).1.trace = fs.trace := by
  cases hname : vm.Name with
  | none => rw [cacheVirtualMachine_fst_of_none fs (Or.inl hname)]; simp
  | some name =>
    cases hnode : vm.nodeName with
    | none => rw [cacheVirtualMachine_fst_of_none fs (Or.inr hnode)]; simp
    | some n => rw [cacheVirtualMachine_eq fs hname hnode]; simp

theorem listsOnly_true (w : Cloud) : ListsOnly w (fun _ => True) :=
  fun _ _ _ _ _ => trivial

/-- The configuration flag is never written. -/
theorem Preserved.config (w : Cloud) (b : Bool) :
    Preserved w (fun _ => True) (fun s => s.DisableAPICallCache = b) where
  record := fun _ _ h => h
  absorb := fun fs vm _ h => (cacheVirtualMachine_frame fs vm).1.trans h
  keepVmssFlexCache := fun _ _ _ h1 => h1
  setVmssFlexCache := fun _ _ _ _ _ h1 _ _ => h1
  keepVmssFlexVMCache := fun _ _ _ h1 => h1
  setVmssFlexVMCache := fun _ _ _ _ _ h1 _ _ => h1

/-- With caching disabled the two timed caches are never written. -/
theorem Preserved.caches (w : Cloud) (c1 : TimedCache (SyncMap VirtualMachineScaleSet))
    (c2 : TimedCache (SyncMap VirtualMachine)) :
    Preserved w (fun _ => True)
      (fun s => s.DisableAPICallCache = true ∧ s.vmssFlexCache = c1 ∧ s.vmssFlexVMCache = c2) where
  record := fun _ _ h => h
  absorb := fun fs vm _ h =>
    ⟨(cacheVirtualMachine_frame fs vm).1.trans h.1,
      (cacheVirtualMachine_frame fs vm).2.2.1.trans h.2.1,
      (cacheVirtualMachine_frame fs vm).2.2.2.1.trans h.2.2⟩
  keepVmssFlexCache := fun _ _ h h1 => ⟨h1.1, h.2.1, h1.2.2⟩
  setVmssFlexCache := fun _ _ _ _ h _ hd _ => by rw [h.1] at hd; cases hd
  keepVmssFlexVMCache := fun _ _ h h1 => ⟨h1.1, h1.2.1, h.2.2⟩
  setVmssFlexVMCache := fun _ _ _ _ h _ hd _ => by rw [h.1] at hd; cases hd

/-- A node stays out of the node-name keyed indices as long as no absorbed descriptor has its
name. -/
theorem Preserved.absent (w : Cloud) (nodeName : String) :
    Preserved w (fun vm => vm.nodeName ≠ some nodeName)
      (fun s => s.vmssFlexNodeNameToVMName.Load nodeName = none ∧
        s.vmssFlexNodeNameToVmssID.Load nodeName = none) where
  record := fun _ _ h => h
  keepVmssFlexCache := fun _ _ _ h1 => h1
  setVmssFlexCache := fun _ _ _ _ _ h1 _ _ => h1
  keepVmssFlexVMCache := fun _ _ _ h1 => h1
  setVmssFlexVMCache := fun _ _ _ _ _ h1 _ _ => h1
  absorb := by
    intro fs vm hQ h
    cases hname : vm.Name with
    | none => rw [cacheVirtualMachine_fst_of_none fs (Or.inl hname)]; exact h
    | some name =>
      cases hnode : vm.nodeName with
      | none => rw [cacheVirtualMachine_fst_of_none fs (Or.inr hnode)]; exact h
      | some n =>
        have hne : nodeName ≠ n := by
          intro e; apply hQ; rw [hnode, e]
        rw [cacheVirtualMachine_eq fs hname hnode]
        constructor
        · simp only [SyncMap.Load_Store_ne _ _ hne]; exact h.1
        · cases vm.vmssID with
          | none => exact h.2
          | some id => simp only [SyncMap.Load_Store_ne _ _ hne]; exact h.2

/-! ## The resolver: first lemmas -/

theorem vmssFlexVMCacheGet_NoRefresh (w : Cloud) (fs : FlexScaleSet) (key : String)
    (h : fs.DisableAPICallCache = false) :
    vmssFlexVMCacheGet w fs key .CacheReadTypeNoRefresh
      = (fs, .ok (fs.vmssFlexVMCache.cached key)) := by
  unfold vmssFlexVMCacheGet
  rw [h, TimedCache.Get_NoRefresh]

/-- The fast path of `getNodeVmssFlexID`: an indexed node is answered from the index. -/
theorem getNodeVmssFlexID_of_indexed (w : Cloud) (fs : FlexScaleSet) (nodeName id : String)
    (h : fs.vmssFlexNodeNameToVmssID.Load nodeName = some id) :
    getNodeVmssFlexID w fs nodeName
      = (((fs.record (.LockEntry w.GetNodeVmssFlexIDLockKey)).record
          (.UnlockEntry w.GetNodeVmssFlexIDLockKey)), .ok id) := by
  unfold getNodeVmssFlexID
  have : (fs.record (.LockEntry w.GetNodeVmssFlexIDLockKey)).vmssFlexNodeNameToVmssID.Load nodeName
      = some id := h
  simp only [this]

/-- The state `DeleteCacheForNode` leaves, given the state and identifier the resolution
returned. -/
theorem DeleteCacheForNode_eq (w : Cloud) (fs fs1 : FlexScaleSet) (nodeName id : String)
    (hflag : fs.DisableAPICallCache = false)
    (hres : getNodeVmssFlexID w fs nodeName = (fs1, .ok id)) :
    DeleteCacheForNode w fs nodeName =
      ((deleteNodeFromIndices
          (match fs1.vmssFlexVMCache.cached id with
            | none => fs1.record (.LockEntry id)
            | some vmMap =>
              { fs1.record (.LockEntry id) with
                vmssFlexVMCache := fs1.vmssFlexVMCache.Update fs1.now id (vmMap.Delete nodeName) })
          nodeName).record (.UnlockEntry id), .ok ()) := by
  have hflag1 : fs1.DisableAPICallCache = false := by
    have := (Preserved.config w false).after_getNodeVmssFlexID (listsOnly_true w) fs nodeName hflag
    rw [hres] at this
    exact this
  unfold DeleteCacheForNode
  simp only [hflag, hres, Bool.false_eq_true, if_false]
  rw [vmssFlexVMCacheGet_NoRefresh w (fs1.record (.LockEntry id)) id hflag1]
  rfl

end Provider

namespace Provider

/-! ## DeleteCacheForNode: lemmas -/

theorem deleteNodeFromIndices_nodeNameToVMName (fs : FlexScaleSet) (nodeName : String) :
    (deleteNodeFromIndices fs nodeName).vmssFlexNodeNameToVMName
      = fs.vmssFlexNodeNameToVMName.Delete nodeName := by
  unfold deleteNodeFromIndices
  cases fs.vmssFlexNodeNameToVMName.Load nodeName <;> rfl

theorem deleteNodeFromIndices_nodeNameToVmssID (fs : FlexScaleSet) (nodeName : String) :
    (deleteNodeFromIndices fs nodeName).vmssFlexNodeNameToVmssID
      = fs.vmssFlexNodeNameToVmssID.Delete nodeName := by
  unfold deleteNodeFromIndices
  cases fs.vmssFlexNodeNameToVMName.Load nodeName <;> rfl

theorem deleteNodeFromIndices_vmNameToNodeName (fs : FlexScaleSet) (nodeName : String) :
    (deleteNodeFromIndices fs nodeName).vmssFlexVMNameToNodeName
      = match fs.vmssFlexNodeNameToVMName.Load nodeName with
        | some vmName => fs.vmssFlexVMNameToNodeName.Delete vmName
        | none => fs.vmssFlexVMNameToNodeName := by
  unfold deleteNodeFromIndices
  cases fs.vmssFlexNodeNameToVMName.Load nodeName <;> rfl

theorem deleteNodeFromIndices_frame (fs : FlexScaleSet) (nodeName : String) :
    (deleteNodeFromIndices fs nodeName).DisableAPICallCache = fs.DisableAPICallCache ∧
    (deleteNodeFromIndices fs nodeName).vmssFlexCache = fs.vmssFlexCache ∧
    (deleteNodeFromIndices fs nodeName).vmssFlexVMCache = fs.vmssFlexVMCache ∧
    (deleteNodeFromIndices fs nodeName).trace = fs.trace := by
  unfold deleteNodeFromIndices
  cases fs.vmssFlexNodeNameToVMName.Load nodeName <;> simp

/-- The indices of the state `DeleteCacheForNode` leaves are those of the state the resolution
left, with the node removed. -/
theorem DeleteCacheForNode_indices (w : Cloud) (fs fs1 : FlexScaleSet) (nodeName id : String)
    (hflag : fs.DisableAPICallCache = false)
    (hres : getNodeVmssFlexID w fs nodeName = (fs1, .ok id)) :
    (DeleteCacheForNode w fs nodeName).2 = .ok () ∧
    (DeleteCacheForNode w fs nodeName).1.vmssFlexNodeNameToVMName
      = fs1.vmssFlexNodeNameToVMName.Delete nodeName ∧
    (DeleteCacheForNode w fs nodeName).1.vmssFlexNodeNameToVmssID
      = fs1.vmssFlexNodeNameToVmssID.Delete nodeName ∧
    (DeleteCacheForNode w fs nodeName).1.vmssFlexVMNameToNodeName
      = match fs1.vmssFlexNodeNameToVMName.Load nodeName with
        | some vmName => fs1.vmssFlexVMNameToNodeName.Delete vmName
        | none => fs1.vmssFlexVMNameToNodeName := by
  rw [DeleteCacheForNode_eq w fs fs1 nodeName id hflag hres]
  refine ⟨rfl, ?_, ?_, ?_⟩
  · show (deleteNodeFromIndices _ nodeName).vmssFlexNodeNameToVMName = _
    rw [deleteNodeFromIndices_nodeNameToVMName]
    cases fs1.vmssFlexVMCache.cached id <;> rfl
  · show (deleteNodeFromIndices _ nodeName).vmssFlexNodeNameToVmssID = _
    rw [deleteNodeFromIndices_nodeNameToVmssID]
    cases fs1.vmssFlexVMCache.cached id <;> rfl
  · show (deleteNodeFromIndices _ nodeName).vmssFlexVMNameToNodeName = _
    rw [deleteNodeFromIndices_vmNameToNodeName]
    cases fs1.vmssFlexVMCache.cached id <;> rfl

/-- A `DeleteCacheForNode` that succeeds with caching enabled has resolved the node. -/
theorem getNodeVmssFlexID_of_DeleteCacheForNode_ok (w : Cloud) (fs fs2 : FlexScaleSet)
    (nodeName : String) (hflag : fs.DisableAPICallCache = false)
    (hdel : DeleteCacheForNode w fs nodeName = (fs2, .ok ())) :
    ∃ id, getNodeVmssFlexID w fs nodeName = ((getNodeVmssFlexID w fs nodeName).1, .ok id) := by
  rcases hres : getNodeVmssFlexID w fs nodeName with ⟨fs1, r⟩
  cases r with
  | ok id => exact ⟨id, rfl⟩
  | err e =>
    exfalso
    unfold DeleteCacheForNode at hdel
    simp [hflag, hres] at hdel
  | panic m =>
    exfalso
    unfold DeleteCacheForNode at hdel
    simp [hflag, hres] at hdel

/-! ## C1: deleting a node that cannot be resolved -/

/-- C1, counterexample: the node "vmssflex1000009" is in no index of the fresh state and the
remote side lists no such VM; resolving it fails with not-found, and `DeleteCacheForNode`
returns that error instead of succeeding. The state has changed as well: the refreshes of the
failed resolution have indexed the node "vmssflex1000001". -/
theorem DeleteCacheForNode_unresolved_fails :
    (getNodeVmssFlexID testCloud emptyFlexScaleSet "vmssflex1000009").2
      = .err .InstanceNotFound ∧
    (DeleteCacheForNode testCloud emptyFlexScaleSet "vmssflex1000009").2
      = .err .InstanceNotFound ∧
    emptyFlexScaleSet.vmssFlexNodeNameToVmssID.Load "vmssflex1000001" = none ∧
    (DeleteCacheForNode testCloud emptyFlexScaleSet "vmssflex1000009").1.vmssFlexNodeNameToVmssID.Load
      "vmssflex1000001" = some testVmssFlex1ID := by
  decide

/-- C1, as amended: with API-call caching enabled, when resolving the owning scale-set id of a
node fails (with not-found or any other error), `DeleteCacheForNode` returns that same error
and removes nothing: the state it leaves is the state the failed resolution left. -/
theorem DeleteCacheForNode_of_unresolved (w : Cloud) (fs fs1 : FlexScaleSet) (nodeName : String)
    (e : GoError) (hflag : fs.DisableAPICallCache = false)
    (hres : getNodeVmssFlexID w fs nodeName = (fs1, .err e)) :
    DeleteCacheForNode w fs nodeName = (fs1, .err e) := by
  unfold DeleteCacheForNode
  simp [hflag, hres]

/-- C1, witness: the node "vmssflex1000009" against `testCloud`. -/
theorem DeleteCacheForNode_of_unresolved_witness :
    emptyFlexScaleSet.DisableAPICallCache = false ∧
    DeleteCacheForNode testCloud emptyFlexScaleSet "vmssflex1000009"
      = ((getNodeVmssFlexID testCloud emptyFlexScaleSet "vmssflex1000009").1,
          .err .InstanceNotFound) :=
  ⟨rfl, DeleteCacheForNode_of_unresolved testCloud emptyFlexScaleSet _ "vmssflex1000009"
    .InstanceNotFound rfl (by decide)⟩

/-! ## C2: the node is gone from the indices -/

/-- C2, counterexample. With API-call caching disabled `DeleteCacheForNode` succeeds without
removing anything: the node "vmssflex1000001" is still a key of the node-name to VM-name index.
With caching enabled, in the state `twoNamesOneNode` it succeeds and the VM-name to node-name
index still maps "testvm1" to the node: only the entry of the VM name recorded last is
removed. -/
theorem DeleteCacheForNode_leaves_entries :
    (DeleteCacheForNode testCloud disabledFlexScaleSet "vmssflex1000001").2 = .ok () ∧
    (DeleteCacheForNode testCloud disabledFlexScaleSet
      "vmssflex1000001").1.vmssFlexNodeNameToVMName.Load "vmssflex1000001" = some "testvm1" ∧
    twoNamesOneNode.DisableAPICallCache = false ∧
    (DeleteCacheForNode testCloud twoNamesOneNode "vmssflex1000001").2 = .ok () ∧
    (DeleteCacheForNode testCloud twoNamesOneNode
      "vmssflex1000001").1.vmssFlexVMNameToNodeName.Load "testvm1" = some "vmssflex1000001" := by
  decide

/-- C2, as amended: after a successful `DeleteCacheForNode(N)` with API-call caching enabled,
`N` is not a key of the node-name to VM-name index, `N` is not a key of the node-name to
scale-set-id index, and the VM-name to node-name index has no entry for the VM name that the
node-name to VM-name index recorded for `N` when the resolution returned; if that VM name was
the only one mapped to `N`, no entry of the VM-name to node-name index has `N` as its value. -/
theorem DeleteCacheForNode_removes_node (w : Cloud) (fs fs2 : FlexScaleSet) (nodeName : String)
    (hflag : fs.DisableAPICallCache = false)
    (hdel : DeleteCacheForNode w fs nodeName = (fs2, .ok ())) :
    fs2.vmssFlexNodeNameToVMName.Load nodeName = none ∧
    fs2.vmssFlexNodeNameToVmssID.Load nodeName = none ∧
    (∀ vmName,
      (getNodeVmssFlexID w fs nodeName).1.vmssFlexNodeNameToVMName.Load nodeName = some vmName →
        fs2.vmssFlexVMNameToNodeName.Load vmName = none) ∧
    ((∀ vmName,
        (getNodeVmssFlexID w fs nodeName).1.vmssFlexVMNameToNodeName.Load vmName = some nodeName →
        (getNodeVmssFlexID w fs nodeName).1.vmssFlexNodeNameToVMName.Load nodeName = some vmName) →
      ∀ vmName, fs2.vmssFlexVMNameToNodeName.Load vmName ≠ some nodeName) := by
  obtain ⟨id, hres⟩ := getNodeVmssFlexID_of_DeleteCacheForNode_ok w fs fs2 nodeName hflag hdel
  obtain ⟨-, h1, h2, h3⟩ := DeleteCacheForNode_indices w fs _ nodeName id hflag hres
  rw [hdel] at h1 h2 h3
  simp only at h1 h2 h3
  refine ⟨by rw [h1]; simp, by rw [h2]; simp, ?_, ?_⟩
  · intro vmName hv
    rw [h3, hv]
    simp
  · intro hinv vmName hcontra
    rw [h3] at hcontra
    cases hl : (getNodeVmssFlexID w fs nodeName).1.vmssFlexNodeNameToVMName.Load nodeName with
    | none =>
      rw [hl] at hcontra
      have := hinv vmName hcontra
      rw [hl] at this
      cases this
    | some v =>
      rw [hl] at hcontra
      simp only [SyncMap.Load_Delete] at hcontra
      by_cases hv : vmName = v
      · simp [hv] at hcontra
      · simp only [hv, if_false] at hcontra
        have := hinv vmName hcontra
        rw [hl] at this
        exact hv (Option.some.inj this).symm

/-- C2, witness: the warm state of the tests, deleting the node "vmssflex1000001". -/
theorem DeleteCacheForNode_removes_node_witness :
    warmFlexScaleSet.DisableAPICallCache = false ∧
    (DeleteCacheForNode testCloud warmFlexScaleSet "vmssflex1000001").2 = .ok () ∧
    (DeleteCacheForNode testCloud warmFlexScaleSet
      "vmssflex1000001").1.vmssFlexNodeNameToVMName.Load "vmssflex1000001" = none :=
  ⟨by decide, by decide,
    (DeleteCacheForNode_removes_node testCloud warmFlexScaleSet
      (DeleteCacheForNode testCloud warmFlexScaleSet "vmssflex1000001").1 "vmssflex1000001"
      (by decide) (by decide)).1⟩

end Provider

namespace Provider

/-! ## C3: the other nodes keep their entries -/

/-- C3, counterexample. In the state `oneNameTwoNodes` the VM name "testvm1" was absorbed with
the computer name "vmssflex1000001" and then with "vmssflex1000007": both nodes are indexed and
the VM-name to node-name index maps "testvm1" to the node "vmssflex1000007". A successful
`DeleteCacheForNode("vmssflex1000001")` removes that entry, which belongs to the other node.
With API-call caching disabled the call succeeds and the number of indexed nodes does not
change. -/
theorem DeleteCacheForNode_removes_other_entry :
    oneNameTwoNodes.vmssFlexNodeNameToVmssID.Load "vmssflex1000001" = some testVmssFlex1ID ∧
    oneNameTwoNodes.vmssFlexVMNameToNodeName.Load "testvm1" = some "vmssflex1000007" ∧
    (DeleteCacheForNode testCloud oneNameTwoNodes "vmssflex1000001").2 = .ok () ∧
    (DeleteCacheForNode testCloud oneNameTwoNodes
      "vmssflex1000001").1.vmssFlexVMNameToNodeName.Load "testvm1" = none ∧
    (DeleteCacheForNode testCloud disabledFlexScaleSet "vmssflex1000001").2 = .ok () ∧
    (DeleteCacheForNode testCloud disabledFlexScaleSet
      "vmssflex1000001").1.vmssFlexNodeNameToVmssID.size
      = disabledFlexScaleSet.vmssFlexNodeNameToVmssID.size := by
  decide

/-- C3, as amended: with API-call caching enabled, for a node `N` present in the node-name to
scale-set-id index, `DeleteCacheForNode(N)` succeeds, leaves the node-name to VM-name entry and
the node-name to scale-set-id entry of every other node unchanged, leaves every VM-name to
node-name entry unchanged except the one of the VM name recorded for `N` (so every entry whose
value is another node is unchanged when that VM name is mapped to `N` or to nothing), and the
number of indexed nodes decreases by exactly one. -/
theorem DeleteCacheForNode_frame (w : Cloud) (fs : FlexScaleSet) (nodeName id : String)
    (hflag : fs.DisableAPICallCache = false)
    (hidx : fs.vmssFlexNodeNameToVmssID.Load nodeName = some id) :
    (DeleteCacheForNode w fs nodeName).2 = .ok () ∧
    (∀ other, other ≠ nodeName →
      (DeleteCacheForNode w fs nodeName).1.vmssFlexNodeNameToVMName.Load other
        = fs.vmssFlexNodeNameToVMName.Load other ∧
      (DeleteCacheForNode w fs nodeName).1.vmssFlexNodeNameToVmssID.Load other
        = fs.vmssFlexNodeNameToVmssID.Load other) ∧
    (∀ vmName, fs.vmssFlexNodeNameToVMName.Load nodeName ≠ some vmName →
      (DeleteCacheForNode w fs nodeName).1.vmssFlexVMNameToNodeName.Load vmName
        = fs.vmssFlexVMNameToNodeName.Load vmName) ∧
    (DeleteCacheForNode w fs nodeName).1.vmssFlexNodeNameToVmssID.size + 1
      = fs.vmssFlexNodeNameToVmssID.size := by
  have hres := getNodeVmssFlexID_of_indexed w fs nodeName id hidx
  obtain ⟨h0, h1, h2, h3⟩ := DeleteCacheForNode_indices w fs _ nodeName id hflag hres
  refine ⟨h0, ?_, ?_, ?_⟩
  · intro other hne
    rw [h1, h2]
    exact ⟨SyncMap.Load_Delete_ne _ hne, SyncMap.Load_Delete_ne _ hne⟩
  · intro vmName hv
    rw [h3]
    show (match fs.vmssFlexNodeNameToVMName.Load nodeName with
        | some v => fs.vmssFlexVMNameToNodeName.Delete v
        | none => fs.vmssFlexVMNameToNodeName).Load vmName = _
    cases hl : fs.vmssFlexNodeNameToVMName.Load nodeName with
    | none => rfl
    | some v =>
      have hne : vmName ≠ v := by
        intro e; apply hv; rw [hl, e]
      exact SyncMap.Load_Delete_ne _ hne
  · rw [h2]
    apply SyncMap.size_Delete
    show fs.vmssFlexNodeNameToVmssID.Load nodeName ≠ none
    rw [hidx]; simp

/-- C3, witness: the warm state of the tests, deleting the node "vmssflex1000001". -/
theorem DeleteCacheForNode_frame_witness :
    warmFlexScaleSet.DisableAPICallCache = false ∧
    warmFlexScaleSet.vmssFlexNodeNameToVmssID.Load "vmssflex1000001" = some testVmssFlex1ID ∧
    (DeleteCacheForNode testCloud warmFlexScaleSet
      "vmssflex1000001").1.vmssFlexNodeNameToVmssID.size + 1
      = warmFlexScaleSet.vmssFlexNodeNameToVmssID.size :=
  ⟨by decide, by decide,
    (DeleteCacheForNode_frame testCloud warmFlexScaleSet "vmssflex1000001" testVmssFlex1ID
      (by decide) (by decide)).2.2.2⟩

/-! ## C5: the cached VM collection loses the node and nothing else -/

theorem TimedCache.cached_Update {α : Type} (t : TimedCache α) (now : Nat) (key : String)
    (data : α) : (t.Update now key data).cached key = some data := by
  unfold TimedCache.Update TimedCache.cached
  cases t.Store.Load key <;> simp

theorem TimedCache.cached_Update_ne {α : Type} (t : TimedCache α) (now : Nat) {key other : String}
    (data : α) (h : other ≠ key) : (t.Update now key data).cached other = t.cached other := by
  unfold TimedCache.Update TimedCache.cached
  cases t.Store.Load key <;> simp [SyncMap.Load_Store_ne _ _ h]

/-- In a well-formed state a cached payload shows that caching is enabled. -/
theorem FlexScaleSet.WellFormed.enabled_of_cached {fs : FlexScaleSet} (hwf : fs.WellFormed)
    {key : String} {vmMap : SyncMap VirtualMachine}
    (h : fs.vmssFlexVMCache.cached key = some vmMap) : fs.DisableAPICallCache = false := by
  cases hd : fs.DisableAPICallCache with
  | false => rfl
  | true =>
    exfalso
    have := (hwf hd).2
    simp [TimedCache.cached, this] at h

/-- C5: for a node `N` whose owning scale-set id is indexed and whose scale set has a cached
VM collection, `DeleteCacheForNode(N)` succeeds and replaces that collection by the same
collection with the member `N` deleted: `N` is no longer a member, every other member is
unchanged, the number of members drops by one when `N` was a member, the collections of the
other scale sets are untouched, and no remote call is made (the trace grows by the four lock
operations only), so the update is in place and not a refresh. -/
theorem DeleteCacheForNode_updates_collection (w : Cloud) (fs : FlexScaleSet)
    (nodeName id : String) (vmMap : SyncMap VirtualMachine) (hwf : fs.WellFormed)
    (hidx : fs.vmssFlexNodeNameToVmssID.Load nodeName = some id)
    (hcached : fs.vmssFlexVMCache.cached id = some vmMap) :
    (DeleteCacheForNode w fs nodeName).2 = .ok () ∧
    (DeleteCacheForNode w fs nodeName).1.vmssFlexVMCache.cached id
      = some (vmMap.Delete nodeName) ∧
    (vmMap.Delete nodeName).Load nodeName = none ∧
    (∀ other, other ≠ nodeName → (vmMap.Delete nodeName).Load other = vmMap.Load other) ∧
    (vmMap.Load nodeName ≠ none → (vmMap.Delete nodeName).size + 1 = vmMap.size) ∧
    (∀ key, key ≠ id →
      (DeleteCacheForNode w fs nodeName).1.vmssFlexVMCache.cached key
        = fs.vmssFlexVMCache.cached key) ∧
    (DeleteCacheForNode w fs nodeName).1.trace = fs.trace ++
      [.LockEntry w.GetNodeVmssFlexIDLockKey, .UnlockEntry w.GetNodeVmssFlexIDLockKey,
        .LockEntry id, .UnlockEntry id] := by
  have hflag := hwf.enabled_of_cached hcached
  have hres := getNodeVmssFlexID_of_indexed w fs nodeName id hidx
  rw [DeleteCacheForNode_eq w fs _ nodeName id hflag hres]
  have hc : ((fs.record (.LockEntry w.GetNodeVmssFlexIDLockKey)).record
      (.UnlockEntry w.GetNodeVmssFlexIDLockKey)).vmssFlexVMCache.cached id = some vmMap := hcached
  simp only [hc]
  refine ⟨trivial, ?_, SyncMap.Load_Delete_self _ _, fun other hne => SyncMap.Load_Delete_ne _ hne,
    fun hmem => SyncMap.size_Delete _ _ hmem, ?_, ?_⟩
  · show (deleteNodeFromIndices _ nodeName).vmssFlexVMCache.cached id = _
    rw [(deleteNodeFromIndices_frame _ nodeName).2.2.1]
    exact TimedCache.cached_Update _ _ _ _
  · intro key hne
    show (deleteNodeFromIndices _ nodeName).vmssFlexVMCache.cached key = _
    rw [(deleteNodeFromIndices_frame _ nodeName).2.2.1]
    exact TimedCache.cached_Update_ne _ _ _ hne
  · show (deleteNodeFromIndices _ nodeName).trace ++ [Event.UnlockEntry id] = _
    rw [(deleteNodeFromIndices_frame _ nodeName).2.2.2]
    simp [FlexScaleSet.record]

/-- C5, witness: the three VMs of the tests are cached under `testVmssFlex1ID`; after deleting
the node "vmssflex1000001" the collection has exactly two members. -/
theorem DeleteCacheForNode_updates_collection_witness :
    warmFlexScaleSet.WellFormed ∧
    warmFlexScaleSet.vmssFlexNodeNameToVmssID.Load "vmssflex1000001" = some testVmssFlex1ID ∧
    (warmFlexScaleSet.vmssFlexVMCache.cached testVmssFlex1ID).map SyncMap.size = some 3 ∧
    ((DeleteCacheForNode testCloud warmFlexScaleSet
      "vmssflex1000001").1.vmssFlexVMCache.cached testVmssFlex1ID).map SyncMap.size = some 2 :=
  have hwf : warmFlexScaleSet.WellFormed := fun h => absurd h (by decide)
  have hidx : warmFlexScaleSet.vmssFlexNodeNameToVmssID.Load "vmssflex1000001"
      = some testVmssFlex1ID := by decide
  have hc : warmFlexScaleSet.vmssFlexVMCache.cached testVmssFlex1ID
      = some ((warmFlexScaleSet.vmssFlexVMCache.cached testVmssFlex1ID).getD SyncMap.empty) := by
    decide
  ⟨hwf, hidx, by decide, by
    rw [(DeleteCacheForNode_updates_collection testCloud warmFlexScaleSet "vmssflex1000001"
      testVmssFlex1ID _ hwf hidx hc).2.1]
    decide⟩

end Provider

namespace Provider

/-! ## Well-formed states -/

variable {w : Cloud} {P : FlexScaleSet → Prop}

theorem Preserved.after_getVmssFlexVMByVMName (hP : Preserved w (fun _ => True) P)
    (fs : FlexScaleSet) (vmName : String) (crt : AzureCacheReadType) (h : P fs) :
    P (getVmssFlexVMByVMName w fs vmName crt).1 := by
  unfold Provider.getVmssFlexVMByVMName
  have h1 := hP.record fs (.getVirtualMachine vmName crt) h
  cases w.getVirtualMachine vmName crt with
  | err e => exact h1
  | panic m => exact h1
  | ok vm =>
    have h2 := hP.absorb _ vm trivial h1
    dsimp only
    rcases hc : cacheVirtualMachine (fs.record (.getVirtualMachine vmName crt)) vm with ⟨fs2, r⟩
    rw [hc] at h2
    cases r <;> exact h2

theorem Preserved.after_getVmssFlexVM (hP : Preserved w (fun _ => True) P)
    (fs : FlexScaleSet) (nodeName : String) (crt : AzureCacheReadType) (h : P fs) :
    P (getVmssFlexVM w fs nodeName crt).1 := by
  unfold Provider.getVmssFlexVM
  cases fs.vmssFlexNodeNameToVMName.Load nodeName with
  | some vmName => exact hP.after_getVmssFlexVMByVMName fs vmName crt h
  | none =>
    have h1 := hP.after_getNodeVmssFlexID (listsOnly_true w) fs nodeName h
    dsimp only
    rcases hc : getNodeVmssFlexID w fs nodeName with ⟨fs1, r⟩
    rw [hc] at h1
    cases r with
    | err e => exact h1
    | panic m => exact h1
    | ok id =>
      have h2 := hP.after_vmssFlexVMCacheGet (listsOnly_true w) fs1 id crt h1
      dsimp only
      rcases hc2 : vmssFlexVMCacheGet w fs1 id crt with ⟨fs2, r2⟩
      rw [hc2] at h2
      cases r2 with
      | err e => exact h2
      | panic m => exact h2
      | ok d =>
        cases d with
        | none => exact h2
        | some vmMap =>
          dsimp only
          cases vmMap.Load nodeName <;> exact h2

/-- An operation that preserves every preserved property preserves well-formedness. -/
theorem FlexScaleSet.WellFormed.of_preserved {fs fs1 : FlexScaleSet} (hwf : fs.WellFormed)
    (hop : ∀ P : FlexScaleSet → Prop, Preserved w (fun _ => True) P → P fs → P fs1) :
    fs1.WellFormed := by
  cases hd : fs.DisableAPICallCache with
  | false =>
    intro h1
    have := hop _ (Preserved.config w false) hd
    rw [h1] at this
    cases this
  | true =>
    intro _
    have := hop _ (Preserved.caches w fs.vmssFlexCache fs.vmssFlexVMCache) ⟨hd, rfl, rfl⟩
    rw [this.2.1, this.2.2]
    exact hwf hd

/-- A fresh state, with empty stores, is well-formed. -/
theorem FlexScaleSet.WellFormed.of_empty (fs : FlexScaleSet)
    (h1 : fs.vmssFlexCache.Store = SyncMap.empty) (h2 : fs.vmssFlexVMCache.Store = SyncMap.empty) :
    fs.WellFormed :=
  fun _ => ⟨h1, h2⟩

/-- Resolving a node keeps the state well-formed. -/
theorem FlexScaleSet.WellFormed.getNodeVmssFlexID_wf {fs : FlexScaleSet} (hwf : fs.WellFormed)
    (w : Cloud) (nodeName : String) : (getNodeVmssFlexID w fs nodeName).1.WellFormed :=
  hwf.of_preserved (fun _ hP h => hP.after_getNodeVmssFlexID (listsOnly_true w) fs nodeName h)

/-- Resolving a VM keeps the state well-formed. -/
theorem FlexScaleSet.WellFormed.getVmssFlexVM_wf {fs : FlexScaleSet} (hwf : fs.WellFormed)
    (w : Cloud) (nodeName : String) (crt : AzureCacheReadType) :
    (getVmssFlexVM w fs nodeName crt).1.WellFormed :=
  hwf.of_preserved (fun _ hP h => hP.after_getVmssFlexVM fs nodeName crt h)

/-- `DeleteCacheForNode` does not write the configuration flag. -/
theorem DeleteCacheForNode_flag (w : Cloud) (fs : FlexScaleSet) (nodeName : String) :
    (DeleteCacheForNode w fs nodeName).1.DisableAPICallCache = fs.DisableAPICallCache := by
  cases hd : fs.DisableAPICallCache with
  | true => unfold DeleteCacheForNode; simp [hd]
  | false =>
    have h1 := (Preserved.config w false).after_getNodeVmssFlexID (listsOnly_true w) fs nodeName hd
    rcases hres : getNodeVmssFlexID w fs nodeName with ⟨fs1, r⟩
    rw [hres] at h1
    cases r with
    | ok id =>
      rw [DeleteCacheForNode_eq w fs fs1 nodeName id hd hres]
      show (deleteNodeFromIndices _ nodeName).DisableAPICallCache = false
      rw [(deleteNodeFromIndices_frame _ nodeName).1]
      cases fs1.vmssFlexVMCache.cached id <;> exact h1
    | err e => unfold DeleteCacheForNode; simp [hd, hres]; exact h1
    | panic m => unfold DeleteCacheForNode; simp [hd, hres]; exact h1

/-- Deleting a node keeps the state well-formed. -/
theorem FlexScaleSet.WellFormed.DeleteCacheForNode_wf {fs : FlexScaleSet} (hwf : fs.WellFormed)
    (w : Cloud) (nodeName : String) : (DeleteCacheForNode w fs nodeName).1.WellFormed := by
  cases hd : fs.DisableAPICallCache with
  | true =>
    have : DeleteCacheForNode w fs nodeName = (fs, .ok ()) := by
      unfold DeleteCacheForNode; simp [hd]
    rw [this]; exact hwf
  | false =>
    intro h1
    rw [DeleteCacheForNode_flag, hd] at h1
    cases h1

/-! ## C10: the descriptor a resolved node gets -/

/-- C10, counterexample: the node "vmssflex1000001" was absorbed from `testVM1`, whose VM name
is "testvm1". The remote lookup of that VM name answers with a descriptor whose computer name
is "vmssflex1000007", and `getVmssFlexVM` returns it without error. -/
theorem getVmssFlexVM_other_computer_name :
    (cacheVirtualMachine emptyFlexScaleSet testVM1).1.vmssFlexNodeNameToVMName.Load
      "vmssflex1000001" = some "testvm1" ∧
    (getVmssFlexVM otherGroupCloud (cacheVirtualMachine emptyFlexScaleSet testVM1).1
      "vmssflex1000001" .CacheReadTypeDefault).2 = .ok testVM1OtherGroup ∧
    testVM1OtherGroup.nodeName = some "vmssflex1000007" := by
  decide

/-- C10, as amended: for a node `N` that was absorbed into the indices, so that the node-name to
VM-name index maps it to a VM name, whenever `getVmssFlexVM(N, policy)` returns a descriptor
without error, that descriptor is the answer of the by-name lookup `getVirtualMachine` for the
recorded VM name; it has a computer name whose lower-cased form is `N` provided the lookup
answers that VM name with such a descriptor. -/
theorem getVmssFlexVM_of_indexed (w : Cloud) (fs fs1 : FlexScaleSet) (nodeName vmName : String)
    (crt : AzureCacheReadType) (vm : VirtualMachine)
    (hidx : fs.vmssFlexNodeNameToVMName.Load nodeName = some vmName)
    (hget : getVmssFlexVM w fs nodeName crt = (fs1, .ok vm))
    (hcons : ∀ vm0, w.getVirtualMachine vmName crt = .ok vm0 → vm0.nodeName = some nodeName) :
    w.getVirtualMachine vmName crt = .ok vm ∧ vm.nodeName = some nodeName := by
  have hvm : w.getVirtualMachine vmName crt = .ok vm := by
    unfold getVmssFlexVM at hget
    simp only [hidx] at hget
    unfold getVmssFlexVMByVMName at hget
    cases hl : w.getVirtualMachine vmName crt with
    | err e => simp [hl] at hget
    | panic m => simp [hl] at hget
    | ok vm0 =>
      simp only [hl] at hget
      rcases hc : cacheVirtualMachine (fs.record (.getVirtualMachine vmName crt)) vm0 with ⟨fs2, r⟩
      rw [hc] at hget
      cases r with
      | ok u =>
        simp only [Prod.mk.injEq, Outcome.ok.injEq] at hget
        rw [hget.2]
      | err e => simp at hget
      | panic m => simp at hget
  exact ⟨hvm, hcons vm hvm⟩

/-- C10, witness: the node "vmssflex1000001" of the warm state, looked up against `testCloud`. -/
theorem getVmssFlexVM_of_indexed_witness :
    warmFlexScaleSet.vmssFlexNodeNameToVMName.Load "vmssflex1000001" = some "testvm1" ∧
    testVM1WithInstanceView.nodeName = some "vmssflex1000001" :=
  ⟨by decide,
    (getVmssFlexVM_of_indexed testCloud warmFlexScaleSet
      (getVmssFlexVM testCloud warmFlexScaleSet "vmssflex1000001" .CacheReadTypeDefault).1
      "vmssflex1000001" "testvm1" .CacheReadTypeDefault testVM1WithInstanceView
      (by decide) (by decide)
      (by
        intro vm0 h
        have h1 : testCloud.getVirtualMachine "testvm1" .CacheReadTypeDefault
            = .ok testVM1WithInstanceView := by decide
        rw [h1] at h
        cases h
        decide)).2⟩

end Provider

namespace Provider

/-! ## C4: resolving a node after its deletion -/

variable {w : Cloud} {nodeName : String}

/-- Probing does not find a node that no listing contains. -/
theorem probeVmssFlexIDs_absent (hw : ListsOnly w (fun vm => vm.nodeName ≠ some nodeName))
    (ids : List String) :
    ∀ fs : FlexScaleSet,
      (fs.vmssFlexNodeNameToVMName.Load nodeName = none ∧
        fs.vmssFlexNodeNameToVmssID.Load nodeName = none) →
      ∀ id, (probeVmssFlexIDs w nodeName ids fs).2 ≠ .ok id := by
  induction ids with
  | nil => intro fs _ id h; simp [probeVmssFlexIDs] at h
  | cons vmssID rest ih =>
    intro fs h id
    unfold probeVmssFlexIDs
    have h1 := (Preserved.absent w nodeName).after_vmssFlexVMCacheGet hw fs vmssID
      .CacheReadTypeForceRefresh h
    rcases hc : vmssFlexVMCacheGet w fs vmssID .CacheReadTypeForceRefresh with ⟨fs1, r⟩
    rw [hc] at h1
    cases r with
    | err e => simp
    | panic m => simp
    | ok d =>
      simp only [h1.2]
      exact ih fs1 h1 id

theorem getter_absent (hw : ListsOnly w (fun vm => vm.nodeName ≠ some nodeName))
    (fs : FlexScaleSet) (crt : AzureCacheReadType)
    (h : fs.vmssFlexNodeNameToVMName.Load nodeName = none ∧
        fs.vmssFlexNodeNameToVmssID.Load nodeName = none) (id : String) :
    (getNodeVmssFlexID.getter w fs nodeName crt).2 ≠ .ok id := by
  unfold getNodeVmssFlexID.getter
  have h1 := (Preserved.absent w nodeName).after_vmssFlexCacheGet fs w.VmssFlexKey crt h
  rcases hc : vmssFlexCacheGet w fs w.VmssFlexKey crt with ⟨fs1, r⟩
  rw [hc] at h1
  cases r with
  | err e => simp
  | panic m => simp
  | ok d =>
    cases d with
    | none => simp
    | some coll =>
      simp only
      cases candidateVmssFlexIDs nodeName coll.Range [] with
      | err e => simp
      | panic m => simp
      | ok ids => exact probeVmssFlexIDs_absent hw ids fs1 h1 id

theorem getNodeVmssFlexID_absent (hw : ListsOnly w (fun vm => vm.nodeName ≠ some nodeName))
    (fs : FlexScaleSet)
    (h : fs.vmssFlexNodeNameToVMName.Load nodeName = none ∧
        fs.vmssFlexNodeNameToVmssID.Load nodeName = none) (id : String) :
    (getNodeVmssFlexID w fs nodeName).2 ≠ .ok id := by
  unfold getNodeVmssFlexID
  have h0 : (fs.record (.LockEntry w.GetNodeVmssFlexIDLockKey)).vmssFlexNodeNameToVMName.Load
        nodeName = none ∧
      (fs.record (.LockEntry w.GetNodeVmssFlexIDLockKey)).vmssFlexNodeNameToVmssID.Load
        nodeName = none := h
  simp only [h0.2]
  have h1 := (Preserved.absent w nodeName).after_getter hw _ nodeName .CacheReadTypeDefault h0
  have h2 := getter_absent hw _ .CacheReadTypeDefault h0 id
  rcases hc : getNodeVmssFlexID.getter w (fs.record (.LockEntry w.GetNodeVmssFlexIDLockKey))
    nodeName .CacheReadTypeDefault with ⟨fs1, r⟩
  rw [hc] at h1 h2
  cases r with
  | ok id1 => exact h2
  | panic m => simp
  | err e =>
    simp only
    split
    · exact getter_absent hw fs1 .CacheReadTypeForceRefresh h1 id
    · simp

theorem getVmssFlexVM_absent (hw : ListsOnly w (fun vm => vm.nodeName ≠ some nodeName))
    (fs : FlexScaleSet) (crt : AzureCacheReadType)
    (h : fs.vmssFlexNodeNameToVMName.Load nodeName = none ∧
        fs.vmssFlexNodeNameToVmssID.Load nodeName = none) (vm : VirtualMachine) :
    (getVmssFlexVM w fs nodeName crt).2 ≠ .ok vm := by
  unfold getVmssFlexVM
  simp only [h.1]
  rcases hc : getNodeVmssFlexID w fs nodeName with ⟨fs1, r⟩
  cases r with
  | err e => simp
  | panic m => simp
  | ok id =>
    exfalso
    have := getNodeVmssFlexID_absent hw fs h id
    rw [hc] at this
    exact this rfl

end Provider

namespace Provider

/-! ## The scale-set collection: every cached scale set has its properties -/

theorem SyncMap.mem_of_Load {α : Type} {m : SyncMap α} {k : String} {v : α}
    (h : m.Load k = some v) : (k, v) ∈ m.entries := by
  obtain ⟨l⟩ := m
  simp only [SyncMap.Load] at h
  induction l with
  | nil => simp [SyncMap.lookupKey] at h
  | cons e rest ih =>
    obtain ⟨a, b⟩ := e
    by_cases hak : a = k
    · simp only [SyncMap.lookupKey, hak, if_true, Option.some.injEq] at h
      simp [hak, h]
    · simp only [SyncMap.lookupKey, hak, if_false] at h
      exact List.mem_cons_of_mem _ (ih h)

theorem SyncMap.mem_Store {α : Type} {m : SyncMap α} {k : String} {v : α} {e : String × α}
    (h : e ∈ (m.Store k v).entries) : e = (k, v) ∨ e ∈ m.entries := by
  simp only [SyncMap.Store, List.mem_cons] at h
  rcases h with h | h
  · exact Or.inl h
  · exact Or.inr ((SyncMap.mem_eraseKey _ _ _).1 h).1

theorem AllHaveProperties.after_Store {coll : SyncMap VirtualMachineScaleSet} (h : AllHaveProperties coll)
    (k : String) {v : VirtualMachineScaleSet} (hv : v.VirtualMachineScaleSetProperties ≠ none) :
    AllHaveProperties (coll.Store k v) := by
  intro e he
  rcases SyncMap.mem_Store he with h1 | h1
  · rw [h1]; exact hv
  · exact h e h1

theorem cacheScaleSets_props (all : List VirtualMachineScaleSet) :
    ∀ lc lc1 : SyncMap VirtualMachineScaleSet, AllHaveProperties lc →
      cacheScaleSets lc all = .ok lc1 → AllHaveProperties lc1 := by
  induction all with
  | nil =>
    intro lc lc1 h heq
    simp only [cacheScaleSets, Outcome.ok.injEq] at heq
    rw [← heq]; exact h
  | cons ss rest ih =>
    intro lc lc1 h heq
    unfold cacheScaleSets at heq
    cases hid : ss.ID with
    | none => simp only [hid] at heq; exact ih lc lc1 h heq
    | some id =>
      simp only [hid] at heq
      by_cases he : id = ""
      · simp only [he, if_true] at heq; exact ih lc lc1 h heq
      · simp only [he, if_false] at heq
        cases hp : ss.VirtualMachineScaleSetProperties with
        | none => simp [hp] at heq
        | some p =>
          simp only [hp] at heq
          by_cases hm : p.OrchestrationMode = .Flexible
          · simp only [hm, if_true] at heq
            exact ih _ lc1 (h.after_Store id (by rw [hp]; simp)) heq
          · simp only [hm, if_false] at heq
            exact ih lc lc1 h heq

theorem listScaleSetsOfGroups_props (w : Cloud) (groups : List String) :
    ∀ (fs fs1 : FlexScaleSet) (lc lc1 : SyncMap VirtualMachineScaleSet), AllHaveProperties lc →
      listScaleSetsOfGroups w groups fs lc = (fs1, .ok lc1) → AllHaveProperties lc1 := by
  induction groups with
  | nil =>
    intro fs fs1 lc lc1 h heq
    simp only [listScaleSetsOfGroups, Prod.mk.injEq, Outcome.ok.injEq] at heq
    rw [← heq.2]; exact h
  | cons rg rest ih =>
    intro fs fs1 lc lc1 h heq
    unfold listScaleSetsOfGroups at heq
    cases hl : w.ListScaleSets rg with
    | error rerr =>
      simp only [hl] at heq
      by_cases hnf : rerr.IsNotFound
      · simp only [hnf, if_true] at heq; exact ih _ fs1 lc lc1 h heq
      · simp [hnf] at heq
    | ok all =>
      simp only [hl] at heq
      cases hc : cacheScaleSets lc all with
      | ok lc2 =>
        simp only [hc] at heq
        exact ih _ fs1 lc2 lc1 (cacheScaleSets_props all lc lc2 h hc) heq
      | err e => simp [hc] at heq
      | panic m => simp [hc] at heq

theorem vmssFlexCacheGetter_props (w : Cloud) (fs fs1 : FlexScaleSet) (key : String)
    (data : SyncMap VirtualMachineScaleSet) (h : vmssFlexCacheGetter w fs key = (fs1, .ok data)) :
    AllHaveProperties data := by
  unfold vmssFlexCacheGetter at h
  cases hg : w.GetResourceGroups with
  | ok groups =>
    simp only [hg] at h
    exact listScaleSetsOfGroups_props w groups _ fs1 SyncMap.empty data
      (fun e he => by simp [SyncMap.empty] at he) h
  | err e => simp [hg] at h
  | panic m => simp [hg] at h

theorem Preserved.scaleSetsHaveProperties (w : Cloud) :
    Preserved w (fun _ => True) FlexScaleSet.ScaleSetsHaveProperties where
  record := fun _ _ h => h
  absorb := by
    intro fs vm _ h key coll hc
    rw [(cacheVirtualMachine_frame fs vm).2.2.1] at hc
    exact h key coll hc
  keepVmssFlexCache := fun _ _ h _ => h
  setVmssFlexCache := by
    intro fs fs1 key data h _ _ hg key1 coll hc
    simp only [TimedCache.cached, SyncMap.Load_Store] at hc
    by_cases hk : key1 = key
    · simp only [hk, if_true, Option.some.injEq] at hc
      rw [← hc]
      exact vmssFlexCacheGetter_props w fs fs1 key data hg
    · simp only [hk, if_false] at hc
      exact h key1 coll hc
  keepVmssFlexVMCache := fun _ _ _ h1 => h1
  setVmssFlexVMCache := fun _ _ _ _ _ h1 _ _ => h1

theorem Preserved.and {w : Cloud} {Q1 Q2 : VirtualMachine → Prop} {P1 P2 : FlexScaleSet → Prop}
    (h1 : Preserved w Q1 P1) (h2 : Preserved w Q2 P2) :
    Preserved w (fun vm => Q1 vm ∧ Q2 vm) (fun s => P1 s ∧ P2 s) where
  record := fun fs e h => ⟨h1.record fs e h.1, h2.record fs e h.2⟩
  absorb := fun fs vm hQ h => ⟨h1.absorb fs vm hQ.1 h.1, h2.absorb fs vm hQ.2 h.2⟩
  keepVmssFlexCache := fun fs fs1 h h' =>
    ⟨h1.keepVmssFlexCache fs fs1 h.1 h'.1, h2.keepVmssFlexCache fs fs1 h.2 h'.2⟩
  setVmssFlexCache := fun fs fs1 key data h h' hd hg =>
    ⟨h1.setVmssFlexCache fs fs1 key data h.1 h'.1 hd hg,
      h2.setVmssFlexCache fs fs1 key data h.2 h'.2 hd hg⟩
  keepVmssFlexVMCache := fun fs fs1 h h' =>
    ⟨h1.keepVmssFlexVMCache fs fs1 h.1 h'.1, h2.keepVmssFlexVMCache fs fs1 h.2 h'.2⟩
  setVmssFlexVMCache := fun fs fs1 key data h h' hd hg =>
    ⟨h1.setVmssFlexVMCache fs fs1 key data h.1 h'.1 hd hg,
      h2.setVmssFlexVMCache fs fs1 key data h.2 h'.2 hd hg⟩

end Provider

namespace Provider

/-! ## A healthy remote side: every refresh succeeds -/

theorem TimedCache.Get_ForceRefresh_ok {σ α : Type} (t : TimedCache α) (disabled : Bool)
    (now : Nat) (getter : σ → String → σ × Outcome α) (s s1 : σ) (key : String) (data : α)
    (hg : getter s key = (s1, .ok data)) :
    (t.Get disabled now getter s key .CacheReadTypeForceRefresh).2.2 = .ok (some data) := by
  unfold TimedCache.Get
  cases disabled <;> simp [hg]

/-- A read under `Default` or `ForceRefresh` with a getter that succeeds returns the payload of
the getter or the cached payload. -/
theorem TimedCache.Get_ok_of_getter_ok {σ α : Type} (t : TimedCache α) (disabled : Bool)
    (now : Nat) (getter : σ → String → σ × Outcome α) (s s1 : σ) (key : String) (data : α)
    (crt : AzureCacheReadType)
    (hcrt : crt = .CacheReadTypeDefault ∨ crt = .CacheReadTypeForceRefresh)
    (hg : getter s key = (s1, .ok data)) :
    (t.Get disabled now getter s key crt).2.2 = .ok (some data) ∨
    ∃ d, t.cached key = some d ∧ (t.Get disabled now getter s key crt).2.2 = .ok (some d) := by
  rcases hcrt with h | h
  · subst h
    unfold TimedCache.Get TimedCache.cached
    cases disabled
    · simp only [hg, Bool.false_eq_true, if_false]
      cases hl : t.Store.Load key with
      | none => simp
      | some entry =>
        obtain ⟨d, lu⟩ := entry
        cases d with
        | none => simp
        | some d =>
          simp only
          split
          · right; exact ⟨d, rfl, rfl⟩
          · left; simp
    · simp [hg]
  · subst h
    left
    exact TimedCache.Get_ForceRefresh_ok t disabled now getter s s1 key data hg

theorem cacheScaleSets_ok (all : List VirtualMachineScaleSet)
    (h : ∀ scaleSet ∈ all, scaleSet.VirtualMachineScaleSetProperties ≠ none) :
    ∀ lc : SyncMap VirtualMachineScaleSet, ∃ lc1, cacheScaleSets lc all = .ok lc1 := by
  induction all with
  | nil => intro lc; exact ⟨lc, rfl⟩
  | cons ss rest ih =>
    intro lc
    have ih1 := ih (fun s hs => h s (List.mem_cons_of_mem _ hs))
    unfold cacheScaleSets
    cases hid : ss.ID with
    | none => exact ih1 lc
    | some id =>
      simp only
      by_cases he : id = ""
      · simp only [he, if_true]; exact ih1 lc
      · simp only [he, if_false]
        cases hp : ss.VirtualMachineScaleSetProperties with
        | none => exact absurd hp (h ss (List.mem_cons_self _ _))
        | some p =>
          simp only
          by_cases hm : p.OrchestrationMode = .Flexible
          · simp only [hm, if_true]; exact ih1 _
          · simp only [hm, if_false]; exact ih1 lc

theorem listScaleSetsOfGroups_ok {w : Cloud} (hw : w.Healthy) (groups : List String) :
    ∀ (fs : FlexScaleSet) (lc : SyncMap VirtualMachineScaleSet),
      ∃ fs1 lc1, listScaleSetsOfGroups w groups fs lc = (fs1, .ok lc1) := by
  induction groups with
  | nil => intro fs lc; exact ⟨fs, lc, rfl⟩
  | cons rg rest ih =>
    intro fs lc
    unfold listScaleSetsOfGroups
    rcases hw.scaleSets rg with ⟨rerr, hl, hnf⟩ | ⟨all, hl, hall⟩
    · simp only [hl, hnf, if_true]; exact ih _ _
    · obtain ⟨lc1, hc⟩ := cacheScaleSets_ok all hall lc
      simp only [hl, hc]; exact ih _ _

theorem vmssFlexCacheGetter_ok {w : Cloud} (hw : w.Healthy) (fs : FlexScaleSet) (key : String) :
    ∃ fs1 data, vmssFlexCacheGetter w fs key = (fs1, .ok data) := by
  unfold vmssFlexCacheGetter
  obtain ⟨groups, hg⟩ := hw.groups
  simp only [hg]
  exact listScaleSetsOfGroups_ok hw groups _ _

/-- With a healthy remote side a read of the scale-set collection under `Default` or
`ForceRefresh` returns a collection, all of whose scale sets have their properties. -/
theorem vmssFlexCacheGet_ok {w : Cloud} (hw : w.Healthy) (fs : FlexScaleSet)
    (hI : fs.ScaleSetsHaveProperties) (key : String) (crt : AzureCacheReadType)
    (hcrt : crt = .CacheReadTypeDefault ∨ crt = .CacheReadTypeForceRefresh) :
    ∃ coll, (vmssFlexCacheGet w fs key crt).2 = .ok (some coll) ∧ AllHaveProperties coll := by
  obtain ⟨fs1, data, hg⟩ := vmssFlexCacheGetter_ok hw fs key
  have hprops := vmssFlexCacheGetter_props w fs fs1 key data hg
  unfold vmssFlexCacheGet
  rcases TimedCache.Get_ok_of_getter_ok fs.vmssFlexCache fs.DisableAPICallCache fs.now
    (vmssFlexCacheGetter w) fs fs1 key data crt hcrt hg with h | ⟨d, hd, h⟩
  · rcases hget : fs.vmssFlexCache.Get fs.DisableAPICallCache fs.now
      (vmssFlexCacheGetter w) fs key crt with ⟨fs2, t, r⟩
    rw [hget] at h
    exact ⟨data, h, hprops⟩
  · rcases hget : fs.vmssFlexCache.Get fs.DisableAPICallCache fs.now
      (vmssFlexCacheGetter w) fs key crt with ⟨fs2, t, r⟩
    rw [hget] at h
    exact ⟨d, h, hI key d hd⟩

theorem candidateVmssFlexIDs_ok (nodeName : String) (hlen : 6 ≤ (utf8Bytes nodeName).length)
    (entries : List (String × VirtualMachineScaleSet))
    (h : ∀ e ∈ entries, e.2.VirtualMachineScaleSetProperties ≠ none) :
    ∀ acc : List String, ∃ ids, candidateVmssFlexIDs nodeName entries acc = .ok ids := by
  induction entries with
  | nil => intro acc; exact ⟨acc, rfl⟩
  | cons e rest ih =>
    intro acc
    obtain ⟨id, ss⟩ := e
    have ih1 := ih (fun x hx => h x (List.mem_cons_of_mem _ hx))
    unfold candidateVmssFlexIDs
    cases hp : ss.VirtualMachineScaleSetProperties with
    | none => exact absurd hp (h (id, ss) (List.mem_cons_self _ _))
    | some p =>
      have hl : ¬ (utf8Bytes nodeName).length < 6 := by omega
      simp only [hl, if_false]
      split
      · exact ih1 _
      · exact ih1 _

theorem cacheVirtualMachine_ok (fs : FlexScaleSet) (vm : VirtualMachine)
    (hp : vm.VirtualMachineProperties ≠ none) (hn : vm.nodeName ≠ none → vm.Name ≠ none) :
    (cacheVirtualMachine fs vm).2 = .ok () := by
  cases hnode : vm.nodeName with
  | some n =>
    cases hname : vm.Name with
    | none => exact absurd hname (hn (by rw [hnode]; simp))
    | some name => rw [cacheVirtualMachine_eq fs hname hnode]
  | none =>
    unfold cacheVirtualMachine
    unfold VirtualMachine.nodeName at hnode
    cases hp1 : vm.VirtualMachineProperties with
    | none => exact absurd hp1 hp
    | some p =>
      simp only [hp1] at hnode ⊢
      cases hos : p.OsProfile with
      | none => rfl
      | some os =>
        simp only [hos] at hnode ⊢
        cases hcn : os.ComputerName with
        | none => rfl
        | some cn => simp [hcn] at hnode

theorem AllVMsHaveProperties.after_StoreVM {coll : SyncMap VirtualMachine} (h : AllVMsHaveProperties coll)
    (k : String) {v : VirtualMachine} (hv : v.VirtualMachineProperties ≠ none) :
    AllVMsHaveProperties (coll.Store k v) := by
  intro e he
  rcases SyncMap.mem_Store he with h1 | h1
  · rw [h1]; exact hv
  · exact h e h1

theorem cacheListedVMs_ok (vms : List VirtualMachine)
    (h : ∀ vm ∈ vms, vm.VirtualMachineProperties ≠ none ∧ (vm.nodeName ≠ none → vm.Name ≠ none)) :
    ∀ (fs : FlexScaleSet) (lc : SyncMap VirtualMachine), AllVMsHaveProperties lc →
      ∃ fs1 lc1, cacheListedVMs vms fs lc = (fs1, .ok lc1) ∧ AllVMsHaveProperties lc1 := by
  induction vms with
  | nil => intro fs lc hlc; exact ⟨fs, lc, rfl, hlc⟩
  | cons vm rest ih =>
    intro fs lc hlc
    have ih1 := ih (fun v hv => h v (List.mem_cons_of_mem _ hv))
    obtain ⟨hp, hn⟩ := h vm (List.mem_cons_self _ _)
    have hok := cacheVirtualMachine_ok fs vm hp hn
    unfold cacheListedVMs
    cases hp1 : vm.VirtualMachineProperties with
    | none => exact absurd hp1 hp
    | some p =>
      simp only
      rcases hc : cacheVirtualMachine fs vm with ⟨fs1, r⟩
      rw [hc] at hok
      simp only at hok
      subst hok
      simp only
      apply ih1
      cases p.OsProfile with
      | none => exact hlc
      | some os =>
        cases hcn : os.ComputerName with
        | none => simp only [hcn]; exact hlc
        | some cn => simp only [hcn]; exact hlc.after_StoreVM _ hp

theorem mergeInstanceViews_ok (fs : FlexScaleSet) (views : List VirtualMachine)
    (h : ∀ vm ∈ views, vm.VirtualMachineProperties ≠ none) :
    ∀ lc : SyncMap VirtualMachine, AllVMsHaveProperties lc →
      ∃ lc1, mergeInstanceViews fs views lc = .ok lc1 := by
  induction views with
  | nil => intro lc _; exact ⟨lc, rfl⟩
  | cons vm rest ih =>
    intro lc hlc
    have ih1 := ih (fun v hv => h v (List.mem_cons_of_mem _ hv))
    unfold mergeInstanceViews
    cases vm.Name with
    | none => exact ih1 lc hlc
    | some name =>
      simp only
      cases fs.vmssFlexVMNameToNodeName.Load name with
      | none => exact ih1 lc hlc
      | some nodeName =>
        simp only
        cases hl : lc.Load nodeName with
        | none => exact ih1 lc hlc
        | some cachedVM =>
          simp only
          have hcp := hlc _ (SyncMap.mem_of_Load hl)
          have hvp := h vm (List.mem_cons_self _ _)
          cases hc : cachedVM.VirtualMachineProperties with
          | none => exact absurd hc hcp
          | some cp =>
            cases hv : vm.VirtualMachineProperties with
            | none => exact absurd hv hvp
            | some p =>
              simp only
              apply ih1
              exact hlc.after_StoreVM _ (by simp)

theorem vmssFlexVMCacheGetter_ok {w : Cloud} (hw : w.Healthy) (fs : FlexScaleSet) (key : String) :
    ∃ fs1 data, vmssFlexVMCacheGetter w fs key = (fs1, .ok data) := by
  unfold vmssFlexVMCacheGetter
  obtain ⟨vms, hl, hvms⟩ := hw.vms key
  obtain ⟨views, hv, hviews⟩ := hw.views key
  obtain ⟨fs2, lc, hc, hlc⟩ := cacheListedVMs_ok vms hvms
    (fs.record (.ListVmssFlexVMsWithoutInstanceView key)) SyncMap.empty
    (fun e he => by simp [SyncMap.empty] at he)
  obtain ⟨lc1, hm⟩ := mergeInstanceViews_ok
    (fs2.record (.ListVmssFlexVMsWithOnlyInstanceView key)) views hviews lc hlc
  simp only [hl, hc, hv, hm]
  exact ⟨_, _, rfl⟩

theorem vmssFlexVMCacheGet_ForceRefresh_ok {w : Cloud} (hw : w.Healthy) (fs : FlexScaleSet)
    (key : String) :
    ∃ d, (vmssFlexVMCacheGet w fs key .CacheReadTypeForceRefresh).2 = .ok d := by
  obtain ⟨fs1, data, hg⟩ := vmssFlexVMCacheGetter_ok hw fs key
  have h := TimedCache.Get_ForceRefresh_ok fs.vmssFlexVMCache fs.DisableAPICallCache fs.now
    (vmssFlexVMCacheGetter w) fs fs1 key data hg
  unfold vmssFlexVMCacheGet
  rcases hget : fs.vmssFlexVMCache.Get fs.DisableAPICallCache fs.now
      (vmssFlexVMCacheGetter w) fs key .CacheReadTypeForceRefresh with ⟨fs2, t, r⟩
  rw [hget] at h
  exact ⟨some data, h⟩

end Provider

namespace Provider

/-! ## C4: the resolution after a deletion -/

theorem probeVmssFlexIDs_notFound {w : Cloud} {nodeName : String} (hw : w.Healthy)
    (hlist : ListsOnly w (fun vm => vm.nodeName ≠ some nodeName)) (ids : List String) :
    ∀ fs : FlexScaleSet,
      (fs.vmssFlexNodeNameToVMName.Load nodeName = none ∧
        fs.vmssFlexNodeNameToVmssID.Load nodeName = none) →
      (probeVmssFlexIDs w nodeName ids fs).2 = .err .InstanceNotFound := by
  induction ids with
  | nil => intro fs _; rfl
  | cons vmssID rest ih =>
    intro fs h
    unfold probeVmssFlexIDs
    have h1 := (Preserved.absent w nodeName).after_vmssFlexVMCacheGet hlist fs vmssID
      .CacheReadTypeForceRefresh h
    obtain ⟨d, hd⟩ := vmssFlexVMCacheGet_ForceRefresh_ok hw fs vmssID
    rcases hc : vmssFlexVMCacheGet w fs vmssID .CacheReadTypeForceRefresh with ⟨fs1, r⟩
    rw [hc] at h1 hd
    simp only at hd
    subst hd
    simp only [h1.2]
    exact ih fs1 h1

theorem getter_notFound {w : Cloud} {nodeName : String} (hw : w.Healthy)
    (hlist : ListsOnly w (fun vm => vm.nodeName ≠ some nodeName))
    (hlen : 6 ≤ (utf8Bytes nodeName).length) (fs : FlexScaleSet)
    (h : fs.vmssFlexNodeNameToVMName.Load nodeName = none ∧
        fs.vmssFlexNodeNameToVmssID.Load nodeName = none)
    (hI : fs.ScaleSetsHaveProperties) (crt : AzureCacheReadType)
    (hcrt : crt = .CacheReadTypeDefault ∨ crt = .CacheReadTypeForceRefresh) :
    (getNodeVmssFlexID.getter w fs nodeName crt).2 = .err .InstanceNotFound := by
  unfold getNodeVmssFlexID.getter
  have h1 := (Preserved.absent w nodeName).after_vmssFlexCacheGet fs w.VmssFlexKey crt h
  obtain ⟨coll, hc, hprops⟩ := vmssFlexCacheGet_ok hw fs hI w.VmssFlexKey crt hcrt
  rcases hget : vmssFlexCacheGet w fs w.VmssFlexKey crt with ⟨fs1, r⟩
  rw [hget] at h1 hc
  simp only at hc
  subst hc
  obtain ⟨ids, hids⟩ := candidateVmssFlexIDs_ok nodeName hlen coll.Range hprops []
  simp only [hids]
  exact probeVmssFlexIDs_notFound hw hlist ids fs1 h1

theorem getNodeVmssFlexID_notFound {w : Cloud} {nodeName : String} (hw : w.Healthy)
    (hlist : ListsOnly w (fun vm => vm.nodeName ≠ some nodeName))
    (hlen : 6 ≤ (utf8Bytes nodeName).length) (fs : FlexScaleSet)
    (h : fs.vmssFlexNodeNameToVMName.Load nodeName = none ∧
        fs.vmssFlexNodeNameToVmssID.Load nodeName = none)
    (hI : fs.ScaleSetsHaveProperties) :
    (getNodeVmssFlexID w fs nodeName).2 = .err .InstanceNotFound := by
  have hlist2 : ListsOnly w (fun vm => vm.nodeName ≠ some nodeName ∧ True) :=
    fun key vms hl vm hvm => ⟨hlist key vms hl vm hvm, trivial⟩
  unfold getNodeVmssFlexID
  have h0 : (fs.record (.LockEntry w.GetNodeVmssFlexIDLockKey)).vmssFlexNodeNameToVMName.Load
        nodeName = none ∧
      (fs.record (.LockEntry w.GetNodeVmssFlexIDLockKey)).vmssFlexNodeNameToVmssID.Load
        nodeName = none := h
  have hI0 : (fs.record (.LockEntry w.GetNodeVmssFlexIDLockKey)).ScaleSetsHaveProperties := hI
  simp only [h0.2]
  have h1 := ((Preserved.absent w nodeName).and (Preserved.scaleSetsHaveProperties w)).after_getter
    hlist2 _ nodeName .CacheReadTypeDefault ⟨h0, hI0⟩
  have h2 := getter_notFound hw hlist hlen _ h0 hI0 .CacheReadTypeDefault (Or.inl rfl)
  rcases hc : getNodeVmssFlexID.getter w (fs.record (.LockEntry w.GetNodeVmssFlexIDLockKey))
    nodeName .CacheReadTypeDefault with ⟨fs1, r⟩
  rw [hc] at h1 h2
  simp only at h2
  subst h2
  simp only [GoError.isInstanceNotFound, if_true]
  exact getter_notFound hw hlist hlen fs1 h1.1 h1.2 .CacheReadTypeForceRefresh (Or.inr rfl)

theorem getVmssFlexVM_notFound {w : Cloud} {nodeName : String} (hw : w.Healthy)
    (hlist : ListsOnly w (fun vm => vm.nodeName ≠ some nodeName))
    (hlen : 6 ≤ (utf8Bytes nodeName).length) (fs : FlexScaleSet) (crt : AzureCacheReadType)
    (h : fs.vmssFlexNodeNameToVMName.Load nodeName = none ∧
        fs.vmssFlexNodeNameToVmssID.Load nodeName = none)
    (hI : fs.ScaleSetsHaveProperties) :
    (getVmssFlexVM w fs nodeName crt).2 = .err .InstanceNotFound := by
  have h1 := getNodeVmssFlexID_notFound hw hlist hlen fs h hI
  unfold getVmssFlexVM
  simp only [h.1]
  rcases hc : getNodeVmssFlexID w fs nodeName with ⟨fs1, r⟩
  rw [hc] at h1
  simp only at h1
  subst h1
  rfl

theorem DeleteCacheForNode_scaleSetsHaveProperties (w : Cloud) (fs fs2 : FlexScaleSet)
    (nodeName : String) (hflag : fs.DisableAPICallCache = false)
    (hdel : DeleteCacheForNode w fs nodeName = (fs2, .ok ()))
    (hI : fs.ScaleSetsHaveProperties) : fs2.ScaleSetsHaveProperties := by
  obtain ⟨id, hres⟩ := getNodeVmssFlexID_of_DeleteCacheForNode_ok w fs fs2 nodeName hflag hdel
  have h1 := (Preserved.scaleSetsHaveProperties w).after_getNodeVmssFlexID (listsOnly_true w)
    fs nodeName hI
  have h2 := DeleteCacheForNode_eq w fs _ nodeName id hflag hres
  rw [hdel] at h2
  simp only [Prod.mk.injEq, and_true] at h2
  intro key coll hc
  apply h1 key coll
  rw [h2] at hc
  have e : ∀ s : FlexScaleSet,
      ((deleteNodeFromIndices s nodeName).record (.UnlockEntry id)).vmssFlexCache
        = s.vmssFlexCache := fun s => (deleteNodeFromIndices_frame s nodeName).2.1
  rw [e] at hc
  cases hcv : (getNodeVmssFlexID w fs nodeName).1.vmssFlexVMCache.cached id with
  | none => rw [hcv] at hc; exact hc
  | some vmMap => rw [hcv] at hc; exact hc

/-- After a successful deletion with caching enabled the node is a key of neither node-name
keyed index. -/
theorem DeleteCacheForNode_absent (w : Cloud) (fs fs2 : FlexScaleSet) (nodeName : String)
    (hflag : fs.DisableAPICallCache = false)
    (hdel : DeleteCacheForNode w fs nodeName = (fs2, .ok ())) :
    fs2.vmssFlexNodeNameToVMName.Load nodeName = none ∧
    fs2.vmssFlexNodeNameToVmssID.Load nodeName = none := by
  obtain ⟨id, hres⟩ := getNodeVmssFlexID_of_DeleteCacheForNode_ok w fs fs2 nodeName hflag hdel
  obtain ⟨-, h1, h2, -⟩ := DeleteCacheForNode_indices w fs _ nodeName id hflag hres
  rw [hdel] at h1 h2
  simp only at h1 h2
  exact ⟨by rw [h1]; simp, by rw [h2]; simp⟩

/-- C4, counterexample: in the warm state of the tests `DeleteCacheForNode("vmssflex1000001")`
succeeds; the remote side still lists the VM, so the resolution that follows force-refreshes
the VM collection, indexes the node again and returns its descriptor, under `Unsafe` as under
`Default`. -/
theorem getVmssFlexVM_after_delete_finds_listed_vm :
    (DeleteCacheForNode testCloud warmFlexScaleSet "vmssflex1000001").2 = .ok () ∧
    (getVmssFlexVM testCloud (DeleteCacheForNode testCloud warmFlexScaleSet "vmssflex1000001").1
      "vmssflex1000001" .CacheReadTypeUnsafe).2 = .ok testVM1WithInstanceView ∧
    (getVmssFlexVM testCloud (DeleteCacheForNode testCloud warmFlexScaleSet "vmssflex1000001").1
      "vmssflex1000001" .CacheReadTypeDefault).2 = .ok testVM1WithInstanceView := by
  decide

/-- C4, as amended: after a successful `DeleteCacheForNode(N)` with API-call caching enabled,
when no VM listing of the remote side contains a VM with the computer name of `N` any more,
`getVmssFlexVM(N, policy)` returns no descriptor, under every read policy; and it yields
`cloudprovider.InstanceNotFound` when moreover the remote side answers every listing with
well-formed descriptors, the cached scale sets have their properties and `N` has at least six
bytes. -/
theorem getVmssFlexVM_after_DeleteCacheForNode (w : Cloud) (fs fs2 : FlexScaleSet)
    (nodeName : String) (crt : AzureCacheReadType) (hflag : fs.DisableAPICallCache = false)
    (hdel : DeleteCacheForNode w fs nodeName = (fs2, .ok ()))
    (hlist : ListsOnly w (fun vm => vm.nodeName ≠ some nodeName)) :
    (∀ vm, (getVmssFlexVM w fs2 nodeName crt).2 ≠ .ok vm) ∧
    (w.Healthy → fs.ScaleSetsHaveProperties → 6 ≤ (utf8Bytes nodeName).length →
      (getVmssFlexVM w fs2 nodeName crt).2 = .err .InstanceNotFound) := by
  have habs := DeleteCacheForNode_absent w fs fs2 nodeName hflag hdel
  constructor
  · exact getVmssFlexVM_absent hlist fs2 crt habs
  · intro hw hI hlen
    exact getVmssFlexVM_notFound hw hlist hlen fs2 crt habs
      (DeleteCacheForNode_scaleSetsHaveProperties w fs fs2 nodeName hflag hdel hI)

theorem shrunkCloud_listsOnly :
    ListsOnly shrunkCloud (fun vm => vm.nodeName ≠ some "vmssflex1000001") := by
  intro key vms h vm hvm
  have e : vms = [testVM2, testVM3] := by
    have : shrunkCloud.ListVmssFlexVMsWithoutInstanceView key = .ok [testVM2, testVM3] := rfl
    rw [this] at h
    exact (Except.ok.inj h).symm
  subst e
  simp only [List.mem_cons, List.mem_singleton, List.not_mem_nil, or_false] at hvm
  rcases hvm with rfl | rfl <;> decide

theorem shrunkCloud_healthy : shrunkCloud.Healthy where
  groups := ⟨["rg"], rfl⟩
  scaleSets := fun _ => Or.inr ⟨[testVmssFlex1], rfl, by
    intro ss hss
    simp only [List.mem_singleton] at hss
    subst hss
    decide⟩
  vms := fun _ => ⟨[testVM2, testVM3], rfl, by
    intro vm hvm
    simp only [List.mem_cons, List.mem_singleton, List.not_mem_nil, or_false] at hvm
    rcases hvm with rfl | rfl <;> decide⟩
  views := fun _ => ⟨_, rfl, by
    intro vm hvm
    simp only [List.mem_cons, List.mem_singleton, List.not_mem_nil, or_false] at hvm
    rcases hvm with rfl | rfl <;> decide⟩

/-- C4, witness: the warm state of the tests and a remote side that no longer lists the VM of
the deleted node. -/
theorem getVmssFlexVM_after_DeleteCacheForNode_witness :
    warmFlexScaleSet.DisableAPICallCache = false ∧
    (DeleteCacheForNode shrunkCloud warmFlexScaleSet "vmssflex1000001").2 = .ok () ∧
    (getVmssFlexVM shrunkCloud
      (DeleteCacheForNode shrunkCloud warmFlexScaleSet "vmssflex1000001").1
      "vmssflex1000001" .CacheReadTypeUnsafe).2 = .err .InstanceNotFound :=
  ⟨by decide, by decide,
    (getVmssFlexVM_after_DeleteCacheForNode shrunkCloud warmFlexScaleSet
      (DeleteCacheForNode shrunkCloud warmFlexScaleSet "vmssflex1000001").1
      "vmssflex1000001" .CacheReadTypeUnsafe (by decide) (by decide) shrunkCloud_listsOnly).2
      shrunkCloud_healthy
      ((Preserved.scaleSetsHaveProperties testCloud).after_getVmssFlexVM emptyFlexScaleSet
        "vmssflex1000001" .CacheReadTypeDefault
        (fun key coll h => by simp [emptyFlexScaleSet, TimedCache.cached, SyncMap.empty,
          SyncMap.Load, SyncMap.lookupKey] at h))
      (by decide)⟩

end Provider

namespace Provider

/-! ## C11: what getNodeVmssFlexID returns -/

theorem probeVmssFlexIDs_of_probesWithoutFinding (w : Cloud) (nodeName : String)
    (ids : List String) :
    ∀ fs : FlexScaleSet, probesWithoutFinding w nodeName ids fs = true →
      (probeVmssFlexIDs w nodeName ids fs).2 = .err .InstanceNotFound := by
  induction ids with
  | nil => intro fs _; rfl
  | cons vmssID rest ih =>
    intro fs h
    unfold probesWithoutFinding at h
    unfold probeVmssFlexIDs
    rcases hc : vmssFlexVMCacheGet w fs vmssID .CacheReadTypeForceRefresh with ⟨fs1, r⟩
    rw [hc] at h
    cases r with
    | err e => simp at h
    | panic m => simp at h
    | ok d =>
      simp only [Bool.and_eq_true, Option.isNone_iff_eq_none] at h
      simp only [h.1]
      exact ih fs1 h.2

/-- A pass that finds nothing ends with not-found. -/
theorem getter_of_passFindsNothing (w : Cloud) (fs : FlexScaleSet) (nodeName : String)
    (crt : AzureCacheReadType) (h : passFindsNothing w fs nodeName crt = true) :
    (getNodeVmssFlexID.getter w fs nodeName crt).2 = .err .InstanceNotFound := by
  unfold passFindsNothing at h
  unfold getNodeVmssFlexID.getter
  rcases hc : vmssFlexCacheGet w fs w.VmssFlexKey crt with ⟨fs1, r⟩
  rw [hc] at h
  cases r with
  | err e => simp at h
  | panic m => simp at h
  | ok d =>
    cases d with
    | none => simp at h
    | some coll =>
      simp only at h ⊢
      cases hcand : candidateVmssFlexIDs nodeName coll.Range [] with
      | err e => simp [hcand] at h
      | panic m => simp [hcand] at h
      | ok ids =>
        simp only [hcand] at h
        exact probeVmssFlexIDs_of_probesWithoutFinding w nodeName ids fs1 h

/-- Probing returns an identifier only from the index. -/
theorem probeVmssFlexIDs_ok (w : Cloud) (nodeName : String) (ids : List String) :
    ∀ (fs : FlexScaleSet) (id : String), (probeVmssFlexIDs w nodeName ids fs).2 = .ok id →
      (probeVmssFlexIDs w nodeName ids fs).1.vmssFlexNodeNameToVmssID.Load nodeName = some id := by
  induction ids with
  | nil => intro fs id h; simp [probeVmssFlexIDs] at h
  | cons vmssID rest ih =>
    intro fs id h
    unfold probeVmssFlexIDs at h ⊢
    rcases hc : vmssFlexVMCacheGet w fs vmssID .CacheReadTypeForceRefresh with ⟨fs1, r⟩
    rw [hc] at h
    cases r with
    | err e => simp at h
    | panic m => simp at h
    | ok d =>
      simp only at h ⊢
      cases hl : fs1.vmssFlexNodeNameToVmssID.Load nodeName with
      | some c =>
        simp only [hl, Outcome.ok.injEq] at h
        simp only [hl]
        rw [← h]
      | none =>
        simp only [hl] at h ⊢
        exact ih fs1 id h

theorem getter_ok (w : Cloud) (fs : FlexScaleSet) (nodeName : String)
    (crt : AzureCacheReadType) (id : String)
    (h : (getNodeVmssFlexID.getter w fs nodeName crt).2 = .ok id) :
    (getNodeVmssFlexID.getter w fs nodeName crt).1.vmssFlexNodeNameToVmssID.Load nodeName
      = some id := by
  unfold getNodeVmssFlexID.getter at h ⊢
  rcases hc : vmssFlexCacheGet w fs w.VmssFlexKey crt with ⟨fs1, r⟩
  rw [hc] at h
  cases r with
  | err e => simp at h
  | panic m => simp at h
  | ok d =>
    cases d with
    | none => simp at h
    | some coll =>
      simp only at h ⊢
      cases hcand : candidateVmssFlexIDs nodeName coll.Range [] with
      | err e => simp [hcand] at h
      | panic m => simp [hcand] at h
      | ok ids =>
        simp only [hcand] at h ⊢
        exact probeVmssFlexIDs_ok w nodeName ids fs1 id h

/-- C11: for a node `N` that is not in the node-name to scale-set-id index, when each lookup
pass of the call reads the scale-set collection without error, builds its candidate list and
force-refreshes the VM collection of every candidate without error while `N` stays absent from
the index (an empty collection included), `getNodeVmssFlexID(N)` ends with the error
`cloudprovider.InstanceNotFound` (the outcome `err` stands for the empty id with the error);
and whenever `getNodeVmssFlexID(N)` returns an id without error, that id is the value the
index holds for `N` when the call returns. -/
theorem getNodeVmssFlexID_result (w : Cloud) (fs : FlexScaleSet) (nodeName : String) :
    (fs.vmssFlexNodeNameToVmssID.Load nodeName = none →
      passFindsNothing w (fs.record (.LockEntry w.GetNodeVmssFlexIDLockKey)) nodeName
        .CacheReadTypeDefault = true →
      passFindsNothing w
        (getNodeVmssFlexID.getter w (fs.record (.LockEntry w.GetNodeVmssFlexIDLockKey)) nodeName
          .CacheReadTypeDefault).1 nodeName .CacheReadTypeForceRefresh = true →
      (getNodeVmssFlexID w fs nodeName).2 = .err .InstanceNotFound) ∧
    (∀ id, (getNodeVmssFlexID w fs nodeName).2 = .ok id →
      (getNodeVmssFlexID w fs nodeName).1.vmssFlexNodeNameToVmssID.Load nodeName = some id) := by
  constructor
  · intro hidx h1 h2
    have hidx0 : (fs.record (.LockEntry w.GetNodeVmssFlexIDLockKey)).vmssFlexNodeNameToVmssID.Load
        nodeName = none := hidx
    have e1 := getter_of_passFindsNothing w _ nodeName _ h1
    have e2 := getter_of_passFindsNothing w _ nodeName _ h2
    unfold getNodeVmssFlexID
    simp only [hidx0]
    rcases hc : getNodeVmssFlexID.getter w (fs.record (.LockEntry w.GetNodeVmssFlexIDLockKey))
      nodeName .CacheReadTypeDefault with ⟨fs1, r⟩
    rw [hc] at e1 e2
    simp only at e1 e2
    subst e1
    simp only [GoError.isInstanceNotFound, if_true]
    exact e2
  · intro id h
    unfold getNodeVmssFlexID at h ⊢
    simp only at h ⊢
    show (_ : FlexScaleSet).vmssFlexNodeNameToVmssID.Load nodeName = some id
    cases hl : (fs.record (.LockEntry w.GetNodeVmssFlexIDLockKey)).vmssFlexNodeNameToVmssID.Load
        nodeName with
    | some c =>
      simp only [hl, Outcome.ok.injEq] at h ⊢
      rw [← h]; exact hl
    | none =>
      simp only [hl] at h ⊢
      have g1 := getter_ok w (fs.record (.LockEntry w.GetNodeVmssFlexIDLockKey)) nodeName
        .CacheReadTypeDefault
      rcases hc : getNodeVmssFlexID.getter w (fs.record (.LockEntry w.GetNodeVmssFlexIDLockKey))
        nodeName .CacheReadTypeDefault with ⟨fs1, r⟩
      rw [hc] at h g1
      cases r with
      | ok id1 =>
        simp only [Outcome.ok.injEq] at h
        exact g1 id (by rw [h])
      | panic m => simp at h
      | err e =>
        simp only at h ⊢
        by_cases he : e.isInstanceNotFound = true
        · simp only [he, if_true] at h ⊢
          exact getter_ok w fs1 nodeName .CacheReadTypeForceRefresh id h
        · simp [he] at h

/-- C11, witness: the node "vmssflex1000009", which `testCloud` does not list, resolved in the
fresh state. -/
theorem getNodeVmssFlexID_result_witness :
    emptyFlexScaleSet.vmssFlexNodeNameToVmssID.Load "vmssflex1000009" = none ∧
    (getNodeVmssFlexID testCloud emptyFlexScaleSet "vmssflex1000009").2
      = .err .InstanceNotFound :=
  ⟨rfl, (getNodeVmssFlexID_result testCloud emptyFlexScaleSet "vmssflex1000009").1 rfl
    (by decide) (by decide)⟩

end Provider

namespace Provider

/-! ## C12: one retry at most -/

/-- The slow path of `getNodeVmssFlexID` is the retry over its lookup pass, under the lock. -/
theorem getNodeVmssFlexID_eq_retry (w : Cloud) (fs : FlexScaleSet) (nodeName : String)
    (h : fs.vmssFlexNodeNameToVmssID.Load nodeName = none) :
    getNodeVmssFlexID w fs nodeName =
      ((retryOnNotFound (fun s crt => getNodeVmssFlexID.getter w s nodeName crt)
          (fs.record (.LockEntry w.GetNodeVmssFlexIDLockKey))).1.record
        (.UnlockEntry w.GetNodeVmssFlexIDLockKey),
       (retryOnNotFound (fun s crt => getNodeVmssFlexID.getter w s nodeName crt)
          (fs.record (.LockEntry w.GetNodeVmssFlexIDLockKey))).2) := by
  have h0 : (fs.record (.LockEntry w.GetNodeVmssFlexIDLockKey)).vmssFlexNodeNameToVmssID.Load
      nodeName = none := h
  unfold getNodeVmssFlexID retryOnNotFound
  simp only [h0]
  rcases getNodeVmssFlexID.getter w (fs.record (.LockEntry w.GetNodeVmssFlexIDLockKey))
    nodeName .CacheReadTypeDefault with ⟨fs1, r⟩
  cases r <;> rfl

/-- The slow path of `getNodeNameByVMName` is the retry over its lookup pass, under the
lock. -/
theorem getNodeNameByVMName_eq_retry (w : Cloud) (fs : FlexScaleSet) (vmName : String)
    (h : fs.vmssFlexVMNameToNodeName.Load vmName = none) :
    getNodeNameByVMName w fs vmName =
      ((retryOnNotFound (fun s crt => getNodeNameByVMName.getter w s vmName crt)
          (fs.record (.LockEntry w.GetNodeVmssFlexIDLockKey))).1.record
        (.UnlockEntry w.GetNodeVmssFlexIDLockKey),
       (retryOnNotFound (fun s crt => getNodeNameByVMName.getter w s vmName crt)
          (fs.record (.LockEntry w.GetNodeVmssFlexIDLockKey))).2) := by
  have h0 : (fs.record (.LockEntry w.GetNodeVmssFlexIDLockKey)).vmssFlexVMNameToNodeName.Load
      vmName = none := h
  unfold getNodeNameByVMName retryOnNotFound
  simp only [h0]
  rcases getNodeNameByVMName.getter w (fs.record (.LockEntry w.GetNodeVmssFlexIDLockKey))
    vmName .CacheReadTypeDefault with ⟨fs1, r⟩
  cases r <;> rfl

/-- The passes that the retry runs, read off the log of a logging pass. -/
theorem retryOnNotFound_log {σ α : Type} (pass : σ → AzureCacheReadType → σ × Outcome α)
    (s : σ) :
    ((retryOnNotFound (loggedPass pass) (s, [])).1.1,
      (retryOnNotFound (loggedPass pass) (s, [])).2) = retryOnNotFound pass s ∧
    ((retryOnNotFound (loggedPass pass) (s, [])).1.2 = [.CacheReadTypeDefault] ∨
      (retryOnNotFound (loggedPass pass) (s, [])).1.2
        = [.CacheReadTypeDefault, .CacheReadTypeForceRefresh]) ∧
    ((retryOnNotFound (loggedPass pass) (s, [])).1.2
        = [.CacheReadTypeDefault, .CacheReadTypeForceRefresh] ↔
      ∃ e, (pass s .CacheReadTypeDefault).2 = .err e ∧ e.isInstanceNotFound = true) ∧
    (∀ e, (pass s .CacheReadTypeDefault).2 = .err e → e.isInstanceNotFound = false →
      retryOnNotFound pass s = ((pass s .CacheReadTypeDefault).1, .err e)) := by
  unfold retryOnNotFound loggedPass
  rcases hp : pass s .CacheReadTypeDefault with ⟨s1, r⟩
  cases r with
  | ok v => simp
  | panic m => simp
  | err e =>
    cases he : e.isInstanceNotFound with
    | true => simp [he]
    | false => simp [he]

/-- C12: a single lookup retries at most once. With the node (or VM name) not yet indexed, one
call of `getNodeVmssFlexID`, and likewise of `getNodeNameByVMName`, is the retry
`retryOnNotFound` over its lookup pass, between `LockEntry` and `UnlockEntry`; and for every
pass, the log of the passes that the retry runs is the default policy alone or the default
policy followed by `ForceRefresh`, the second pass runs exactly when the first one ended with
an error that is not-found, and an error of the first pass that is not not-found is returned
unchanged, in the state the first pass left. -/
theorem lookup_retries_at_most_once (w : Cloud) (fs : FlexScaleSet) (nodeName vmName : String) :
    (fs.vmssFlexNodeNameToVmssID.Load nodeName = none →
      getNodeVmssFlexID w fs nodeName =
        ((retryOnNotFound (fun s crt => getNodeVmssFlexID.getter w s nodeName crt)
            (fs.record (.LockEntry w.GetNodeVmssFlexIDLockKey))).1.record
          (.UnlockEntry w.GetNodeVmssFlexIDLockKey),
         (retryOnNotFound (fun s crt => getNodeVmssFlexID.getter w s nodeName crt)
            (fs.record (.LockEntry w.GetNodeVmssFlexIDLockKey))).2)) ∧
    (fs.vmssFlexVMNameToNodeName.Load vmName = none →
      getNodeNameByVMName w fs vmName =
        ((retryOnNotFound (fun s crt => getNodeNameByVMName.getter w s vmName crt)
            (fs.record (.LockEntry w.GetNodeVmssFlexIDLockKey))).1.record
          (.UnlockEntry w.GetNodeVmssFlexIDLockKey),
         (retryOnNotFound (fun s crt => getNodeNameByVMName.getter w s vmName crt)
            (fs.record (.LockEntry w.GetNodeVmssFlexIDLockKey))).2)) ∧
    (∀ (σ α : Type) (pass : σ → AzureCacheReadType → σ × Outcome α) (s : σ),
      ((retryOnNotFound (loggedPass pass) (s, [])).1.1,
        (retryOnNotFound (loggedPass pass) (s, [])).2) = retryOnNotFound pass s ∧
      ((retryOnNotFound (loggedPass pass) (s, [])).1.2 = [.CacheReadTypeDefault] ∨
        (retryOnNotFound (loggedPass pass) (s, [])).1.2
          = [.CacheReadTypeDefault, .CacheReadTypeForceRefresh]) ∧
      ((retryOnNotFound (loggedPass pass) (s, [])).1.2
          = [.CacheReadTypeDefault, .CacheReadTypeForceRefresh] ↔
        ∃ e, (pass s .CacheReadTypeDefault).2 = .err e ∧ e.isInstanceNotFound = true) ∧
      (∀ e, (pass s .CacheReadTypeDefault).2 = .err e → e.isInstanceNotFound = false →
        retryOnNotFound pass s = ((pass s .CacheReadTypeDefault).1, .err e))) :=
  ⟨getNodeVmssFlexID_eq_retry w fs nodeName, getNodeNameByVMName_eq_retry w fs vmName,
    fun _ _ pass s => retryOnNotFound_log pass s⟩

/-- C12, witness: resolving the unlisted node "vmssflex1000009" against `testCloud` runs the
pass under the default policy and once more under `ForceRefresh`. -/
theorem lookup_retries_at_most_once_witness :
    (retryOnNotFound
      (loggedPass (fun s crt => getNodeVmssFlexID.getter testCloud s "vmssflex1000009" crt))
      (emptyFlexScaleSet.record (.LockEntry testCloud.GetNodeVmssFlexIDLockKey), [])).1.2
      = [.CacheReadTypeDefault, .CacheReadTypeForceRefresh] :=
  ((lookup_retries_at_most_once testCloud emptyFlexScaleSet "vmssflex1000009" "testvm1").2.2
    FlexScaleSet String
    (fun s crt => getNodeVmssFlexID.getter testCloud s "vmssflex1000009" crt)
    (emptyFlexScaleSet.record (.LockEntry testCloud.GetNodeVmssFlexIDLockKey))).2.2.1.2
    ⟨.InstanceNotFound, by decide, rfl⟩

end Provider

namespace Provider

/-! ## ASCII strings: the bytes and the comparison of the code against the claims' words -/

/-- An ASCII character is encoded by one byte, its code. -/
theorem utf8EncodeChar_ascii (c : Char) (h : c.toNat < 128) :
    (String.utf8EncodeChar c).map UInt8.toNat = [c.toNat] := by
  have hv : c.val ≤ 0x7f := by
    show c.val.toNat ≤ 127
    have : c.val.toNat = c.toNat := rfl
    omega
  unfold String.utf8EncodeChar
  simp only [hv, if_true, List.map_cons, List.map_nil, List.cons.injEq, and_true]
  show c.val.toNat % 256 = c.toNat
  have : c.val.toNat = c.toNat := rfl
  omega

/-- The bytes of an ASCII string are the codes of its characters. -/
theorem utf8Bytes_ascii (s : String) (h : asciiOnly s = true) :
    utf8Bytes s = s.data.map Char.toNat := by
  obtain ⟨data⟩ := s
  simp only [asciiOnly, List.all_eq_true, decide_eq_true_eq] at h
  simp only [utf8Bytes]
  induction data with
  | nil => rfl
  | cons c rest ih =>
    simp only [List.flatMap_cons, List.map_cons]
    rw [utf8EncodeChar_ascii c (h c (List.mem_cons_self _ _)),
      ih (fun x hx => h x (List.mem_cons_of_mem _ hx))]
    rfl

/-- On the code of an ASCII character the byte fold of the code is `Char.toLower`. -/
theorem foldByte_ascii (c : Char) : foldByte c.toNat = c.toLower.toNat := by
  by_cases h : c.toNat ≥ 65 ∧ c.toNat ≤ 90
  · have hv : ∃ n : Nat, n < 26 ∧ c = Char.ofNat (65 + n) := by
      refine ⟨c.toNat - 65, ?_, ?_⟩
      · omega
      · rw [Nat.add_sub_cancel' h.1]
        exact (Char.ofNat_toNat c).symm
    obtain ⟨n, hn, rfl⟩ := hv
    interval_cases n <;> decide
  · have h1 : c.toLower = c := by
      unfold Char.toLower
      simp only [h, if_false]
    have h2 : ¬ (65 ≤ c.toNat ∧ c.toNat ≤ 90) := h
    rw [h1]
    simp only [foldByte, h2, if_false]

theorem toNat_injective : Function.Injective Char.toNat := by
  intro a b h
  rw [← Char.ofNat_toNat a, ← Char.ofNat_toNat b, h]

/-- On ASCII strings the comparison of the code, `strings.EqualFold` on the bytes, is equality
of the lower-case forms. -/
theorem EqualFold_ascii (a b : String) (ha : asciiOnly a = true) (hb : asciiOnly b = true) :
    EqualFold (utf8Bytes a) (utf8Bytes b) = equalIgnoringCase a b := by
  have hmap : ∀ s : String, asciiOnly s = true →
      (utf8Bytes s).map foldByte = (ToLower s).data.map Char.toNat := by
    intro s hs
    rw [utf8Bytes_ascii s hs]
    simp only [ToLower, List.map_map]
    apply List.map_congr_left
    intro c _
    exact foldByte_ascii c
  have hiff : EqualFold (utf8Bytes a) (utf8Bytes b) = true ↔ ToLower a = ToLower b := by
    unfold EqualFold
    rw [beq_iff_eq, hmap a ha, hmap b hb]
    constructor
    · intro h
      have hd := List.map_injective_iff.mpr toNat_injective h
      exact String.ext hd
    · intro h
      rw [h]
  unfold equalIgnoringCase
  cases hE : EqualFold (utf8Bytes a) (utf8Bytes b) with
  | true => exact (decide_eq_true (hiff.mp hE)).symm
  | false =>
    symm
    apply decide_eq_false
    intro h
    rw [hiff.mpr h] at hE
    cases hE

end Provider

namespace Provider

/-! ## C13: the ranking of the candidates -/

theorem SyncMap.NodupKeys.eraseKey {α : Type} (l : List (String × α)) (k : String)
    (h : (l.map Prod.fst).Nodup) : ((SyncMap.eraseKey k l).map Prod.fst).Nodup := by
  induction l with
  | nil => simp [SyncMap.eraseKey]
  | cons e rest ih =>
    obtain ⟨a, b⟩ := e
    simp only [List.map_cons, List.nodup_cons] at h
    by_cases hak : a = k
    · simp only [SyncMap.eraseKey, hak, if_true]; exact ih h.2
    · simp only [SyncMap.eraseKey, hak, if_false, List.map_cons, List.nodup_cons]
      refine ⟨?_, ih h.2⟩
      intro hmem
      apply h.1
      simp only [List.mem_map] at hmem ⊢
      obtain ⟨x, hx, hxa⟩ := hmem
      exact ⟨x, ((SyncMap.mem_eraseKey _ _ _).1 hx).1, hxa⟩

theorem SyncMap.NodupKeys.empty {α : Type} : (SyncMap.empty : SyncMap α).NodupKeys := by
  simp [SyncMap.NodupKeys, SyncMap.empty]

/-- Storing keeps the keys distinct. -/
theorem SyncMap.NodupKeys.after_store {α : Type} {m : SyncMap α} (h : m.NodupKeys) (k : String)
    (v : α) : (m.Store k v).NodupKeys := by
  simp only [SyncMap.NodupKeys, SyncMap.Store, List.map_cons, List.nodup_cons]
  refine ⟨?_, SyncMap.NodupKeys.eraseKey _ k h⟩
  intro hmem
  simp only [List.mem_map] at hmem
  obtain ⟨x, hx, hxa⟩ := hmem
  exact ((SyncMap.mem_eraseKey _ _ _).1 hx).2 hxa

/-- Deleting keeps the keys distinct. -/
theorem SyncMap.NodupKeys.after_delete {α : Type} {m : SyncMap α} (h : m.NodupKeys) (k : String) :
    (m.Delete k).NodupKeys :=
  SyncMap.NodupKeys.eraseKey _ k h

theorem SyncMap.Load_of_mem {α : Type} {m : SyncMap α} (h : m.NodupKeys) {k : String} {v : α}
    (hmem : (k, v) ∈ m.entries) : m.Load k = some v := by
  obtain ⟨l⟩ := m
  simp only [SyncMap.NodupKeys, SyncMap.Load] at *
  induction l with
  | nil => simp at hmem
  | cons e rest ih =>
    obtain ⟨a, b⟩ := e
    simp only [List.map_cons, List.nodup_cons] at h
    simp only [List.mem_cons, Prod.mk.injEq] at hmem
    rcases hmem with ⟨h1, h2⟩ | hmem
    · simp [SyncMap.lookupKey, h1, h2]
    · have hak : a ≠ k := by
        intro e
        apply h.1
        rw [e]
        exact List.mem_map.2 ⟨(k, v), hmem, rfl⟩
      simp only [SyncMap.lookupKey, hak, if_false]
      exact ih h.2 hmem

/-- The candidate list in closed form: the matching identifiers in reverse visiting order, the
identifiers carried in, and the other identifiers in visiting order. -/
theorem candidateVmssFlexIDs_eq (nodeName : String) (hlen : 6 ≤ (utf8Bytes nodeName).length)
    (entries : List (String × VirtualMachineScaleSet))
    (h : ∀ e ∈ entries, e.2.VirtualMachineScaleSetProperties ≠ none) :
    ∀ acc : List String,
      candidateVmssFlexIDs nodeName entries acc =
        .ok (((entries.filter (fun e => matchesNodeName nodeName e.2)).map Prod.fst).reverse
          ++ acc ++ (entries.filter (fun e => !matchesNodeName nodeName e.2)).map Prod.fst) := by
  induction entries with
  | nil => intro acc; simp [candidateVmssFlexIDs]
  | cons e rest ih =>
    intro acc
    obtain ⟨id, ss⟩ := e
    have ih1 := ih (fun x hx => h x (List.mem_cons_of_mem _ hx))
    unfold candidateVmssFlexIDs
    cases hp : ss.VirtualMachineScaleSetProperties with
    | none => exact absurd hp (h (id, ss) (List.mem_cons_self _ _))
    | some p =>
      have hl : ¬ (utf8Bytes nodeName).length < 6 := by omega
      have hm : matchesNodeName nodeName ss
          = EqualFold (utf8Bytes (vmssNameToMatch ss p))
              ((utf8Bytes nodeName).take ((utf8Bytes nodeName).length - 6)) := by
        simp [matchesNodeName, hp]
      simp only [hl, if_false]
      rw [← hm]
      cases hmm : matchesNodeName nodeName ss with
      | true =>
        simp only [if_true, ih1, List.filter_cons, hmm, List.map_cons, List.reverse_cons,
          Bool.not_true, Bool.false_eq_true, if_false, Outcome.ok.injEq]
        simp
      | false =>
        simp only [Bool.false_eq_true, if_false, ih1, List.filter_cons, hmm, Bool.not_false,
          if_true, List.map_cons, Outcome.ok.injEq]
        simp

/-- The name the code matches a scale set by is the name the claim ranks it by. -/
theorem vmssNameToMatch_eq_rankingName (vmssFlex : VirtualMachineScaleSet)
    (p : VirtualMachineScaleSetProperties)
    (hp : vmssFlex.VirtualMachineScaleSetProperties = some p) :
    vmssNameToMatch vmssFlex p = vmssFlex.rankingName := by
  unfold vmssNameToMatch VirtualMachineScaleSet.rankingName
    VirtualMachineScaleSet.computerNamePrefix
  rw [hp]
  simp only [Option.bind]
  cases h1 : p.VirtualMachineProfile with
  | none => rfl
  | some vmProfile =>
    simp only []
    cases h2 : vmProfile.OsProfile with
    | none => rfl
    | some os =>
      simp only []
      cases h3 : os.ComputerNamePrefix with
      | none => rfl
      | some computerNamePrefix => rfl

/-- The test of the `Range` callback on a scale set with its properties is the comparison of
its ranking name. -/
theorem matchesNodeName_eq_matchesRankingName (nodeName : String)
    (vmssFlex : VirtualMachineScaleSet)
    (hp : vmssFlex.VirtualMachineScaleSetProperties ≠ none) :
    matchesNodeName nodeName vmssFlex = matchesRankingName nodeName vmssFlex := by
  cases hprops : vmssFlex.VirtualMachineScaleSetProperties with
  | none => exact absurd hprops hp
  | some p =>
    unfold matchesNodeName matchesRankingName
    simp only [hprops]
    rw [vmssNameToMatch_eq_rankingName vmssFlex p hprops]

/-- The bytes of an ASCII node name without the last six are the bytes of the node name
without its last six characters. -/
theorem take_utf8Bytes_ascii (nodeName : String) (h : asciiOnly nodeName = true) :
    (utf8Bytes nodeName).take ((utf8Bytes nodeName).length - 6)
      = utf8Bytes (withoutLastSix nodeName) ∧
    asciiOnly (withoutLastSix nodeName) = true := by
  have hall : asciiOnly (withoutLastSix nodeName) = true := by
    simp only [asciiOnly, withoutLastSix, List.all_eq_true, decide_eq_true_eq] at h ⊢
    intro c hc
    exact h c (List.mem_of_mem_take hc)
  refine ⟨?_, hall⟩
  rw [utf8Bytes_ascii nodeName h, utf8Bytes_ascii _ hall]
  simp only [withoutLastSix, List.length_map, List.map_take]

/-- On ASCII strings the comparison of the code says what the claim says: the ranking name
equals, ignoring case, the node name without its last six characters. -/
theorem matchesRankingName_ascii (nodeName : String) (vmssFlex : VirtualMachineScaleSet)
    (hnode : asciiOnly nodeName = true) (hname : asciiOnly vmssFlex.rankingName = true) :
    matchesRankingName nodeName vmssFlex = rankedFirst nodeName vmssFlex := by
  obtain ⟨h1, h2⟩ := take_utf8Bytes_ascii nodeName hnode
  unfold matchesRankingName rankedFirst
  rw [h1]
  exact EqualFold_ascii _ _ hname h2

/-- C13: for a scale-set collection (its keys distinct, its scale sets with their properties,
as every refreshed collection is) and a node name of at least six bytes, the candidate list
that `getNodeVmssFlexID` builds is a list `front ++ back` in which every scale set of `front`
has a computer-name-prefix (or a name, when it has no computer-name-prefix) that equals the
node name without its last six bytes under `strings.EqualFold`, no scale set of `back` has, and
which contains every identifier of the collection exactly once. For a node name and a
computer-name-prefix (or name) of ASCII characters, that comparison is equality, ignoring
case, with the node name without its last six characters. -/
theorem candidateVmssFlexIDs_ranked (nodeName : String) (coll : SyncMap VirtualMachineScaleSet)
    (hlen : 6 ≤ (utf8Bytes nodeName).length) (hprops : AllHaveProperties coll)
    (hkeys : coll.NodupKeys) :
    (∃ front back, candidateVmssFlexIDs nodeName coll.Range [] = .ok (front ++ back) ∧
      (∀ id ∈ front, ∃ vmssFlex, coll.Load id = some vmssFlex ∧
        matchesRankingName nodeName vmssFlex = true) ∧
      (∀ id ∈ back, ∃ vmssFlex, coll.Load id = some vmssFlex ∧
        matchesRankingName nodeName vmssFlex = false) ∧
      (front ++ back).Perm (coll.Range.map Prod.fst) ∧ (front ++ back).Nodup) ∧
    (asciiOnly nodeName = true → ∀ vmssFlex : VirtualMachineScaleSet,
      asciiOnly vmssFlex.rankingName = true →
      matchesRankingName nodeName vmssFlex = rankedFirst nodeName vmssFlex) := by
  refine ⟨?_, fun hnode vmssFlex hname => matchesRankingName_ascii nodeName vmssFlex hnode hname⟩
  refine ⟨((coll.Range.filter (fun e => matchesNodeName nodeName e.2)).map Prod.fst).reverse,
    (coll.Range.filter (fun e => !matchesNodeName nodeName e.2)).map Prod.fst, ?_, ?_, ?_, ?_⟩
  · rw [candidateVmssFlexIDs_eq nodeName hlen coll.Range hprops []]
    simp
  · intro id hid
    simp only [List.mem_reverse, List.mem_map, List.mem_filter] at hid
    obtain ⟨⟨k, ss⟩, ⟨hmem, hm⟩, hk⟩ := hid
    simp only at hk hm
    subst hk
    refine ⟨ss, SyncMap.Load_of_mem hkeys hmem, ?_⟩
    rw [← matchesNodeName_eq_matchesRankingName nodeName ss (hprops (k, ss) hmem)]
    exact hm
  · intro id hid
    simp only [List.mem_map, List.mem_filter] at hid
    obtain ⟨⟨k, ss⟩, ⟨hmem, hm⟩, hk⟩ := hid
    simp only at hk hm
    subst hk
    refine ⟨ss, SyncMap.Load_of_mem hkeys hmem, ?_⟩
    rw [← matchesNodeName_eq_matchesRankingName nodeName ss (hprops (k, ss) hmem)]
    simpa using hm
  · have hperm : (((coll.Range.filter (fun e => matchesNodeName nodeName e.2)).map
          Prod.fst).reverse ++
        (coll.Range.filter (fun e => !matchesNodeName nodeName e.2)).map Prod.fst).Perm
        (coll.Range.map Prod.fst) := by
      have h1 := List.filter_append_perm (fun e : String × VirtualMachineScaleSet =>
        matchesNodeName nodeName e.2) coll.Range
      have h2 := (h1.map Prod.fst)
      rw [List.map_append] at h2
      refine List.Perm.trans ?_ h2
      exact List.Perm.append_right _ (List.reverse_perm _)
    exact ⟨hperm, (hperm.nodup_iff).2 hkeys⟩

/-- The scale sets of `rankingScaleSets` have their properties and distinct keys. -/
theorem rankingScaleSets_invariants :
    AllHaveProperties rankingScaleSets ∧ rankingScaleSets.NodupKeys :=
  ⟨AllHaveProperties.after_Store
    (AllHaveProperties.after_Store
      (AllHaveProperties.after_Store (fun e he => by simp [SyncMap.empty] at he)
        unprofiledVmssFlexID (by decide)) pooledVmssFlexID (by decide)) testVmssFlex1ID
    (by decide),
  SyncMap.NodupKeys.after_store
    (SyncMap.NodupKeys.after_store
      (SyncMap.NodupKeys.after_store SyncMap.NodupKeys.empty unprofiledVmssFlexID
        unprofiledVmssFlex) pooledVmssFlexID pooledVmssFlex) testVmssFlex1ID testVmssFlex1⟩

/-- C13, witness: `Range` visits `rankingScaleSets` in the order "vmssflex1", "vmssflex3",
"VmssFlex4". The scale set "vmssflex3" has the computer-name-prefix "Pool3": it comes first for
the node "pool3000001", by its prefix and ignoring case, and does not for the node
"vmssflex3000001", which only its name would match. The scale set "VmssFlex4" has no
computer-name-prefix: it comes first for the node "vmssflex4000001", by its name and ignoring
case. -/
theorem candidateVmssFlexIDs_ranked_witness :
    6 ≤ (utf8Bytes "pool3000001").length ∧
    rankingScaleSets.Range.map Prod.fst
      = [testVmssFlex1ID, pooledVmssFlexID, unprofiledVmssFlexID] ∧
    candidateVmssFlexIDs "pool3000001" rankingScaleSets.Range []
      = .ok [pooledVmssFlexID, testVmssFlex1ID, unprofiledVmssFlexID] ∧
    candidateVmssFlexIDs "vmssflex3000001" rankingScaleSets.Range []
      = .ok [testVmssFlex1ID, pooledVmssFlexID, unprofiledVmssFlexID] ∧
    candidateVmssFlexIDs "vmssflex4000001" rankingScaleSets.Range []
      = .ok [unprofiledVmssFlexID, testVmssFlex1ID, pooledVmssFlexID] ∧
    pooledVmssFlex.rankingName = "Pool3" ∧ withoutLastSix "pool3000001" = "pool3" ∧
    matchesRankingName "pool3000001" pooledVmssFlex = true ∧
    rankedFirst "pool3000001" pooledVmssFlex = true ∧
    rankedFirst "vmssflex3000001" pooledVmssFlex = false ∧
    rankedFirst "vmssflex4000001" unprofiledVmssFlex = true ∧
    rankedFirst "pool3000001" testVmssFlex1 = false :=
  have h := candidateVmssFlexIDs_ranked "pool3000001" rankingScaleSets (by decide)
    rankingScaleSets_invariants.1 rankingScaleSets_invariants.2
  ⟨by decide, by decide, h.1.elim (fun _ _ => by decide), by decide, by decide, by decide,
    by decide, by decide,
    (h.2 (by decide) pooledVmssFlex (by decide)).symm.trans (by decide),
    by decide, by decide, by decide⟩

end Provider

namespace Provider

/-! ## C14: getVmssFlexByVmssFlexID refreshes on a miss only -/

theorem listScaleSetsOfGroups_refreshes (w : Cloud) (groups : List String) :
    ∀ (fs : FlexScaleSet) (lc : SyncMap VirtualMachineScaleSet),
      (listScaleSetsOfGroups w groups fs lc).1.refreshes = fs.refreshes := by
  induction groups with
  | nil => intro fs lc; rfl
  | cons rg rest ih =>
    intro fs lc
    have hrec : (fs.record (.ListScaleSets rg)).refreshes = fs.refreshes := by
      simp [FlexScaleSet.refreshes, FlexScaleSet.record, List.count_append]
    unfold listScaleSetsOfGroups
    cases w.ListScaleSets rg with
    | error rerr =>
      by_cases hnf : rerr.IsNotFound
      · simp only [hnf, if_true]; rw [ih]; exact hrec
      · simp only [hnf]; exact hrec
    | ok all =>
      simp only
      cases cacheScaleSets lc all with
      | ok lc1 => simp only; rw [ih]; exact hrec
      | err e => exact hrec
      | panic m => exact hrec

/-- Each run of the getter of `newVmssFlexCache` is one refresh. -/
theorem vmssFlexCacheGetter_refreshes (w : Cloud) (fs : FlexScaleSet) (key : String) :
    (vmssFlexCacheGetter w fs key).1.refreshes = fs.refreshes + 1 := by
  have hrec : (fs.record .GetResourceGroups).refreshes = fs.refreshes + 1 := by
    simp [FlexScaleSet.refreshes, FlexScaleSet.record, List.count_append]
  unfold vmssFlexCacheGetter
  cases w.GetResourceGroups with
  | ok groups => simp only; rw [listScaleSetsOfGroups_refreshes]; exact hrec
  | err e => exact hrec
  | panic m => exact hrec

theorem TimedCache.Get_ForceRefresh_fst {σ α : Type} (t : TimedCache α) (disabled : Bool)
    (now : Nat) (getter : σ → String → σ × Outcome α) (s : σ) (key : String) :
    (t.Get disabled now getter s key .CacheReadTypeForceRefresh).1 = (getter s key).1 := by
  unfold TimedCache.Get
  rcases getter s key with ⟨s1, r⟩
  cases r <;> cases disabled <;> simp

/-- A read of the scale-set collection under `ForceRefresh` is exactly one refresh. -/
theorem vmssFlexCacheGet_ForceRefresh_refreshes (w : Cloud) (fs : FlexScaleSet) (key : String) :
    (vmssFlexCacheGet w fs key .CacheReadTypeForceRefresh).1.refreshes = fs.refreshes + 1 := by
  have h := TimedCache.Get_ForceRefresh_fst fs.vmssFlexCache fs.DisableAPICallCache fs.now
    (vmssFlexCacheGetter w) fs key
  unfold vmssFlexCacheGet
  rcases hget : fs.vmssFlexCache.Get fs.DisableAPICallCache fs.now (vmssFlexCacheGetter w) fs key
    .CacheReadTypeForceRefresh with ⟨fs1, t, r⟩
  rw [hget] at h
  simp only at h
  subst h
  exact vmssFlexCacheGetter_refreshes w fs key

/-- C14: `getVmssFlexByVmssFlexID` forces a refresh on a miss and only on a miss. An error of
the first read is returned as is. If the collection read under the caller's policy contains the
id, that scale set is returned in the state the first read left, so without a further refresh.
If it does not, the state returned is that of one more read under `ForceRefresh`, which is
exactly one refresh more; an error of that read is returned as is, the scale set is returned if
the refreshed collection contains the id, and the result is
`cloudprovider.InstanceNotFound` otherwise. -/
theorem getVmssFlexByVmssFlexID_refresh_on_miss (w : Cloud) (fs : FlexScaleSet)
    (vmssFlexID : String) (crt : AzureCacheReadType) :
    (∀ e, (vmssFlexCacheGet w fs w.VmssFlexKey crt).2 = .err e →
      getVmssFlexByVmssFlexID w fs vmssFlexID crt
        = ((vmssFlexCacheGet w fs w.VmssFlexKey crt).1, .err e)) ∧
    (∀ coll vmssFlex, (vmssFlexCacheGet w fs w.VmssFlexKey crt).2 = .ok (some coll) →
      coll.Load vmssFlexID = some vmssFlex →
      getVmssFlexByVmssFlexID w fs vmssFlexID crt
        = ((vmssFlexCacheGet w fs w.VmssFlexKey crt).1, .ok vmssFlex)) ∧
    (∀ coll, (vmssFlexCacheGet w fs w.VmssFlexKey crt).2 = .ok (some coll) →
      coll.Load vmssFlexID = none →
      (getVmssFlexByVmssFlexID w fs vmssFlexID crt).1
        = (vmssFlexCacheGet w (vmssFlexCacheGet w fs w.VmssFlexKey crt).1 w.VmssFlexKey
            .CacheReadTypeForceRefresh).1 ∧
      (getVmssFlexByVmssFlexID w fs vmssFlexID crt).1.refreshes
        = (vmssFlexCacheGet w fs w.VmssFlexKey crt).1.refreshes + 1 ∧
      (∀ e, (vmssFlexCacheGet w (vmssFlexCacheGet w fs w.VmssFlexKey crt).1 w.VmssFlexKey
            .CacheReadTypeForceRefresh).2 = .err e →
        (getVmssFlexByVmssFlexID w fs vmssFlexID crt).2 = .err e) ∧
      (∀ refreshed vmssFlex,
        (vmssFlexCacheGet w (vmssFlexCacheGet w fs w.VmssFlexKey crt).1 w.VmssFlexKey
            .CacheReadTypeForceRefresh).2 = .ok (some refreshed) →
        refreshed.Load vmssFlexID = some vmssFlex →
        (getVmssFlexByVmssFlexID w fs vmssFlexID crt).2 = .ok vmssFlex) ∧
      (∀ refreshed,
        (vmssFlexCacheGet w (vmssFlexCacheGet w fs w.VmssFlexKey crt).1 w.VmssFlexKey
            .CacheReadTypeForceRefresh).2 = .ok (some refreshed) →
        refreshed.Load vmssFlexID = none →
        (getVmssFlexByVmssFlexID w fs vmssFlexID crt).2 = .err .InstanceNotFound)) := by
  unfold getVmssFlexByVmssFlexID
  rcases h1 : vmssFlexCacheGet w fs w.VmssFlexKey crt with ⟨fs1, r1⟩
  refine ⟨?_, ?_, ?_⟩
  · intro e he
    simp only at he
    subst he
    rfl
  · intro coll ss he hl
    simp only at he
    subst he
    simp only [hl]
  · intro coll he hl
    simp only at he
    subst he
    simp only [hl]
    have hcount := vmssFlexCacheGet_ForceRefresh_refreshes w fs1 w.VmssFlexKey
    rcases h2 : vmssFlexCacheGet w fs1 w.VmssFlexKey .CacheReadTypeForceRefresh with ⟨fs2, r2⟩
    rw [h2] at hcount
    simp only at hcount
    cases r2 with
    | err e =>
      refine ⟨rfl, hcount, ?_, ?_, ?_⟩
      · intro e1 he1; simp only [Outcome.err.injEq] at he1; rw [he1]
      · intro c2 ss he1; simp at he1
      · intro c2 he1; simp at he1
    | panic m =>
      refine ⟨rfl, hcount, ?_, ?_, ?_⟩
      · intro e1 he1; simp at he1
      · intro c2 ss he1; simp at he1
      · intro c2 he1; simp at he1
    | ok d =>
      cases d with
      | none =>
        refine ⟨rfl, hcount, ?_, ?_, ?_⟩
        · intro e1 he1; simp at he1
        · intro c2 ss he1; simp at he1
        · intro c2 he1; simp at he1
      | some c2 =>
        cases hl2 : c2.Load vmssFlexID with
        | some ss2 =>
          simp only [hl2]
          refine ⟨trivial, hcount, ?_, ?_, ?_⟩
          · intro e1 he1; simp at he1
          · intro c3 ss he1 hl3
            simp only [Outcome.ok.injEq, Option.some.injEq] at he1
            subst he1
            rw [hl2] at hl3
            simp only [Option.some.injEq] at hl3
            rw [hl3]
          · intro c3 he1 hl3
            simp only [Outcome.ok.injEq, Option.some.injEq] at he1
            subst he1
            rw [hl2] at hl3
            cases hl3
        | none =>
          simp only [hl2]
          refine ⟨trivial, hcount, ?_, ?_, ?_⟩
          · intro e1 he1; simp at he1
          · intro c3 ss he1 hl3
            simp only [Outcome.ok.injEq, Option.some.injEq] at he1
            subst he1
            rw [hl2] at hl3
            cases hl3
          · intro c3 he1 hl3
            trivial

/-- C14, witness: the cached collection of `staleScaleSets` is empty while `testCloud` lists the
scale set; the lookup misses, refreshes once and returns the scale set. -/
theorem getVmssFlexByVmssFlexID_refresh_on_miss_witness :
    (vmssFlexCacheGet testCloud staleScaleSets testCloud.VmssFlexKey .CacheReadTypeDefault).2
      = .ok (some SyncMap.empty) ∧
    (getVmssFlexByVmssFlexID testCloud staleScaleSets testVmssFlex1ID .CacheReadTypeDefault).2
      = .ok testVmssFlex1 ∧
    (getVmssFlexByVmssFlexID testCloud staleScaleSets testVmssFlex1ID
      .CacheReadTypeDefault).1.refreshes
      = (vmssFlexCacheGet testCloud staleScaleSets testCloud.VmssFlexKey
          .CacheReadTypeDefault).1.refreshes + 1 :=
  have h := (getVmssFlexByVmssFlexID_refresh_on_miss testCloud staleScaleSets testVmssFlex1ID
    .CacheReadTypeDefault).2.2 SyncMap.empty (by decide) (by decide)
  ⟨by decide,
    h.2.2.2.1 ((SyncMap.empty : SyncMap VirtualMachineScaleSet).Store testVmssFlex1ID
      testVmssFlex1) testVmssFlex1 (by decide) (by decide),
    h.2.1⟩

end Provider

namespace Provider

/-! ## C15: the name lookups do not refresh on a miss -/

/-- A read under the default policy of a cached collection younger than the TTL returns it and
leaves the state as it is. -/
theorem vmssFlexCacheGet_Default_fresh (w : Cloud) (fs : FlexScaleSet) (key : String)
    (coll : SyncMap VirtualMachineScaleSet) (lastUpdate : Nat)
    (hflag : fs.DisableAPICallCache = false)
    (hc : fs.vmssFlexCache.Store.Load key = some ⟨some coll, lastUpdate⟩)
    (hfresh : fs.now - lastUpdate < fs.vmssFlexCache.TTL) :
    vmssFlexCacheGet w fs key .CacheReadTypeDefault = (fs, .ok (some coll)) := by
  unfold vmssFlexCacheGet TimedCache.Get
  simp only [hflag, hc, hfresh, Bool.false_eq_true, if_false, if_true]
  congr 1
  cases fs
  simp only at hflag
  subst hflag
  rfl

/-- C15: the name lookups do not refresh on a miss. The cached collection of `staleScaleSets`
is empty and still fresh, and a forced refresh against `testCloud` would return a collection
that contains the scale set "vmssflex1". `getVmssFlexIDByName` and `getVmssFlexByName` report
not-found for the name "vmssflex1" without refreshing (the state is unchanged), whereas the
lookup by identifier, `getVmssFlexByVmssFlexID`, on the same state and under the same policy
refreshes on its miss and finds the scale set. -/
theorem name_lookups_do_not_refresh :
    ((vmssFlexCacheGet testCloud staleScaleSets testCloud.VmssFlexKey
        .CacheReadTypeForceRefresh).2
      = .ok (some ((SyncMap.empty : SyncMap VirtualMachineScaleSet).Store testVmssFlex1ID
          testVmssFlex1))) ∧
    getVmssFlexIDByName testCloud staleScaleSets "vmssflex1"
      = (staleScaleSets, .err .InstanceNotFound) ∧
    getVmssFlexByName testCloud staleScaleSets "vmssflex1"
      = (staleScaleSets, .err .InstanceNotFound) ∧
    (getVmssFlexByVmssFlexID testCloud staleScaleSets testVmssFlex1ID .CacheReadTypeDefault).2
      = .ok testVmssFlex1 := by
  decide

/-- The name lookups `getVmssFlexIDByName` and `getVmssFlexByName` read the scale-set
collection once, under the default policy: when a collection is cached and younger than the
TTL (caching enabled), they answer from the cached collection and leave the state as it is, so
without any remote call; they report not-found when no key of the cached collection matches
the name, whatever a refreshed listing would contain. -/
theorem name_lookups_answer_from_cache (w : Cloud) (fs : FlexScaleSet) (vmssFlexName : String)
    (coll : SyncMap VirtualMachineScaleSet) (lastUpdate : Nat)
    (hflag : fs.DisableAPICallCache = false)
    (hc : fs.vmssFlexCache.Store.Load w.VmssFlexKey = some ⟨some coll, lastUpdate⟩)
    (hfresh : fs.now - lastUpdate < fs.vmssFlexCache.TTL) :
    getVmssFlexIDByName w fs vmssFlexName
      = (fs, if findVmssFlexIDByName vmssFlexName coll.Range ≠ "" then
          .ok (findVmssFlexIDByName vmssFlexName coll.Range) else .err .InstanceNotFound) ∧
    getVmssFlexByName w fs vmssFlexName
      = (fs, match findVmssFlexByName vmssFlexName coll.Range with
          | some vmssFlex => .ok vmssFlex
          | none => .err .InstanceNotFound) ∧
    ((∀ e ∈ coll.Range, segmentMatches vmssFlexName e.1 = false) →
      (getVmssFlexIDByName w fs vmssFlexName).2 = .err .InstanceNotFound ∧
      (getVmssFlexByName w fs vmssFlexName).2 = .err .InstanceNotFound) := by
  have hread := vmssFlexCacheGet_Default_fresh w fs w.VmssFlexKey coll lastUpdate hflag hc hfresh
  have h1 : getVmssFlexIDByName w fs vmssFlexName
      = (fs, if findVmssFlexIDByName vmssFlexName coll.Range ≠ "" then
          .ok (findVmssFlexIDByName vmssFlexName coll.Range) else .err .InstanceNotFound) := by
    unfold getVmssFlexIDByName
    simp only [hread]
    split <;> rfl
  have h2 : getVmssFlexByName w fs vmssFlexName
      = (fs, match findVmssFlexByName vmssFlexName coll.Range with
          | some vmssFlex => .ok vmssFlex
          | none => .err .InstanceNotFound) := by
    unfold getVmssFlexByName
    simp only [hread]
    cases findVmssFlexByName vmssFlexName coll.Range <;> rfl
  refine ⟨h1, h2, ?_⟩
  intro hnone
  have f1 : ∀ entries : List (String × VirtualMachineScaleSet),
      (∀ e ∈ entries, segmentMatches vmssFlexName e.1 = false) →
      findVmssFlexIDByName vmssFlexName entries = "" ∧
      findVmssFlexByName vmssFlexName entries = none := by
    intro entries
    induction entries with
    | nil => intro _; exact ⟨rfl, rfl⟩
    | cons e rest ih =>
      intro hall
      obtain ⟨id, ss⟩ := e
      have hrest := ih (fun x hx => hall x (List.mem_cons_of_mem _ hx))
      have he := hall (id, ss) (List.mem_cons_self _ _)
      simp only [segmentMatches] at he
      unfold findVmssFlexIDByName findVmssFlexByName
      cases hseg : getLastSegment id '/' with
      | none => exact hrest
      | some seg =>
        simp only [hseg] at he
        simp only [he, Bool.false_eq_true, if_false]
        exact hrest
  obtain ⟨g1, g2⟩ := f1 coll.Range hnone
  rw [h1, h2, g1, g2]
  simp

/-- The empty, fresh collection of `staleScaleSets`, looked up by name against `testCloud`. -/
theorem name_lookups_answer_from_cache_witness :
    staleScaleSets.DisableAPICallCache = false ∧
    getVmssFlexIDByName testCloud staleScaleSets "vmssflex1"
      = (staleScaleSets, .err .InstanceNotFound) :=
  ⟨by decide,
    (name_lookups_answer_from_cache testCloud staleScaleSets "vmssflex1" SyncMap.empty 0
      (by decide) (by decide) (by decide)).1⟩

end Provider

namespace Provider

/-! ## C16: what the name lookup returns -/

/-- A non-empty string has at least one byte. -/
theorem utf8Bytes_ne_nil (s : String) (hs : s ≠ "") : utf8Bytes s ≠ [] := by
  obtain ⟨data⟩ := s
  cases data with
  | nil => exact absurd rfl hs
  | cons c cs =>
    intro h
    have hlen := congrArg List.length h
    simp only [utf8Bytes, List.flatMap_cons, List.length_append, List.length_map,
      String.length_utf8EncodeChar, List.length_nil] at hlen
    have := Char.utf8Size_pos c
    omega

/-- For a non-empty name, an identifier matches when its trailing segment is the name, ignoring
case: the empty trailing segment that `getLastSegment` rejects matches no such name. -/
theorem segmentMatches_of_ne_empty (vmssFlexName vmssFlexID : String) (hname : vmssFlexName ≠ "") :
    segmentMatches vmssFlexName vmssFlexID
      = EqualFold (utf8Bytes (trailingSegment vmssFlexID '/')) (utf8Bytes vmssFlexName) := by
  unfold segmentMatches getLastSegment
  by_cases h : trailingSegment vmssFlexID '/' = ""
  · simp only [h, if_true]
    have hb := utf8Bytes_ne_nil vmssFlexName hname
    cases hbytes : utf8Bytes vmssFlexName with
    | nil => exact absurd hbytes hb
    | cons b bs => rfl
  · simp only [h, if_false]

/-- The identifier the `Range` callback of `getVmssFlexIDByName` leaves: "" when no key matches
the name, and otherwise a key that matches it. -/
theorem findVmssFlexIDByName_spec (vmssFlexName : String) :
    ∀ entries : List (String × VirtualMachineScaleSet),
      (findVmssFlexIDByName vmssFlexName entries = "" ∧
        ∀ e ∈ entries, segmentMatches vmssFlexName e.1 = false) ∨
      (findVmssFlexIDByName vmssFlexName entries ≠ "" ∧
        findVmssFlexIDByName vmssFlexName entries ∈ entries.map Prod.fst ∧
        segmentMatches vmssFlexName (findVmssFlexIDByName vmssFlexName entries) = true) := by
  intro entries
  induction entries with
  | nil => exact Or.inl ⟨rfl, fun e he => absurd he (List.not_mem_nil e)⟩
  | cons e rest ih =>
    obtain ⟨id, ss⟩ := e
    have hmatch : segmentMatches vmssFlexName id = true → id ≠ "" := by
      intro hm hid
      subst hid
      have hnone : getLastSegment "" '/' = none := by decide
      exact absurd hm (by simp [segmentMatches, hnone])
    unfold findVmssFlexIDByName
    cases hseg : getLastSegment id '/' with
    | none =>
      have hid : segmentMatches vmssFlexName id = false := by
        simp only [segmentMatches, hseg]
      simp only
      rcases ih with ⟨h1, h2⟩ | ⟨h1, h2, h3⟩
      · refine Or.inl ⟨h1, ?_⟩
        intro e he
        rcases List.mem_cons.mp he with rfl | he
        · exact hid
        · exact h2 e he
      · exact Or.inr ⟨h1, List.mem_cons_of_mem _ h2, h3⟩
    | some seg =>
      simp only
      by_cases hfold : EqualFold (utf8Bytes seg) (utf8Bytes vmssFlexName) = true
      · have hid : segmentMatches vmssFlexName id = true := by
          simp only [segmentMatches, hseg, hfold]
        simp only [hfold, if_true]
        exact Or.inr ⟨hmatch hid, List.mem_cons_self _ _, hid⟩
      · have hid : segmentMatches vmssFlexName id = false := by
          simp only [segmentMatches, hseg]
          exact Bool.eq_false_iff.mpr hfold
        simp only [hfold, if_false]
        rcases ih with ⟨h1, h2⟩ | ⟨h1, h2, h3⟩
        · refine Or.inl ⟨h1, ?_⟩
          intro e he
          rcases List.mem_cons.mp he with rfl | he
          · exact hid
          · exact h2 e he
        · exact Or.inr ⟨h1, List.mem_cons_of_mem _ h2, h3⟩

/-- The trailing segment of an ASCII identifier is ASCII. -/
theorem asciiOnly_trailingSegment (ID : String) (separator : Char)
    (h : asciiOnly ID = true) : asciiOnly (trailingSegment ID separator) = true := by
  simp only [asciiOnly, trailingSegment, List.all_eq_true, decide_eq_true_eq] at h ⊢
  intro c hc
  exact h c (List.mem_reverse.mp ((List.takeWhile_prefix _).subset (List.mem_reverse.mp hc)))

/-- On ASCII strings the test of the `Range` callback says what the claim says: the trailing
segment of the identifier is not empty and equals the name ignoring case. -/
theorem segmentMatches_ascii (vmssFlexName vmssFlexID : String)
    (hname : asciiOnly vmssFlexName = true) (hid : asciiOnly vmssFlexID = true) :
    segmentMatches vmssFlexName vmssFlexID
      = (decide (trailingSegment vmssFlexID '/' ≠ "") &&
          equalIgnoringCase (trailingSegment vmssFlexID '/') vmssFlexName) := by
  unfold segmentMatches getLastSegment
  by_cases h : trailingSegment vmssFlexID '/' = ""
  · simp only [h, if_true, ne_eq, not_true_eq_false, decide_False, Bool.false_and]
  · simp only [h, if_false, ne_eq, not_false_eq_true, decide_True, Bool.true_and]
    exact EqualFold_ascii _ _ (asciiOnly_trailingSegment vmssFlexID '/' hid) hname

/-- C16: for every scale-set collection (the one the read of `getVmssFlexIDByName` returns) and
every name, `getVmssFlexIDByName` returns an identifier without error only if it is a key of
the collection whose trailing "/"-separated segment (as `getLastSegment` returns it) is the
name ignoring case, and it returns `cloudprovider.InstanceNotFound` exactly when no key of the
collection has such a trailing segment. For a non-empty name the segment `getLastSegment`
returns is the plain trailing segment of the identifier, compared under `strings.EqualFold`;
for a name and an identifier of ASCII characters that comparison is equality of the
lower-cased strings, so the match is: the trailing segment is not empty and equals the name
ignoring case. -/
theorem getVmssFlexIDByName_matches (w : Cloud) (fs : FlexScaleSet) (vmssFlexName : String)
    (coll : SyncMap VirtualMachineScaleSet)
    (hread : (vmssFlexCacheGet w fs w.VmssFlexKey .CacheReadTypeDefault).2 = .ok (some coll)) :
    (∀ vmssFlexID, (getVmssFlexIDByName w fs vmssFlexName).2 = .ok vmssFlexID →
      vmssFlexID ∈ coll.Range.map Prod.fst ∧ segmentMatches vmssFlexName vmssFlexID = true) ∧
    ((getVmssFlexIDByName w fs vmssFlexName).2 = .err .InstanceNotFound ↔
      ∀ vmssFlexID ∈ coll.Range.map Prod.fst, segmentMatches vmssFlexName vmssFlexID = false) ∧
    (vmssFlexName ≠ "" → ∀ vmssFlexID, segmentMatches vmssFlexName vmssFlexID
      = EqualFold (utf8Bytes (trailingSegment vmssFlexID '/')) (utf8Bytes vmssFlexName)) ∧
    (asciiOnly vmssFlexName = true → ∀ vmssFlexID, asciiOnly vmssFlexID = true →
      (segmentMatches vmssFlexName vmssFlexID = true ↔
        trailingSegment vmssFlexID '/' ≠ "" ∧
        ToLower (trailingSegment vmssFlexID '/') = ToLower vmssFlexName)) := by
  have hres : (getVmssFlexIDByName w fs vmssFlexName).2
      = if findVmssFlexIDByName vmssFlexName coll.Range ≠ "" then
          .ok (findVmssFlexIDByName vmssFlexName coll.Range) else .err .InstanceNotFound := by
    unfold getVmssFlexIDByName
    rcases hg : vmssFlexCacheGet w fs w.VmssFlexKey .CacheReadTypeDefault with ⟨fs1, r⟩
    rw [hg] at hread
    simp only at hread
    subst hread
    simp only
    split <;> rfl
  refine ⟨?_, ?_, fun hname vmssFlexID => segmentMatches_of_ne_empty vmssFlexName vmssFlexID hname,
    ?_⟩
  · intro vmssFlexID hok
    rw [hres] at hok
    rcases findVmssFlexIDByName_spec vmssFlexName coll.Range with ⟨h1, _⟩ | ⟨h1, h2, h3⟩
    · simp [h1] at hok
    · simp only [h1, ne_eq, not_false_eq_true, if_true, Outcome.ok.injEq] at hok
      subst hok
      exact ⟨h2, h3⟩
  · rw [hres]
    rcases findVmssFlexIDByName_spec vmssFlexName coll.Range with ⟨h1, h2⟩ | ⟨h1, h2, h3⟩
    · simp only [h1, ne_eq, not_true_eq_false, if_false, true_iff]
      intro vmssFlexID hmem
      obtain ⟨e, he, rfl⟩ := List.mem_map.mp hmem
      exact h2 e he
    · simp only [h1, ne_eq, not_false_eq_true, if_true]
      constructor
      · intro h; cases h
      · intro hall
        have := hall _ h2
        rw [h3] at this
        cases this
  · intro hname vmssFlexID hid
    rw [segmentMatches_ascii vmssFlexName vmssFlexID hname hid]
    simp only [equalIgnoringCase, Bool.and_eq_true, decide_eq_true_eq]

/-- C16, witness: the name "vmssflex1" against the identifier of `testVmssFlex1`, which ends in
"/virtualMachineScaleSets/vmssflex1"; the names "VMSSFLEX1" and "VmssFlex1", which differ from
that segment in case only, find the same identifier, and "vmssflex2" finds none. -/
theorem getVmssFlexIDByName_matches_witness :
    (vmssFlexCacheGet testCloud emptyFlexScaleSet testCloud.VmssFlexKey .CacheReadTypeDefault).2
      = .ok (some ((SyncMap.empty : SyncMap VirtualMachineScaleSet).Store testVmssFlex1ID
          testVmssFlex1)) ∧
    (getVmssFlexIDByName testCloud emptyFlexScaleSet "vmssflex1").2 = .ok testVmssFlex1ID ∧
    segmentMatches "vmssflex1" testVmssFlex1ID = true ∧
    ((getVmssFlexIDByName testCloud emptyFlexScaleSet "vmssflex2").2 = .err .InstanceNotFound) ∧
    (getVmssFlexIDByName testCloud emptyFlexScaleSet "VMSSFLEX1").2 = .ok testVmssFlex1ID ∧
    trailingSegment testVmssFlex1ID '/' = "vmssflex1" ∧
    ("vmssflex1" ≠ "VmssFlex1" ∧ ToLower "vmssflex1" = ToLower "VmssFlex1") ∧
    segmentMatches "VmssFlex1" testVmssFlex1ID = true ∧
    segmentMatches "vmssflex" testVmssFlex1ID = false :=
  have h := getVmssFlexIDByName_matches testCloud emptyFlexScaleSet "vmssflex1"
    ((SyncMap.empty : SyncMap VirtualMachineScaleSet).Store testVmssFlex1ID testVmssFlex1)
    (by decide)
  have hfold := getVmssFlexIDByName_matches testCloud emptyFlexScaleSet "VmssFlex1"
    ((SyncMap.empty : SyncMap VirtualMachineScaleSet).Store testVmssFlex1ID testVmssFlex1)
    (by decide)
  ⟨by decide, by decide, (h.1 testVmssFlex1ID (by decide)).2, by decide, by decide, by decide,
    ⟨by decide, by decide⟩,
    (hfold.2.2.2 (by decide) testVmssFlex1ID (by decide)).2 ⟨by decide, by decide⟩,
    by decide⟩

end Provider

namespace Provider

/-! ## C17: when the refresh of the scale-set collection fails -/

/-- The inner loop of the getter returns no error. -/
theorem cacheScaleSets_ne_err (all : List VirtualMachineScaleSet) :
    ∀ (lc : SyncMap VirtualMachineScaleSet) (e : GoError), cacheScaleSets lc all ≠ .err e := by
  induction all with
  | nil => intro lc e h; simp [cacheScaleSets] at h
  | cons ss rest ih =>
    intro lc e
    unfold cacheScaleSets
    cases hid : ss.ID with
    | none => exact ih lc e
    | some id =>
      simp only
      by_cases he : id = ""
      · simp only [he, if_true]; exact ih lc e
      · simp only [he, if_false]
        cases hp : ss.VirtualMachineScaleSetProperties with
        | none => intro h; cases h
        | some p =>
          simp only
          by_cases hm : p.OrchestrationMode = .Flexible
          · simp only [hm, if_true]; exact ih _ e
          · simp only [hm, if_false]; exact ih lc e

/-- An error of the outer loop is the error of a listing that is not of the not-found class. -/
theorem listScaleSetsOfGroups_err (w : Cloud) (groups : List String) :
    ∀ (fs : FlexScaleSet) (lc : SyncMap VirtualMachineScaleSet) (e : GoError),
      (listScaleSetsOfGroups w groups fs lc).2 = .err e →
      ∃ resourceGroup ∈ groups, ∃ rerr, w.ListScaleSets resourceGroup = .error rerr ∧
        rerr.IsNotFound = false ∧ e = rerr.Error := by
  induction groups with
  | nil => intro fs lc e h; simp [listScaleSetsOfGroups] at h
  | cons rg rest ih =>
    intro fs lc e h
    unfold listScaleSetsOfGroups at h
    cases hl : w.ListScaleSets rg with
    | error rerr =>
      simp only [hl] at h
      by_cases hnf : rerr.IsNotFound = true
      · simp only [hnf, if_true] at h
        obtain ⟨g, hg, r, h1, h2, h3⟩ := ih _ _ e h
        exact ⟨g, List.mem_cons_of_mem _ hg, r, h1, h2, h3⟩
      · simp only [hnf, Bool.false_eq_true, if_false, Outcome.err.injEq] at h
        exact ⟨rg, List.mem_cons_self _ _, rerr, hl, Bool.eq_false_iff.mpr hnf, h.symm⟩
    | ok all =>
      simp only [hl] at h
      cases hc : cacheScaleSets lc all with
      | ok lc1 =>
        simp only [hc] at h
        obtain ⟨g, hg, r, h1, h2, h3⟩ := ih _ _ e h
        exact ⟨g, List.mem_cons_of_mem _ hg, r, h1, h2, h3⟩
      | err e1 => exact absurd hc (cacheScaleSets_ne_err all lc e1)
      | panic m => simp [hc] at h

/-- When the listed scale sets have their properties, the outer loop returns a collection or an
error, and an error as soon as some listing fails outside the not-found class. -/
theorem listScaleSetsOfGroups_total (w : Cloud) (hprops : w.ListsScaleSetsWithProperties)
    (groups : List String) :
    ∀ (fs : FlexScaleSet) (lc : SyncMap VirtualMachineScaleSet),
      ((∃ resourceGroup ∈ groups, ∃ rerr, w.ListScaleSets resourceGroup = .error rerr ∧
          rerr.IsNotFound = false) →
        ∃ e, (listScaleSetsOfGroups w groups fs lc).2 = .err e) ∧
      ((∀ resourceGroup ∈ groups, ∀ rerr, w.ListScaleSets resourceGroup = .error rerr →
          rerr.IsNotFound = true) →
        ∃ coll, (listScaleSetsOfGroups w groups fs lc).2 = .ok coll) := by
  induction groups with
  | nil =>
    intro fs lc
    refine ⟨?_, fun _ => ⟨lc, rfl⟩⟩
    rintro ⟨g, hg, _⟩
    exact absurd hg (List.not_mem_nil g)
  | cons rg rest ih =>
    intro fs lc
    unfold listScaleSetsOfGroups
    cases hl : w.ListScaleSets rg with
    | error rerr =>
      simp only
      by_cases hnf : rerr.IsNotFound = true
      · simp only [hnf, if_true]
        constructor
        · rintro ⟨g, hg, r, h1, h2⟩
          rcases List.mem_cons.mp hg with rfl | hg
          · rw [hl] at h1
            cases h1
            rw [hnf] at h2
            cases h2
          · exact (ih _ _).1 ⟨g, hg, r, h1, h2⟩
        · intro hall
          exact (ih _ _).2 (fun g hg => hall g (List.mem_cons_of_mem _ hg))
      · simp only [hnf, Bool.false_eq_true, if_false]
        refine ⟨fun _ => ⟨rerr.Error, rfl⟩, ?_⟩
        intro hall
        exact absurd (hall rg (List.mem_cons_self _ _) rerr hl) hnf
    | ok all =>
      simp only
      obtain ⟨lc1, hc⟩ := cacheScaleSets_ok all (hprops rg all hl) lc
      simp only [hc]
      constructor
      · rintro ⟨g, hg, r, h1, h2⟩
        rcases List.mem_cons.mp hg with rfl | hg
        · rw [hl] at h1
          cases h1
        · exact (ih _ _).1 ⟨g, hg, r, h1, h2⟩
      · intro hall
        exact (ih _ _).2 (fun g hg => hall g (List.mem_cons_of_mem _ hg))

/-- C17, as amended: when the listed scale sets have their properties, the getter of
`newVmssFlexCache` returns an error if and only if `GetResourceGroups` returns one or the listing of some resource
group fails with an error that is not of the not-found class; the error is that of
`GetResourceGroups` or of such a listing. A not-found listing error is skipped: when every
failing listing is of the not-found class, the getter returns a collection. -/
theorem vmssFlexCacheGetter_fails_iff (w : Cloud) (fs : FlexScaleSet) (key : String)
    (hprops : w.ListsScaleSetsWithProperties) :
    ((∃ e, (vmssFlexCacheGetter w fs key).2 = .err e) ↔
      ((∃ e, w.GetResourceGroups = .err e) ∨
        ∃ groups, w.GetResourceGroups = .ok groups ∧
          ∃ resourceGroup ∈ groups, ∃ rerr, w.ListScaleSets resourceGroup = .error rerr ∧
            rerr.IsNotFound = false)) ∧
    (∀ e, (vmssFlexCacheGetter w fs key).2 = .err e →
      w.GetResourceGroups = .err e ∨
      ∃ resourceGroup rerr, w.ListScaleSets resourceGroup = .error rerr ∧
        rerr.IsNotFound = false ∧ e = rerr.Error) ∧
    (∀ groups, w.GetResourceGroups = .ok groups →
      (∀ resourceGroup ∈ groups, ∀ rerr, w.ListScaleSets resourceGroup = .error rerr →
        rerr.IsNotFound = true) →
      ∃ coll, (vmssFlexCacheGetter w fs key).2 = .ok coll) := by
  unfold vmssFlexCacheGetter
  cases hg : w.GetResourceGroups with
  | err e0 =>
    simp only
    refine ⟨⟨fun _ => Or.inl ⟨e0, rfl⟩, fun _ => ⟨e0, rfl⟩⟩, ?_, ?_⟩
    · intro e he
      simp only [Outcome.err.injEq] at he
      exact Or.inl (by rw [he])
    · intro groups h
      cases h
  | panic m =>
    simp only
    refine ⟨⟨?_, ?_⟩, ?_, ?_⟩
    · rintro ⟨e, he⟩
      cases he
    · rintro (⟨e, he⟩ | ⟨groups, he, _⟩) <;> cases he
    · intro e he
      cases he
    · intro groups h
      cases h
  | ok groups =>
    simp only
    have htot := listScaleSetsOfGroups_total w hprops groups (fs.record .GetResourceGroups)
      SyncMap.empty
    refine ⟨⟨?_, ?_⟩, ?_, ?_⟩
    · rintro ⟨e, he⟩
      obtain ⟨g, hmem, r, h1, h2, _⟩ := listScaleSetsOfGroups_err w groups _ _ e he
      exact Or.inr ⟨groups, rfl, g, hmem, r, h1, h2⟩
    · rintro (⟨e, he⟩ | ⟨groups1, he, hex⟩)
      · cases he
      · cases he
        exact htot.1 hex
    · intro e he
      obtain ⟨g, _, r, h1, h2, h3⟩ := listScaleSetsOfGroups_err w groups _ _ e he
      exact Or.inr ⟨g, r, h1, h2, h3⟩
    · intro groups1 he hall
      cases he
      exact htot.2 hall

/-- The listings of `twoGroupsCloud` return scale sets with their properties. -/
theorem twoGroupsCloud_props : twoGroupsCloud.ListsScaleSetsWithProperties := by
  intro rg all hl ss hss
  simp only [twoGroupsCloud] at hl
  split at hl
  · cases hl
  · cases hl
    simp only [List.mem_singleton] at hss
    subst hss
    decide

/-- C17, witness: of the two resource groups of `twoGroupsCloud` the first answers not-found;
the refresh returns the collection of the second and no error. -/
theorem vmssFlexCacheGetter_fails_iff_witness :
    twoGroupsCloud.ListScaleSets "rg1" = .error ⟨404, .other "not found"⟩ ∧
    (vmssFlexCacheGetter twoGroupsCloud emptyFlexScaleSet "k8sVmssFlexKey").2
      = .ok ((SyncMap.empty : SyncMap VirtualMachineScaleSet).Store testVmssFlex1ID
          testVmssFlex1) ∧
    ¬ ∃ e, (vmssFlexCacheGetter twoGroupsCloud emptyFlexScaleSet "k8sVmssFlexKey").2 = .err e :=
  ⟨rfl, by decide, fun h =>
    match (vmssFlexCacheGetter_fails_iff twoGroupsCloud emptyFlexScaleSet "k8sVmssFlexKey"
      twoGroupsCloud_props).1.mp h with
    | Or.inl ⟨_, he⟩ => nomatch he
    | Or.inr ⟨_, _, rg, _, rerr, hl, hnf⟩ => by
      simp only [twoGroupsCloud] at hl
      split at hl
      · cases hl
        exact absurd hnf (by decide)
      · cases hl⟩

/-- C17, counterexample: of the two resource groups of `unpropertiedCloud` the first lists a
scale set with an identifier and without properties, and the listing of the second fails with
the status 500, an error that is not of the not-found class. The getter of `newVmssFlexCache`
does not return that error: reading the orchestration mode of the scale set of the first
resource group ends the refresh with a nil-pointer panic before the second listing. -/
theorem refresh_panics_before_listing_error :
    unpropertiedCloud.GetResourceGroups = .ok ["rg1", "rg2"] ∧
    scaleSetWithoutProperties.ID = some testVmssFlex1ID ∧
    scaleSetWithoutProperties.VirtualMachineScaleSetProperties = none ∧
    (∃ rerr, unpropertiedCloud.ListScaleSets "rg2" = .error rerr ∧ rerr.IsNotFound = false) ∧
    (vmssFlexCacheGetter unpropertiedCloud emptyFlexScaleSet "k8sVmssFlexKey").2
      = .panic "nil pointer dereference: scaleSet.OrchestrationMode" ∧
    ¬ ∃ e, (vmssFlexCacheGetter unpropertiedCloud emptyFlexScaleSet "k8sVmssFlexKey").2
      = .err e :=
  ⟨rfl, rfl, rfl, ⟨⟨500, .other "internal server error"⟩, rfl, rfl⟩, rfl,
    fun h => h.elim (fun _ he => nomatch he)⟩

end Provider

namespace Provider

/-! ## C18: the keys of a refreshed scale-set collection -/

/-- The keys after the inner loop of the getter: those before it and the identifiers of the
scale sets it stores. -/
theorem cacheScaleSets_keys (all : List VirtualMachineScaleSet) :
    ∀ lc lc1 : SyncMap VirtualMachineScaleSet, cacheScaleSets lc all = .ok lc1 →
      ∀ vmssFlexID, lc1.Load vmssFlexID ≠ none ↔
        (lc.Load vmssFlexID ≠ none ∨ ∃ scaleSet ∈ all, StoredUnder vmssFlexID scaleSet) := by
  induction all with
  | nil =>
    intro lc lc1 h vmssFlexID
    simp only [cacheScaleSets, Outcome.ok.injEq] at h
    subst h
    constructor
    · intro h; exact Or.inl h
    · rintro (h | ⟨ss, hss, _⟩)
      · exact h
      · exact absurd hss (List.not_mem_nil ss)
  | cons ss rest ih =>
    intro lc lc1 h vmssFlexID
    have hskip : ¬ StoredUnder vmssFlexID ss → cacheScaleSets lc rest = .ok lc1 →
        (lc1.Load vmssFlexID ≠ none ↔
          (lc.Load vmssFlexID ≠ none ∨ ∃ scaleSet ∈ ss :: rest, StoredUnder vmssFlexID scaleSet)) := by
      intro hno hrest
      rw [ih lc lc1 hrest vmssFlexID]
      constructor
      · rintro (h1 | ⟨s, hs, h1⟩)
        · exact Or.inl h1
        · exact Or.inr ⟨s, List.mem_cons_of_mem _ hs, h1⟩
      · rintro (h1 | ⟨s, hs, h1⟩)
        · exact Or.inl h1
        · rcases List.mem_cons.mp hs with rfl | hs
          · exact absurd h1 hno
          · exact Or.inr ⟨s, hs, h1⟩
    unfold cacheScaleSets at h
    cases hid : ss.ID with
    | none =>
      simp only [hid] at h
      exact hskip (fun hs => by rw [hs.1] at hid; cases hid) h
    | some id =>
      simp only [hid] at h
      by_cases he : id = ""
      · simp only [he, if_true] at h
        refine hskip (fun hs => ?_) h
        rw [hs.1, Option.some.injEq] at hid
        exact hs.2.1 (by rw [hid, he])
      · simp only [he, if_false] at h
        cases hp : ss.VirtualMachineScaleSetProperties with
        | none => simp only [hp] at h; cases h
        | some p =>
          simp only [hp] at h
          by_cases hm : p.OrchestrationMode = .Flexible
          · simp only [hm, if_true] at h
            rw [ih _ lc1 h vmssFlexID, SyncMap.Load_Store]
            constructor
            · rintro (h1 | ⟨s, hs, h1⟩)
              · by_cases hk : vmssFlexID = id
                · subst hk
                  exact Or.inr ⟨ss, List.mem_cons_self _ _, hid, he, p, hp, hm⟩
                · simp only [hk, if_false] at h1
                  exact Or.inl h1
              · exact Or.inr ⟨s, List.mem_cons_of_mem _ hs, h1⟩
            · rintro (h1 | ⟨s, hs, h1⟩)
              · by_cases hk : vmssFlexID = id
                · simp only [hk, if_true]
                  exact Or.inl (by simp)
                · simp only [hk, if_false]
                  exact Or.inl h1
              · rcases List.mem_cons.mp hs with rfl | hs
                · have hk : vmssFlexID = id := by
                    have := h1.1
                    rw [hid, Option.some.injEq] at this
                    exact this.symm
                  simp only [hk, if_true]
                  exact Or.inl (by simp)
                · exact Or.inr ⟨s, hs, h1⟩
          · simp only [hm, if_false] at h
            refine hskip (fun hs => ?_) h
            obtain ⟨_, _, q, hq, hmode⟩ := hs
            rw [hp, Option.some.injEq] at hq
            subst hq
            exact hm hmode

/-- The keys after the outer loop of the getter: those before it and the identifiers of the
scale sets stored from the resource groups whose listing succeeded. -/
theorem listScaleSetsOfGroups_keys (w : Cloud) (groups : List String) :
    ∀ (fs : FlexScaleSet) (lc lc1 : SyncMap VirtualMachineScaleSet),
      (listScaleSetsOfGroups w groups fs lc).2 = .ok lc1 →
      ∀ vmssFlexID, lc1.Load vmssFlexID ≠ none ↔
        (lc.Load vmssFlexID ≠ none ∨
          ∃ resourceGroup ∈ groups, ∃ all, w.ListScaleSets resourceGroup = .ok all ∧
            ∃ scaleSet ∈ all, StoredUnder vmssFlexID scaleSet) := by
  induction groups with
  | nil =>
    intro fs lc lc1 h vmssFlexID
    simp only [listScaleSetsOfGroups, Outcome.ok.injEq] at h
    subst h
    constructor
    · intro h; exact Or.inl h
    · rintro (h | ⟨g, hg, _⟩)
      · exact h
      · exact absurd hg (List.not_mem_nil g)
  | cons rg rest ih =>
    intro fs lc lc1 h vmssFlexID
    unfold listScaleSetsOfGroups at h
    cases hl : w.ListScaleSets rg with
    | error rerr =>
      simp only [hl] at h
      by_cases hnf : rerr.IsNotFound = true
      · simp only [hnf, if_true] at h
        rw [ih _ lc lc1 h vmssFlexID]
        constructor
        · rintro (h1 | ⟨g, hg, h1⟩)
          · exact Or.inl h1
          · exact Or.inr ⟨g, List.mem_cons_of_mem _ hg, h1⟩
        · rintro (h1 | ⟨g, hg, all, hall, h1⟩)
          · exact Or.inl h1
          · rcases List.mem_cons.mp hg with rfl | hg
            · rw [hl] at hall; cases hall
            · exact Or.inr ⟨g, hg, all, hall, h1⟩
      · simp only [hnf, Bool.false_eq_true, if_false] at h
        cases h
    | ok all =>
      simp only [hl] at h
      cases hc : cacheScaleSets lc all with
      | ok lc2 =>
        simp only [hc] at h
        rw [ih _ lc2 lc1 h vmssFlexID, cacheScaleSets_keys all lc lc2 hc vmssFlexID]
        constructor
        · rintro ((h1 | h1) | ⟨g, hg, h1⟩)
          · exact Or.inl h1
          · exact Or.inr ⟨rg, List.mem_cons_self _ _, all, hl, h1⟩
          · exact Or.inr ⟨g, List.mem_cons_of_mem _ hg, h1⟩
        · rintro (h1 | ⟨g, hg, all1, hall, h1⟩)
          · exact Or.inl (Or.inl h1)
          · rcases List.mem_cons.mp hg with rfl | hg
            · rw [hl, Except.ok.injEq] at hall
              subst hall
              exact Or.inl (Or.inr h1)
            · exact Or.inr ⟨g, hg, all1, hall, h1⟩
      | err e => simp only [hc] at h; cases h
      | panic m => simp only [hc] at h; cases h

/-- C18: when the getter of `newVmssFlexCache` returns a collection, its keys are exactly the
identifiers of the listed scale sets, over the resource groups whose listing succeeded, that
have a non-empty identifier and orchestration mode `Flexible`. -/
theorem vmssFlexCacheGetter_keys (w : Cloud) (fs : FlexScaleSet) (key : String)
    (coll : SyncMap VirtualMachineScaleSet)
    (h : (vmssFlexCacheGetter w fs key).2 = .ok coll) (vmssFlexID : String) :
    coll.Load vmssFlexID ≠ none ↔
      ∃ groups, w.GetResourceGroups = .ok groups ∧
        ∃ resourceGroup ∈ groups, ∃ all, w.ListScaleSets resourceGroup = .ok all ∧
          ∃ scaleSet ∈ all, scaleSet.ID = some vmssFlexID ∧ vmssFlexID ≠ "" ∧
            ∃ p, scaleSet.VirtualMachineScaleSetProperties = some p ∧
              p.OrchestrationMode = .Flexible := by
  unfold vmssFlexCacheGetter at h
  cases hg : w.GetResourceGroups with
  | err e => simp only [hg] at h; cases h
  | panic m => simp only [hg] at h; cases h
  | ok groups =>
    simp only [hg] at h
    rw [listScaleSetsOfGroups_keys w groups _ SyncMap.empty coll h vmssFlexID]
    constructor
    · rintro (h1 | h1)
      · exact absurd rfl h1
      · exact ⟨groups, rfl, h1⟩
    · rintro ⟨groups1, hg1, h1⟩
      cases hg1
      exact Or.inr h1

/-- C18, witness: `mixedScaleSetsCloud` lists a uniform scale set, a scale set without
identifier and the flexible `testVmssFlex1` in its second resource group, and answers not-found
for the first; the refreshed collection holds `testVmssFlex1` and nothing else, and its key is
the identifier of a listed flexible scale set. -/
theorem vmssFlexCacheGetter_keys_witness :
    (vmssFlexCacheGetter mixedScaleSetsCloud emptyFlexScaleSet "k8sVmssFlexKey").2
      = .ok ((SyncMap.empty : SyncMap VirtualMachineScaleSet).Store testVmssFlex1ID
          testVmssFlex1) ∧
    ∃ groups, mixedScaleSetsCloud.GetResourceGroups = .ok groups ∧
      ∃ resourceGroup ∈ groups, ∃ all, mixedScaleSetsCloud.ListScaleSets resourceGroup = .ok all ∧
        ∃ scaleSet ∈ all, scaleSet.ID = some testVmssFlex1ID ∧ testVmssFlex1ID ≠ "" ∧
          ∃ p, scaleSet.VirtualMachineScaleSetProperties = some p ∧
            p.OrchestrationMode = .Flexible :=
  ⟨by decide,
    (vmssFlexCacheGetter_keys mixedScaleSetsCloud emptyFlexScaleSet "k8sVmssFlexKey"
      ((SyncMap.empty : SyncMap VirtualMachineScaleSet).Store testVmssFlex1ID testVmssFlex1)
      (by decide) testVmssFlex1ID).mp (by decide)⟩

end Provider

namespace Provider

/-! ## C19: how the refresh of the VM collection merges the instance views -/

/-- The local collection after the first loop of the getter: its keys are those before it and
the node names of the listed descriptors, and each new descriptor is a listed one, under its
node name. -/
theorem cacheListedVMs_base (vms : List VirtualMachine) :
    ∀ (fs fs2 : FlexScaleSet) (lc base : SyncMap VirtualMachine),
      cacheListedVMs vms fs lc = (fs2, .ok base) →
      (∀ n, base.Load n ≠ none ↔ (lc.Load n ≠ none ∨ ∃ vm ∈ vms, vm.nodeName = some n)) ∧
      (∀ n b, base.Load n = some b → lc.Load n = some b ∨ (b ∈ vms ∧ b.nodeName = some n)) := by
  induction vms with
  | nil =>
    intro fs fs2 lc base h
    simp only [cacheListedVMs, Prod.mk.injEq, Outcome.ok.injEq] at h
    obtain ⟨_, rfl⟩ := h
    refine ⟨fun n => ⟨Or.inl, ?_⟩, fun n b hb => Or.inl hb⟩
    rintro (h1 | ⟨vm, hvm, _⟩)
    · exact h1
    · exact absurd hvm (List.not_mem_nil vm)
  | cons vm rest ih =>
    intro fs fs2 lc base h
    unfold cacheListedVMs at h
    cases hp : vm.VirtualMachineProperties with
    | none => simp [hp] at h
    | some p =>
      simp only [hp] at h
      rcases hc : cacheVirtualMachine fs vm with ⟨fs1, r⟩
      rw [hc] at h
      cases r with
      | err e => simp at h
      | panic m => simp at h
      | ok u =>
        simp only at h
        have hskip : vm.nodeName = none → cacheListedVMs rest fs1 lc = (fs2, .ok base) →
            (∀ n, base.Load n ≠ none ↔
              (lc.Load n ≠ none ∨ ∃ x ∈ vm :: rest, x.nodeName = some n)) ∧
            (∀ n b, base.Load n = some b →
              lc.Load n = some b ∨ (b ∈ vm :: rest ∧ b.nodeName = some n)) := by
          intro hnone hrest
          obtain ⟨i1, i2⟩ := ih fs1 fs2 lc base hrest
          refine ⟨fun n => ?_, fun n b hb => ?_⟩
          · rw [i1 n]
            constructor
            · rintro (h1 | ⟨x, hx, h1⟩)
              · exact Or.inl h1
              · exact Or.inr ⟨x, List.mem_cons_of_mem _ hx, h1⟩
            · rintro (h1 | ⟨x, hx, h1⟩)
              · exact Or.inl h1
              · rcases List.mem_cons.mp hx with rfl | hx
                · rw [hnone] at h1; cases h1
                · exact Or.inr ⟨x, hx, h1⟩
          · rcases i2 n b hb with h1 | ⟨h1, h2⟩
            · exact Or.inl h1
            · exact Or.inr ⟨List.mem_cons_of_mem _ h1, h2⟩
        cases hos : p.OsProfile with
        | none =>
          simp only [hos] at h
          exact hskip (by simp [VirtualMachine.nodeName, hp, hos]) h
        | some os =>
          simp only [hos] at h
          cases hcn : os.ComputerName with
          | none =>
            simp only [hcn] at h
            exact hskip (by simp [VirtualMachine.nodeName, hp, hos, hcn]) h
          | some computerName =>
            simp only [hcn] at h
            have hnode : vm.nodeName = some (ToLower computerName) := by
              simp [VirtualMachine.nodeName, hp, hos, hcn]
            obtain ⟨i1, i2⟩ := ih fs1 fs2 _ base h
            refine ⟨fun n => ?_, fun n b hb => ?_⟩
            · rw [i1 n, SyncMap.Load_Store]
              constructor
              · rintro (h1 | ⟨x, hx, h1⟩)
                · by_cases hk : n = ToLower computerName
                  · exact Or.inr ⟨vm, List.mem_cons_self _ _, by rw [hnode, hk]⟩
                  · simp only [hk, if_false] at h1
                    exact Or.inl h1
                · exact Or.inr ⟨x, List.mem_cons_of_mem _ hx, h1⟩
              · rintro (h1 | ⟨x, hx, h1⟩)
                · by_cases hk : n = ToLower computerName
                  · simp only [hk, if_true]
                    exact Or.inl (by simp)
                  · simp only [hk, if_false]
                    exact Or.inl h1
                · rcases List.mem_cons.mp hx with rfl | hx
                  · have hk : n = ToLower computerName := by
                      rw [hnode, Option.some.injEq] at h1
                      exact h1.symm
                    simp only [hk, if_true]
                    exact Or.inl (by simp)
                  · exact Or.inr ⟨x, hx, h1⟩
            · rcases i2 n b hb with h1 | ⟨h1, h2⟩
              · rw [SyncMap.Load_Store] at h1
                by_cases hk : n = ToLower computerName
                · simp only [hk, if_true, Option.some.injEq] at h1
                  subst h1
                  exact Or.inr ⟨List.mem_cons_self _ _, by rw [hnode, hk]⟩
                · simp only [hk, if_false] at h1
                  exact Or.inl h1
              · exact Or.inr ⟨List.mem_cons_of_mem _ h1, h2⟩

/-- An entry that the index does not map to the node name does not count. -/
theorem lastInstanceViewFor_cons_skip (index : SyncMap String) (nodeName : String)
    (vm : VirtualMachine) (rest : List VirtualMachine)
    (h : ∀ name, vm.Name = some name → index.Load name ≠ some nodeName) :
    lastInstanceViewFor index nodeName (vm :: rest) = lastInstanceViewFor index nodeName rest := by
  cases hrest : lastInstanceViewFor index nodeName rest with
  | some iv => simp only [lastInstanceViewFor, hrest]
  | none =>
    cases hn : vm.Name with
    | none => simp only [lastInstanceViewFor, hrest, hn]
    | some name => simp only [lastInstanceViewFor, hrest, hn, h name hn, if_false]

/-- An entry that the index maps to the node name counts unless a later one does. -/
theorem lastInstanceViewFor_cons_match (index : SyncMap String) (nodeName name : String)
    (vm : VirtualMachine) (rest : List VirtualMachine)
    (hn : vm.Name = some name) (h : index.Load name = some nodeName) :
    lastInstanceViewFor index nodeName (vm :: rest)
      = some ((lastInstanceViewFor index nodeName rest).getD vm.instanceView) := by
  cases hrest : lastInstanceViewFor index nodeName rest with
  | some iv => simp only [lastInstanceViewFor, hrest, Option.getD_some]
  | none => simp only [lastInstanceViewFor, hrest, hn, h, if_true, Option.getD_none]

/-- The second loop of the getter, key by key: the descriptor under a node name gets the
instance view of the last entry whose VM name the index maps to that node name. -/
theorem mergeInstanceViews_Load (fs : FlexScaleSet) (views : List VirtualMachine) :
    ∀ lc coll : SyncMap VirtualMachine, mergeInstanceViews fs views lc = .ok coll →
      ∀ n, coll.Load n = (lc.Load n).map (fun b =>
        b.applyInstanceView (lastInstanceViewFor fs.vmssFlexVMNameToNodeName n views)) := by
  induction views with
  | nil =>
    intro lc coll h n
    simp only [mergeInstanceViews, Outcome.ok.injEq] at h
    subst h
    cases lc.Load n <;> rfl
  | cons v rest ih =>
    intro lc coll h n
    unfold mergeInstanceViews at h
    cases hn : v.Name with
    | none =>
      simp only [hn] at h
      rw [lastInstanceViewFor_cons_skip _ _ _ _ (fun name hname => by rw [hn] at hname; cases hname)]
      exact ih lc coll h n
    | some name =>
      simp only [hn] at h
      cases hi : fs.vmssFlexVMNameToNodeName.Load name with
      | none =>
        simp only [hi] at h
        rw [lastInstanceViewFor_cons_skip _ _ _ _ (fun name1 hname => by
          rw [hn, Option.some.injEq] at hname
          subst hname
          rw [hi]
          exact fun hc => nomatch hc)]
        exact ih lc coll h n
      | some nodeName =>
        simp only [hi] at h
        by_cases hk : n = nodeName
        · subst hk
          rw [lastInstanceViewFor_cons_match _ _ name _ _ hn hi]
          cases hl : lc.Load n with
          | none =>
            simp only [hl] at h
            rw [ih lc coll h n, hl]
            rfl
          | some cachedVM =>
            simp only [hl] at h
            cases hcp : cachedVM.VirtualMachineProperties with
            | none => simp [hcp] at h
            | some cp =>
              cases hvp : v.VirtualMachineProperties with
              | none => simp [hcp, hvp] at h
              | some p =>
                simp only [hcp, hvp] at h
                rw [ih _ coll h n, SyncMap.Load_Store_self]
                simp only [Option.map_some']
                congr 1
                cases lastInstanceViewFor fs.vmssFlexVMNameToNodeName n rest with
                | none =>
                  simp [VirtualMachine.applyInstanceView, VirtualMachine.withInstanceView,
                    VirtualMachine.instanceView, hcp, hvp]
                | some iv =>
                  simp [VirtualMachine.applyInstanceView, VirtualMachine.withInstanceView, hcp]
        · rw [lastInstanceViewFor_cons_skip _ _ _ _ (fun name1 hname => by
            rw [hn, Option.some.injEq] at hname
            subst hname
            rw [hi]
            exact fun hc => hk (Option.some.inj hc).symm)]
          cases hl : lc.Load nodeName with
          | none =>
            simp only [hl] at h
            exact ih lc coll h n
          | some cachedVM =>
            simp only [hl] at h
            cases hcp : cachedVM.VirtualMachineProperties with
            | none => simp [hcp] at h
            | some cp =>
              cases hvp : v.VirtualMachineProperties with
              | none => simp [hcp, hvp] at h
              | some p =>
                simp only [hcp, hvp] at h
                rw [ih _ coll h n, SyncMap.Load_Store_ne _ _ hk]

/-- When the index maps exactly one VM name to a node name, the entries it maps to the node name
are the entries with that VM name. -/
theorem lastInstanceViewFor_eq_named (index : SyncMap String) (nodeName vmName : String)
    (h : ∀ name, index.Load name = some nodeName ↔ name = vmName) (views : List VirtualMachine) :
    lastInstanceViewFor index nodeName views = lastInstanceViewNamed vmName views := by
  induction views with
  | nil => rfl
  | cons v rest ih =>
    cases hrest : lastInstanceViewNamed vmName rest with
    | some iv => simp only [lastInstanceViewFor, lastInstanceViewNamed, ih, hrest]
    | none =>
      cases hn : v.Name with
      | none => simp [lastInstanceViewFor, lastInstanceViewNamed, ih, hrest, hn]
      | some name =>
        by_cases hk : name = vmName
        · simp [lastInstanceViewFor, lastInstanceViewNamed, ih, hrest, hn, hk, (h vmName).mpr rfl]
        · have : index.Load name ≠ some nodeName := fun hc => hk ((h name).mp hc)
          simp [lastInstanceViewFor, lastInstanceViewNamed, ih, hrest, hn, hk, this]

/-- C19, counterexample: in `testVM1Indexed` the VM name "testvm1" is mapped to the node name
"vmssflex1000001". The listing without instance view of `recreatedCloud` returns the single
descriptor `testVM1Recreated`, of VM name "testvm1b" and without instance view; the listing with
only instance views returns a single entry, of VM name "testvm1". No entry has the VM name of
the descriptor and the entry matches no base descriptor of the listing, yet the refreshed
collection holds the descriptor with the instance view of that entry. -/
theorem instance_view_of_another_vm_name :
    testVM1Indexed.vmssFlexVMNameToNodeName.Load "testvm1" = some "vmssflex1000001" ∧
    recreatedCloud.ListVmssFlexVMsWithoutInstanceView testVmssFlex1ID = .ok [testVM1Recreated] ∧
    recreatedCloud.ListVmssFlexVMsWithOnlyInstanceView testVmssFlex1ID
      = .ok [testVMWithOnlyInstanceView "testvm1"] ∧
    testVM1Recreated.Name = some "testvm1b" ∧
    testVM1Recreated.instanceView = none ∧
    (vmssFlexVMCacheGetter recreatedCloud testVM1Indexed testVmssFlex1ID).2
      = .ok ((SyncMap.empty : SyncMap VirtualMachine).Store "vmssflex1000001"
          (testVM1Recreated.withInstanceView (some testInstanceView))) :=
  ⟨by decide, rfl, rfl, rfl, rfl, by decide⟩

/-- C19, as amended: when both VM listings succeed and the getter of `newVmssFlexVMCache`
returns a collection, the collection has the keys of the base collection, which are the
lower-cased computer names of the base descriptors, each bound to a base descriptor with that
computer name; the descriptor under a key has the instance view of the last instance-view entry
whose VM name the VM-name index (as it stands after the base descriptors were absorbed, with the
bindings from before the refresh) maps to that key, if there is one, and is as the base
descriptor otherwise. When the index maps to a key exactly the VM name of its base descriptor,
that is the last instance-view entry with the same VM name. -/
theorem vmssFlexVMCacheGetter_merges (w : Cloud) (fs fs2 : FlexScaleSet) (key : String)
    (vms views : List VirtualMachine) (base coll : SyncMap VirtualMachine)
    (hbase : w.ListVmssFlexVMsWithoutInstanceView key = .ok vms)
    (hviews : w.ListVmssFlexVMsWithOnlyInstanceView key = .ok views)
    (hfirst : cacheListedVMs vms (fs.record (.ListVmssFlexVMsWithoutInstanceView key))
      SyncMap.empty = (fs2, .ok base))
    (hres : (vmssFlexVMCacheGetter w fs key).2 = .ok coll) :
    (∀ n, base.Load n ≠ none ↔ ∃ vm ∈ vms, vm.nodeName = some n) ∧
    (∀ n b, base.Load n = some b → b ∈ vms ∧ b.nodeName = some n) ∧
    (∀ n, coll.Load n = (base.Load n).map (fun b =>
      b.applyInstanceView (lastInstanceViewFor fs2.vmssFlexVMNameToNodeName n views))) ∧
    (∀ n b vmName, base.Load n = some b → b.Name = some vmName →
      (∀ name, fs2.vmssFlexVMNameToNodeName.Load name = some n ↔ name = vmName) →
      coll.Load n = some (b.applyInstanceView (lastInstanceViewNamed vmName views))) := by
  obtain ⟨k1, k2⟩ := cacheListedVMs_base vms _ fs2 SyncMap.empty base hfirst
  have hmerge : mergeInstanceViews (fs2.record (.ListVmssFlexVMsWithOnlyInstanceView key)) views
      base = .ok coll := by
    unfold vmssFlexVMCacheGetter at hres
    simp only [hbase, hfirst, hviews] at hres
    exact hres
  have hload := mergeInstanceViews_Load _ views base coll hmerge
  refine ⟨fun n => ?_, fun n b hb => ?_, hload, ?_⟩
  · rw [k1 n]
    constructor
    · rintro (h1 | h1)
      · exact absurd rfl h1
      · exact h1
    · exact Or.inr
  · rcases k2 n b hb with h1 | h1
    · cases h1
    · exact h1
  · intro n b vmName hb _ hname
    rw [hload n, hb]
    simp only [Option.map_some']
    congr 2
    exact lastInstanceViewFor_eq_named _ n vmName hname views

/-- C19, witness: the refresh of the VM collection of `testVmssFlex1` against `testCloud` from
the empty state; the descriptor of the node "vmssflex1000001" comes back with the instance view
of the entry "testvm1". -/
theorem vmssFlexVMCacheGetter_merges_witness :
    (vmssFlexVMCacheGetter testCloud emptyFlexScaleSet testVmssFlex1ID).2 = .ok testMergedVMs ∧
    testMergedVMs.Load "vmssflex1000001" = some testVM1WithInstanceView :=
  ⟨by decide,
    ((vmssFlexVMCacheGetter_merges testCloud emptyFlexScaleSet
      (cacheListedVMs [testVM1, testVM2, testVM3]
        (emptyFlexScaleSet.record (.ListVmssFlexVMsWithoutInstanceView testVmssFlex1ID))
        SyncMap.empty).1 testVmssFlex1ID [testVM1, testVM2, testVM3]
      [testVMWithOnlyInstanceView "testvm1", testVMWithOnlyInstanceView "testvm2",
        testVMWithOnlyInstanceView "testvm3"]
      testBaseVMs testMergedVMs rfl rfl (by decide) (by decide)).2.2.1 "vmssflex1000001").trans
      (by decide)⟩

end Provider

namespace Provider

/-! ## C20: what a failed refresh of the VM collection leaves behind -/

/-- Recording an event and absorbing a descriptor commute. -/
theorem cacheVirtualMachine_record (fs : FlexScaleSet) (vm : VirtualMachine) (ev : Event) :
    (cacheVirtualMachine (fs.record ev) vm).1 = (cacheVirtualMachine fs vm).1.record ev := by
  cases hname : vm.Name with
  | none =>
    rw [cacheVirtualMachine_fst_of_none _ (Or.inl hname),
      cacheVirtualMachine_fst_of_none _ (Or.inl hname)]
  | some name =>
    cases hnode : vm.nodeName with
    | none =>
      rw [cacheVirtualMachine_fst_of_none _ (Or.inr hnode),
        cacheVirtualMachine_fst_of_none _ (Or.inr hnode)]
    | some n =>
      rw [cacheVirtualMachine_eq _ hname hnode, cacheVirtualMachine_eq _ hname hnode]
      rfl

/-- Recording an event and absorbing a listing commute. -/
theorem absorbListed_record (vms : List VirtualMachine) (ev : Event) :
    ∀ fs : FlexScaleSet, absorbListed vms (fs.record ev) = (absorbListed vms fs).record ev := by
  induction vms with
  | nil => intro fs; rfl
  | cons vm rest ih =>
    intro fs
    simp only [absorbListed, List.foldl_cons] at ih ⊢
    rw [cacheVirtualMachine_record, ih]

/-- Absorbing a listing touches the three indices only. -/
theorem absorbListed_frame (vms : List VirtualMachine) :
    ∀ fs : FlexScaleSet,
      (absorbListed vms fs).vmssFlexCache = fs.vmssFlexCache ∧
      (absorbListed vms fs).vmssFlexVMCache = fs.vmssFlexVMCache := by
  induction vms with
  | nil => intro fs; exact ⟨rfl, rfl⟩
  | cons vm rest ih =>
    intro fs
    simp only [absorbListed, List.foldl_cons] at ih ⊢
    obtain ⟨h1, h2⟩ := ih (cacheVirtualMachine fs vm).1
    have hf := cacheVirtualMachine_frame fs vm
    exact ⟨h1.trans hf.2.2.1, h2.trans hf.2.2.2.1⟩

/-- Absorbing a descriptor returns no error. -/
theorem cacheVirtualMachine_ne_err (fs : FlexScaleSet) (vm : VirtualMachine) (e : GoError) :
    (cacheVirtualMachine fs vm).2 ≠ .err e := by
  unfold cacheVirtualMachine
  intro h
  repeat' split at h
  all_goals cases h

/-- The first loop of the getter returns no error, and the state it leaves when it returns the
local collection is the one after absorbing the listing. -/
theorem cacheListedVMs_state (vms : List VirtualMachine) :
    ∀ (fs : FlexScaleSet) (lc : SyncMap VirtualMachine),
      (∀ e, (cacheListedVMs vms fs lc).2 ≠ .err e) ∧
      (∀ base, (cacheListedVMs vms fs lc).2 = .ok base →
        (cacheListedVMs vms fs lc).1 = absorbListed vms fs) := by
  induction vms with
  | nil =>
    intro fs lc
    exact ⟨fun e h => by simp [cacheListedVMs] at h, fun _ _ => rfl⟩
  | cons vm rest ih =>
    intro fs lc
    unfold cacheListedVMs
    cases hp : vm.VirtualMachineProperties with
    | none => exact ⟨fun e h => (nomatch h), fun base h => (nomatch h)⟩
    | some p =>
      simp only
      have hne := cacheVirtualMachine_ne_err fs vm
      rcases hc : cacheVirtualMachine fs vm with ⟨fs1, r⟩
      rw [hc] at hne
      cases r with
      | err e => exact absurd rfl (hne e)
      | panic m => exact ⟨fun e h => (nomatch h), fun base h => (nomatch h)⟩
      | ok u =>
        simp only
        obtain ⟨i1, i2⟩ := ih fs1 (match p.OsProfile with
          | none => lc
          | some os =>
            match os.ComputerName with
            | none => lc
            | some computerName => lc.Store (ToLower computerName) vm)
        refine ⟨i1, fun base h => ?_⟩
        rw [i2 base h]
        simp only [absorbListed, List.foldl_cons, hc]

/-- The second loop of the getter returns no error. -/
theorem mergeInstanceViews_ne_err (fs : FlexScaleSet) (views : List VirtualMachine) :
    ∀ (lc : SyncMap VirtualMachine) (e : GoError), mergeInstanceViews fs views lc ≠ .err e := by
  induction views with
  | nil => intro lc e h; simp [mergeInstanceViews] at h
  | cons v rest ih =>
    intro lc e
    unfold mergeInstanceViews
    cases v.Name with
    | none => exact ih lc e
    | some name =>
      simp only
      cases fs.vmssFlexVMNameToNodeName.Load name with
      | none => exact ih lc e
      | some nodeName =>
        simp only
        cases lc.Load nodeName with
        | none => exact ih lc e
        | some cachedVM =>
          simp only
          cases cachedVM.VirtualMachineProperties with
          | none => intro h; cases h
          | some cp =>
            cases v.VirtualMachineProperties with
            | none => intro h; cases h
            | some p => exact ih _ e

/-- C20, counterexample: against `viewsFailCloud` the listing without instance view returns the
three VMs and the listing with only instance views fails. The getter returns the error, and the
three descriptors are in the indices, which were empty before the refresh started. -/
theorem failed_refresh_writes_indices :
    (vmssFlexVMCacheGetter viewsFailCloud emptyFlexScaleSet testVmssFlex1ID).2
      = .err (.wrapped 500 (.other "internal server error")) ∧
    emptyFlexScaleSet.indices = (SyncMap.empty, SyncMap.empty, SyncMap.empty) ∧
    (vmssFlexVMCacheGetter viewsFailCloud emptyFlexScaleSet
      testVmssFlex1ID).1.vmssFlexVMNameToNodeName.Load "testvm1" = some "vmssflex1000001" ∧
    (vmssFlexVMCacheGetter viewsFailCloud emptyFlexScaleSet
      testVmssFlex1ID).1.vmssFlexNodeNameToVMName.Load "vmssflex1000001" = some "testvm1" ∧
    (vmssFlexVMCacheGetter viewsFailCloud emptyFlexScaleSet
      testVmssFlex1ID).1.vmssFlexNodeNameToVmssID.Load "vmssflex1000001"
      = some testVmssFlex1ID ∧
    (vmssFlexVMCacheGetter viewsFailCloud emptyFlexScaleSet testVmssFlex1ID).1.indices
      ≠ emptyFlexScaleSet.indices := by
  decide

/-- C20, as amended: whenever the getter of `newVmssFlexVMCache` returns an error it returns no
collection and leaves both timed caches as they were. The error is that of the listing without
instance view, and then the three secondary indices are exactly as they were before the
refresh started; or the first listing succeeded and the error is that of the listing with only
instance views, and then the three indices are those after `cacheVirtualMachine` absorbed each
descriptor of the first listing. -/
theorem vmssFlexVMCacheGetter_error (w : Cloud) (fs : FlexScaleSet) (key : String) (e : GoError)
    (h : (vmssFlexVMCacheGetter w fs key).2 = .err e) :
    (vmssFlexVMCacheGetter w fs key).1.vmssFlexCache = fs.vmssFlexCache ∧
    (vmssFlexVMCacheGetter w fs key).1.vmssFlexVMCache = fs.vmssFlexVMCache ∧
    ((∃ rerr, w.ListVmssFlexVMsWithoutInstanceView key = .error rerr ∧ e = rerr.Error ∧
        (vmssFlexVMCacheGetter w fs key).1.indices = fs.indices) ∨
      (∃ vms rerr, w.ListVmssFlexVMsWithoutInstanceView key = .ok vms ∧
        w.ListVmssFlexVMsWithOnlyInstanceView key = .error rerr ∧ e = rerr.Error ∧
        (vmssFlexVMCacheGetter w fs key).1.indices = (absorbListed vms fs).indices)) := by
  unfold vmssFlexVMCacheGetter at h ⊢
  cases hl : w.ListVmssFlexVMsWithoutInstanceView key with
  | error rerr =>
    simp only [hl, Outcome.err.injEq] at h
    simp only
    exact ⟨rfl, rfl, Or.inl ⟨rerr, rfl, h.symm, rfl⟩⟩
  | ok vms =>
    simp only [hl] at h
    simp only
    obtain ⟨hne, hst⟩ := cacheListedVMs_state vms
      (fs.record (.ListVmssFlexVMsWithoutInstanceView key)) SyncMap.empty
    rcases hc : cacheListedVMs vms (fs.record (.ListVmssFlexVMsWithoutInstanceView key))
      SyncMap.empty with ⟨fs2, r⟩
    rw [hc] at h hne hst
    cases r with
    | err e1 => exact absurd rfl (hne e1)
    | panic m => simp only at h; cases h
    | ok base =>
      simp only at h ⊢
      have hfs2 : fs2 = (absorbListed vms fs).record (.ListVmssFlexVMsWithoutInstanceView key) := by
        rw [← absorbListed_record]
        exact hst base rfl
      cases hv : w.ListVmssFlexVMsWithOnlyInstanceView key with
      | ok views =>
        simp only [hv] at h
        exact absurd h (mergeInstanceViews_ne_err _ views base e)
      | error rerr =>
        simp only [hv, Outcome.err.injEq] at h
        simp only
        obtain ⟨f1, f2⟩ := absorbListed_frame vms fs
        subst hfs2
        exact ⟨f1, f2, Or.inr ⟨vms, rerr, rfl, rfl, h.symm, rfl⟩⟩

/-- C20, witness: against `listingFailsCloud` the first listing fails and the indices of
`testVM1Indexed` stay as they were; against `viewsFailCloud` the second listing fails. -/
theorem vmssFlexVMCacheGetter_error_witness :
    (vmssFlexVMCacheGetter listingFailsCloud testVM1Indexed testVmssFlex1ID).2
      = .err (.wrapped 500 (.other "internal server error")) ∧
    (vmssFlexVMCacheGetter listingFailsCloud testVM1Indexed testVmssFlex1ID).1.vmssFlexVMCache
      = testVM1Indexed.vmssFlexVMCache :=
  ⟨by decide,
    (vmssFlexVMCacheGetter_error listingFailsCloud testVM1Indexed testVmssFlex1ID
      (.wrapped 500 (.other "internal server error")) (by decide)).2.1⟩

end Provider

namespace Provider

/-! ## The refreshed scale-set collection has each key once -/

theorem cacheScaleSets_nodupKeys (all : List VirtualMachineScaleSet) :
    ∀ lc lc1 : SyncMap VirtualMachineScaleSet, lc.NodupKeys →
      cacheScaleSets lc all = .ok lc1 → lc1.NodupKeys := by
  induction all with
  | nil =>
    intro lc lc1 h heq
    simp only [cacheScaleSets, Outcome.ok.injEq] at heq
    rw [← heq]; exact h
  | cons ss rest ih =>
    intro lc lc1 h heq
    unfold cacheScaleSets at heq
    cases hid : ss.ID with
    | none => simp only [hid] at heq; exact ih lc lc1 h heq
    | some id =>
      simp only [hid] at heq
      by_cases he : id = ""
      · simp only [he, if_true] at heq; exact ih lc lc1 h heq
      · simp only [he, if_false] at heq
        cases hp : ss.VirtualMachineScaleSetProperties with
        | none => simp [hp] at heq
        | some p =>
          simp only [hp] at heq
          by_cases hm : p.OrchestrationMode = .Flexible
          · simp only [hm, if_true] at heq
            exact ih _ lc1 (h.after_store id ss) heq
          · simp only [hm, if_false] at heq
            exact ih lc lc1 h heq

theorem listScaleSetsOfGroups_nodupKeys (w : Cloud) (groups : List String) :
    ∀ (fs fs1 : FlexScaleSet) (lc lc1 : SyncMap VirtualMachineScaleSet), lc.NodupKeys →
      listScaleSetsOfGroups w groups fs lc = (fs1, .ok lc1) → lc1.NodupKeys := by
  induction groups with
  | nil =>
    intro fs fs1 lc lc1 h heq
    simp only [listScaleSetsOfGroups, Prod.mk.injEq, Outcome.ok.injEq] at heq
    rw [← heq.2]; exact h
  | cons rg rest ih =>
    intro fs fs1 lc lc1 h heq
    unfold listScaleSetsOfGroups at heq
    cases hl : w.ListScaleSets rg with
    | error rerr =>
      simp only [hl] at heq
      by_cases hnf : rerr.IsNotFound
      · simp only [hnf, if_true] at heq; exact ih _ fs1 lc lc1 h heq
      · simp [hnf] at heq
    | ok all =>
      simp only [hl] at heq
      cases hc : cacheScaleSets lc all with
      | ok lc2 =>
        simp only [hc] at heq
        exact ih _ fs1 lc2 lc1 (cacheScaleSets_nodupKeys all lc lc2 h hc) heq
      | err e => simp [hc] at heq
      | panic m => simp [hc] at heq

/-- The collection that the getter of `newVmssFlexCache` returns has distinct keys, and each of
its scale sets has its properties: the two facts the ranking of the candidates relies on. -/
theorem vmssFlexCacheGetter_nodupKeys (w : Cloud) (fs fs1 : FlexScaleSet) (key : String)
    (data : SyncMap VirtualMachineScaleSet) (h : vmssFlexCacheGetter w fs key = (fs1, .ok data)) :
    data.NodupKeys ∧ AllHaveProperties data := by
  refine ⟨?_, vmssFlexCacheGetter_props w fs fs1 key data h⟩
  unfold vmssFlexCacheGetter at h
  cases hg : w.GetResourceGroups with
  | ok groups =>
    simp only [hg] at h
    exact listScaleSetsOfGroups_nodupKeys w groups _ fs1 SyncMap.empty data
      SyncMap.NodupKeys.empty h
  | err e => simp [hg] at h
  | panic m => simp [hg] at h

end Provider

namespace Provider

/-! ## C21: a forced refresh after the scale sets are gone -/

/-- The outer loop of the getter of `newVmssFlexCache` writes the trace only. -/
theorem listScaleSetsOfGroups_frame (w : Cloud) (groups : List String) :
    ∀ (fs : FlexScaleSet) (lc : SyncMap VirtualMachineScaleSet),
      (listScaleSetsOfGroups w groups fs lc).1
        = { fs with trace := (listScaleSetsOfGroups w groups fs lc).1.trace } := by
  induction groups with
  | nil => intro fs lc; rfl
  | cons rg rest ih =>
    intro fs lc
    unfold listScaleSetsOfGroups
    cases w.ListScaleSets rg with
    | error rerr =>
      by_cases hnf : rerr.IsNotFound
      · simp only [hnf, if_true]
        rw [ih]
        rfl
      · simp only [hnf]
        rfl
    | ok all =>
      simp only
      cases cacheScaleSets lc all with
      | ok lc1 =>
        simp only
        rw [ih]
        rfl
      | err e => rfl
      | panic m => rfl

/-- The getter of `newVmssFlexCache` writes the trace only. -/
theorem vmssFlexCacheGetter_frame (w : Cloud) (fs : FlexScaleSet) (key : String) :
    (vmssFlexCacheGetter w fs key).1
      = { fs with trace := (vmssFlexCacheGetter w fs key).1.trace } := by
  unfold vmssFlexCacheGetter
  cases w.GetResourceGroups with
  | ok groups =>
    simp only
    rw [listScaleSetsOfGroups_frame]
    rfl
  | err e => rfl
  | panic m => rfl

/-- When every listing answers not-found the outer loop returns the collection it started
with. -/
theorem listScaleSetsOfGroups_gone (w : Cloud) (groups : List String)
    (h : ∀ resourceGroup ∈ groups, ∃ rerr, w.ListScaleSets resourceGroup = .error rerr ∧
      rerr.IsNotFound = true) :
    ∀ (fs : FlexScaleSet) (lc : SyncMap VirtualMachineScaleSet),
      (listScaleSetsOfGroups w groups fs lc).2 = .ok lc := by
  induction groups with
  | nil => intro fs lc; rfl
  | cons rg rest ih =>
    intro fs lc
    obtain ⟨rerr, hl, hnf⟩ := h rg (List.mem_cons_self _ _)
    unfold listScaleSetsOfGroups
    simp only [hl, hnf, if_true]
    exact ih (fun g hg => h g (List.mem_cons_of_mem _ hg)) _ _

/-- When the scale sets are gone the getter returns the empty collection. -/
theorem vmssFlexCacheGetter_gone (w : Cloud) (hgone : w.ScaleSetsGone) (fs : FlexScaleSet)
    (key : String) : (vmssFlexCacheGetter w fs key).2 = .ok SyncMap.empty := by
  obtain ⟨groups, hg, hall⟩ := hgone
  unfold vmssFlexCacheGetter
  simp only [hg]
  exact listScaleSetsOfGroups_gone w groups hall _ _

/-- When the scale sets are gone, a read of the scale-set collection that refreshes, or that
finds nothing but the empty collection cached, returns the empty collection; it leaves the
indices and the cached VM collections as they were, and nothing but the empty collection
cached. -/
theorem vmssFlexCacheGet_gone (w : Cloud) (hgone : w.ScaleSetsGone) (fs : FlexScaleSet)
    (key : String) (crt : AzureCacheReadType)
    (hcrt : crt = .CacheReadTypeForceRefresh ∨
      (crt = .CacheReadTypeDefault ∧ fs.CachesNoScaleSet key)) :
    (vmssFlexCacheGet w fs key crt).2 = .ok (some SyncMap.empty) ∧
    (vmssFlexCacheGet w fs key crt).1.CachesNoScaleSet key ∧
    (vmssFlexCacheGet w fs key crt).1.indices = fs.indices ∧
    (vmssFlexCacheGet w fs key crt).1.vmssFlexVMCache = fs.vmssFlexVMCache := by
  have hres := vmssFlexCacheGetter_gone w hgone fs key
  have hframe := vmssFlexCacheGetter_frame w fs key
  rcases hg : vmssFlexCacheGetter w fs key with ⟨s1, r⟩
  rw [hg] at hres hframe
  simp only at hres hframe
  subst hres
  have hflag1 : s1.DisableAPICallCache = fs.DisableAPICallCache := by rw [hframe]
  have hidx : s1.indices = fs.indices := by rw [hframe]; rfl
  have hvm : s1.vmssFlexVMCache = fs.vmssFlexVMCache := by rw [hframe]
  unfold vmssFlexCacheGet TimedCache.Get
  simp only [hg]
  cases hd : fs.DisableAPICallCache with
  | true =>
    simp only [if_true]
    exact ⟨trivial, Or.inl (hflag1.trans hd), hidx, hvm⟩
  | false =>
    have hstored : ({ s1 with
        vmssFlexCache := { fs.vmssFlexCache with
          Store := fs.vmssFlexCache.Store.Store key ⟨some SyncMap.empty, fs.now⟩ } } :
          FlexScaleSet).CachesNoScaleSet key := by
      refine Or.inr ?_
      intro data lastUpdate hl
      simp only [SyncMap.Load_Store_self, Option.some.injEq, AzureCacheEntry.mk.injEq] at hl
      exact hl.1.symm
    simp only [Bool.false_eq_true, if_false]
    rcases hcrt with rfl | ⟨rfl, hc⟩
    · exact ⟨rfl, hstored, hidx, hvm⟩
    · simp only
      rcases hc with hc | hc
      · rw [hd] at hc; cases hc
      · cases hl : fs.vmssFlexCache.Store.Load key with
        | none => exact ⟨rfl, hstored, hidx, hvm⟩
        | some entry =>
          obtain ⟨data, lastUpdate⟩ := entry
          cases data with
          | none => exact ⟨rfl, hstored, hidx, hvm⟩
          | some coll =>
            have hcoll := hc coll lastUpdate hl
            subst hcoll
            simp only
            by_cases hfresh : fs.now - lastUpdate < fs.vmssFlexCache.TTL
            · simp only [hfresh, if_true]
              refine ⟨trivial, Or.inr ?_, trivial, trivial⟩
              intro data lu hl2
              have h3 : fs.vmssFlexCache.Store.Load key = some ⟨some data, lu⟩ := hl2
              rw [hl] at h3
              simp only [Option.some.injEq, AzureCacheEntry.mk.injEq] at h3
              exact h3.1.symm
            · simp only [hfresh, if_false]
              exact ⟨trivial, hstored, hidx, hvm⟩

/-- When the scale sets are gone a lookup pass has no candidate to probe and ends with
not-found. -/
theorem getter_gone (w : Cloud) (hgone : w.ScaleSetsGone) (fs : FlexScaleSet)
    (nodeName : String) (crt : AzureCacheReadType)
    (hcrt : crt = .CacheReadTypeForceRefresh ∨
      (crt = .CacheReadTypeDefault ∧ fs.CachesNoScaleSet w.VmssFlexKey)) :
    (getNodeVmssFlexID.getter w fs nodeName crt).2 = .err .InstanceNotFound ∧
    (getNodeVmssFlexID.getter w fs nodeName crt).1.CachesNoScaleSet w.VmssFlexKey := by
  obtain ⟨h1, h2, _, _⟩ := vmssFlexCacheGet_gone w hgone fs w.VmssFlexKey crt hcrt
  unfold getNodeVmssFlexID.getter
  rcases hr : vmssFlexCacheGet w fs w.VmssFlexKey crt with ⟨fs1, r⟩
  rw [hr] at h1 h2
  simp only at h1 h2
  subst h1
  exact ⟨rfl, h2⟩

/-- When the scale sets are gone and nothing but the empty collection is cached, a node that is
not in the node-name to scale-set-id index is not found. -/
theorem getNodeVmssFlexID_gone (w : Cloud) (hgone : w.ScaleSetsGone) (fs : FlexScaleSet)
    (nodeName : String) (hc : fs.CachesNoScaleSet w.VmssFlexKey)
    (h : fs.vmssFlexNodeNameToVmssID.Load nodeName = none) :
    (getNodeVmssFlexID w fs nodeName).2 = .err .InstanceNotFound := by
  unfold getNodeVmssFlexID
  have h0 : (fs.record (.LockEntry w.GetNodeVmssFlexIDLockKey)).vmssFlexNodeNameToVmssID.Load
      nodeName = none := h
  have hc0 : (fs.record (.LockEntry w.GetNodeVmssFlexIDLockKey)).CachesNoScaleSet
      w.VmssFlexKey := hc
  obtain ⟨g1, _⟩ := getter_gone w hgone _ nodeName .CacheReadTypeDefault (Or.inr ⟨rfl, hc0⟩)
  simp only [h0]
  rcases hg : getNodeVmssFlexID.getter w (fs.record (.LockEntry w.GetNodeVmssFlexIDLockKey))
    nodeName .CacheReadTypeDefault with ⟨fs1, r⟩
  rw [hg] at g1
  simp only at g1
  subst g1
  simp only [GoError.isInstanceNotFound, if_true]
  exact (getter_gone w hgone fs1 nodeName .CacheReadTypeForceRefresh (Or.inl rfl)).1

/-- C21: a forced refresh that finds the scale sets gone leaves the resolver with its answers.
In `warmFlexScaleSet` the node "vmssflex1000001" is resolved and the VM collection of its scale
set is cached. After a read of the scale-set collection under `ForceRefresh` against
`goneCloud`, which answers not-found to every listing, the collection is empty, but
`getNodeVmssFlexID` still returns the scale-set identifier of the node, where the claim has
`cloudprovider.InstanceNotFound`, and the VM collection of the scale set is still cached, where
the claim has it removed. -/
theorem indexed_node_resolved_after_scale_sets_gone :
    (getNodeVmssFlexID testCloud warmFlexScaleSet "vmssflex1000001").2 = .ok testVmssFlex1ID ∧
    (vmssFlexCacheGet goneCloud warmFlexScaleSet goneCloud.VmssFlexKey
      .CacheReadTypeForceRefresh).2 = .ok (some SyncMap.empty) ∧
    (getNodeVmssFlexID goneCloud
      (vmssFlexCacheGet goneCloud warmFlexScaleSet goneCloud.VmssFlexKey
        .CacheReadTypeForceRefresh).1 "vmssflex1000001").2 = .ok testVmssFlex1ID ∧
    (vmssFlexCacheGet goneCloud warmFlexScaleSet goneCloud.VmssFlexKey
      .CacheReadTypeForceRefresh).1.vmssFlexVMCache.cached testVmssFlex1ID
      = some testMergedVMs := by
  decide

/-- After a read of the scale-set collection under `ForceRefresh` for which the remote side
answers not-found to the listing of every resource group, the scale-set collection is empty
and the resolver finds no node through it: for every node that is in no index
`getNodeVmssFlexID` and `getVmssFlexVM` return `cloudprovider.InstanceNotFound`. The refresh
writes neither the three indices nor the cached VM collections, so a node that is in the
node-name to scale-set-id index is still answered from it. -/
theorem resolution_after_scale_sets_gone (w : Cloud) (fs : FlexScaleSet)
    (hgone : w.ScaleSetsGone) :
    (vmssFlexCacheGet w fs w.VmssFlexKey .CacheReadTypeForceRefresh).2
      = .ok (some SyncMap.empty) ∧
    (vmssFlexCacheGet w fs w.VmssFlexKey .CacheReadTypeForceRefresh).1.indices = fs.indices ∧
    (vmssFlexCacheGet w fs w.VmssFlexKey .CacheReadTypeForceRefresh).1.vmssFlexVMCache
      = fs.vmssFlexVMCache ∧
    (∀ nodeName, fs.vmssFlexNodeNameToVmssID.Load nodeName = none →
      (getNodeVmssFlexID w (vmssFlexCacheGet w fs w.VmssFlexKey .CacheReadTypeForceRefresh).1
        nodeName).2 = .err .InstanceNotFound) ∧
    (∀ nodeName crt, fs.vmssFlexNodeNameToVMName.Load nodeName = none →
      fs.vmssFlexNodeNameToVmssID.Load nodeName = none →
      (getVmssFlexVM w (vmssFlexCacheGet w fs w.VmssFlexKey .CacheReadTypeForceRefresh).1
        nodeName crt).2 = .err .InstanceNotFound) ∧
    (∀ nodeName vmssFlexID, fs.vmssFlexNodeNameToVmssID.Load nodeName = some vmssFlexID →
      (getNodeVmssFlexID w (vmssFlexCacheGet w fs w.VmssFlexKey .CacheReadTypeForceRefresh).1
        nodeName).2 = .ok vmssFlexID) := by
  obtain ⟨h1, h2, h3, h4⟩ := vmssFlexCacheGet_gone w hgone fs w.VmssFlexKey
    .CacheReadTypeForceRefresh (Or.inl rfl)
  have hidx3 : (vmssFlexCacheGet w fs w.VmssFlexKey
      .CacheReadTypeForceRefresh).1.vmssFlexNodeNameToVmssID = fs.vmssFlexNodeNameToVmssID :=
    congrArg (fun x => x.2.2) h3
  have hidx2 : (vmssFlexCacheGet w fs w.VmssFlexKey
      .CacheReadTypeForceRefresh).1.vmssFlexNodeNameToVMName = fs.vmssFlexNodeNameToVMName :=
    congrArg (fun x => x.2.1) h3
  refine ⟨h1, h3, h4, ?_, ?_, ?_⟩
  · intro nodeName hn
    exact getNodeVmssFlexID_gone w hgone _ nodeName h2 (by rw [hidx3]; exact hn)
  · intro nodeName crt hv hn
    have hres := getNodeVmssFlexID_gone w hgone _ nodeName h2 (by rw [hidx3]; exact hn)
    unfold getVmssFlexVM
    rw [hidx2, hv]
    simp only
    rcases hg : getNodeVmssFlexID w
      (vmssFlexCacheGet w fs w.VmssFlexKey .CacheReadTypeForceRefresh).1 nodeName with ⟨fs1, r⟩
    rw [hg] at hres
    simp only at hres
    subst hres
    rfl
  · intro nodeName vmssFlexID hn
    rw [getNodeVmssFlexID_of_indexed w _ nodeName vmssFlexID (by rw [hidx3]; exact hn)]

/-- The listings of `goneCloud` answer not-found. -/
theorem goneCloud_gone : goneCloud.ScaleSetsGone :=
  ⟨["rg"], rfl, fun _ _ => ⟨⟨404, .other "resource group not found"⟩, rfl, rfl⟩⟩

/-- After the forced refresh against `goneCloud` from `warmFlexScaleSet`, the node
"vmssflex1000009", which is in no index, is not found. -/
theorem resolution_after_scale_sets_gone_witness :
    warmFlexScaleSet.vmssFlexNodeNameToVmssID.Load "vmssflex1000009" = none ∧
    (getNodeVmssFlexID goneCloud
      (vmssFlexCacheGet goneCloud warmFlexScaleSet goneCloud.VmssFlexKey
        .CacheReadTypeForceRefresh).1 "vmssflex1000009").2 = .err .InstanceNotFound :=
  ⟨by decide,
    (resolution_after_scale_sets_gone goneCloud warmFlexScaleSet goneCloud_gone).2.2.2.1
      "vmssflex1000009" (by decide)⟩

end Provider

namespace Provider

/-! ## C22: the record count decides the answer of GetVMNameByComputerName -/

/-- C22, as amended: for every response that `SendQuery` returns without error and with a record
count that is not negative, `GetVMNameByComputerName` returns a VM name without error only when the record
count is exactly one, and the name is the string under "name" in the first data row; an absent
or zero record count yields the error "no matching virtual machine found" and a record count
greater than one yields the distinct error "more than one matching virtual machine found", both
with the empty name. -/
theorem GetVMNameByComputerName_by_record_count (c : Client) (env : QueryEnv)
    (resourceGroupName computerName : String) (result : QueryResponse)
    (haccept : env.TryAccept = true) (hthrottle : ¬ env.now < c.RetryAfterReader)
    (hquery : env.SendQuery c.subscriptionID (vmGetQuery computerName resourceGroupName)
      = .ok result)
    (hcount : ∀ n, result.TotalRecords = some n → 0 ≤ n) :
    (∀ name, (GetVMNameByComputerName c env resourceGroupName computerName).2
        = .returned (name, none) →
      result.TotalRecords = some 1 ∧
      ∃ fields rest, result.Data = .array (.object fields :: rest) ∧
        JSONValue.field "name" fields = .string name) ∧
    (result.TotalRecords = none ∨ result.TotalRecords = some 0 →
      (GetVMNameByComputerName c env resourceGroupName computerName).2
        = .returned ("",
            some (NewErrorOrNil true (.other "no matching virtual machine found")))) ∧
    (∀ n, result.TotalRecords = some n → 1 < n →
      (GetVMNameByComputerName c env resourceGroupName computerName).2
        = .returned ("",
            some (NewErrorOrNil true (.other "more than one matching virtual machine found")))) ∧
    NewErrorOrNil true (.other "no matching virtual machine found")
      ≠ NewErrorOrNil true (.other "more than one matching virtual machine found") := by
  unfold GetVMNameByComputerName
  simp only [haccept, Bool.true_eq_false, if_false, hthrottle, hquery]
  refine ⟨?_, ?_, ?_, by decide⟩
  · intro name h
    cases ht : result.TotalRecords with
    | none => simp [ht] at h
    | some n =>
      simp only [ht] at h
      by_cases h0 : n = 0
      · simp [h0] at h
      · by_cases h1 : 1 < n
        · simp [h0, h1] at h
        · simp only [h0, h1, if_false] at h
          have hn : n = 1 := by
            have := hcount n ht
            omega
          subst hn
          refine ⟨rfl, ?_⟩
          cases hd : result.Data with
          | array items =>
            cases items with
            | nil => simp [hd] at h
            | cons data rest =>
              cases data with
              | object fields =>
                simp only [hd] at h
                cases hf : JSONValue.field "name" fields with
                | string s =>
                  simp only [hf, Returned.returned.injEq, Prod.mk.injEq, and_true] at h
                  subst h
                  exact ⟨fields, rest, rfl, hf⟩
                | null => simp [hf] at h
                | bool b => simp [hf] at h
                | number k => simp [hf] at h
                | array l => simp [hf] at h
                | object l => simp [hf] at h
              | null => simp [hd] at h
              | bool b => simp [hd] at h
              | number k => simp [hd] at h
              | string s => simp [hd] at h
              | array l => simp [hd] at h
          | null => simp [hd] at h
          | bool b => simp [hd] at h
          | number k => simp [hd] at h
          | string s => simp [hd] at h
          | object l => simp [hd] at h
  · rintro (h | h)
    · simp only [h]
    · simp only [h, if_true]
  · intro n hn h1
    have h0 : n ≠ 0 := by omega
    simp only [hn, h0, h1, if_false, if_true]

/-- C22, witness: the response `oneRecord` gives the name "testvm1". -/
theorem GetVMNameByComputerName_by_record_count_witness :
    (GetVMNameByComputerName testClient (answering oneRecord) "rg" "vmssflex1000001").2
      = .returned ("testvm1", none) ∧
    oneRecord.TotalRecords = some 1 :=
  ⟨by decide,
    ((GetVMNameByComputerName_by_record_count testClient (answering oneRecord) "rg"
      "vmssflex1000001" oneRecord rfl (by decide) rfl
      (fun n h => by
        have h1 : n = 1 := (Option.some.inj h).symm
        omega)).1 "testvm1" (by decide)).1⟩

/-- C22, counterexample: the response `minusOneRecord` arrives without error and announces
minus one record; the count is neither absent, nor zero, nor greater than one, and
`GetVMNameByComputerName` returns the name "testvm1" of the first row without error, although
the record count is not one. -/
theorem negative_record_count_returns_name :
    minusOneRecord.TotalRecords = some (-1) ∧ minusOneRecord.TotalRecords ≠ some 1 ∧
    (answering minusOneRecord).SendQuery testClient.subscriptionID
      (vmGetQuery "vmssflex1000001" "rg") = .ok minusOneRecord ∧
    (GetVMNameByComputerName testClient (answering minusOneRecord) "rg" "vmssflex1000001").2
      = .returned ("testvm1", none) :=
  ⟨rfl, by decide, rfl, by decide⟩

end Provider

namespace Provider

/-! ## C29: GetVMNameByComputerName on malformed responses -/

/-- C29, the code at the failing inputs: on a response with a record count of one whose data
is an empty list, is not a list, or whose first row has no string under "name",
`GetVMNameByComputerName` returns neither a name nor an error: the index expression or a type
assertion panics. -/
theorem GetVMNameByComputerName_panics_on_malformed_data :
    (GetVMNameByComputerName testClient (answering oneRecordNoRow) "rg" "vmssflex1000001").2
      = .panic "index out of range [0] with length 0" ∧
    (GetVMNameByComputerName testClient (answering oneRecordAsTable) "rg" "vmssflex1000001").2
      = .panic "interface conversion: interface \x7b\x7d is not []interface \x7b\x7d" ∧
    (GetVMNameByComputerName testClient (answering oneRecordNoName) "rg" "vmssflex1000001").2
      = .panic "interface conversion: interface \x7b\x7d is not string" := by
  decide

end Provider

namespace Provider

/-! ## C23: the case of node names -/

/-- Lower-casing a character twice is lower-casing it once. -/
theorem toLower_toLower (c : Char) : c.toLower.toLower = c.toLower := by
  by_cases h : c.toNat ≥ 65 ∧ c.toNat ≤ 90
  · have hv : ∃ n : Nat, n < 26 ∧ c = Char.ofNat (65 + n) := by
      refine ⟨c.toNat - 65, ?_, ?_⟩
      · omega
      · rw [Nat.add_sub_cancel' h.1]
        exact (Char.ofNat_toNat c).symm
    obtain ⟨n, hn, rfl⟩ := hv
    interval_cases n <;> decide
  · have : c.toLower = c := by
      unfold Char.toLower
      simp only [h, if_false]
    rw [this, this]

/-- The function `strings.ToLower` is idempotent. -/
theorem ToLower_ToLower (s : String) : ToLower (ToLower s) = ToLower s := by
  simp only [ToLower, List.map_map]
  congr 1
  apply List.map_congr_left
  intro c _
  exact toLower_toLower c

/-- No step of the refresh machinery puts a key that is not lower-case into the indices keyed
by node name. -/
theorem Preserved.lowerCaseKeys (w : Cloud) :
    Preserved w (fun _ => True) (fun s => s.LowerCaseKeys) where
  record := fun _ _ h => h
  keepVmssFlexCache := fun _ _ _ h1 => h1
  setVmssFlexCache := fun _ _ _ _ _ h1 _ _ => h1
  keepVmssFlexVMCache := fun _ _ _ h1 => h1
  setVmssFlexVMCache := fun _ _ _ _ _ h1 _ _ => h1
  absorb := by
    intro fs vm _ h
    cases hname : vm.Name with
    | none => rw [cacheVirtualMachine_fst_of_none fs (Or.inl hname)]; exact h
    | some name =>
      cases hnode : vm.nodeName with
      | none => rw [cacheVirtualMachine_fst_of_none fs (Or.inr hnode)]; exact h
      | some n =>
        obtain ⟨p, os, cn, _, _, _, hcn⟩ := VirtualMachine.nodeName_eq_some hnode
        have hlow : ToLower n = n := by rw [← hcn]; exact ToLower_ToLower cn
        rw [cacheVirtualMachine_eq fs hname hnode]
        constructor
        · intro k hk
          by_cases hkn : k = n
          · rw [hkn]; exact hlow
          · exact h.1 k (by
              simp only [SyncMap.Load_Store_ne _ _ hkn] at hk
              exact hk)
        · intro k hk
          by_cases hkn : k = n
          · rw [hkn]; exact hlow
          · refine h.2 k ?_
            cases hid : vm.vmssID with
            | none => simp only [hid] at hk; exact hk
            | some id =>
              simp only [hid, SyncMap.Load_Store_ne _ _ hkn] at hk
              exact hk

/-- An identifier that `getNodeVmssFlexID` returns is in the index when the call returns. -/
theorem getNodeVmssFlexID_ok_indexed (w : Cloud) (fs : FlexScaleSet) (nodeName id : String)
    (h : (getNodeVmssFlexID w fs nodeName).2 = .ok id) :
    (getNodeVmssFlexID w fs nodeName).1.vmssFlexNodeNameToVmssID.Load nodeName = some id := by
  unfold getNodeVmssFlexID at h ⊢
  simp only at h ⊢
  show (_ : FlexScaleSet).vmssFlexNodeNameToVmssID.Load nodeName = some id
  cases hl : (fs.record (.LockEntry w.GetNodeVmssFlexIDLockKey)).vmssFlexNodeNameToVmssID.Load
      nodeName with
  | some c =>
    simp only [hl, Outcome.ok.injEq] at h ⊢
    rw [← h]; exact hl
  | none =>
    simp only [hl] at h ⊢
    have g1 := getter_ok w (fs.record (.LockEntry w.GetNodeVmssFlexIDLockKey)) nodeName
      .CacheReadTypeDefault
    rcases hc : getNodeVmssFlexID.getter w (fs.record (.LockEntry w.GetNodeVmssFlexIDLockKey))
      nodeName .CacheReadTypeDefault with ⟨fs1, r⟩
    rw [hc] at h g1
    cases r with
    | ok id1 =>
      simp only [Outcome.ok.injEq] at h
      exact g1 id (by rw [h])
    | panic m => simp at h
    | err e =>
      simp only at h ⊢
      by_cases he : e.isInstanceNotFound = true
      · simp only [he, if_true] at h ⊢
        exact getter_ok w fs1 nodeName .CacheReadTypeForceRefresh id h
      · simp [he] at h

/-- C23, counterexample: in `warmFlexScaleSet` the node "vmssflex1000001" is resolved, and its
scale set is still listed by `testCloud`. Under the name "VMSSFLEX1000001", whose lower-case
form it is, `getNodeVmssFlexID` and `getVmssFlexVM` end with not-found, while under the
lower-case name they return the scale-set identifier and the descriptor. -/
theorem upper_case_node_name_not_resolved :
    ToLower "VMSSFLEX1000001" = "vmssflex1000001" ∧
    (getNodeVmssFlexID testCloud warmFlexScaleSet "VMSSFLEX1000001").2
      = .err .InstanceNotFound ∧
    (getNodeVmssFlexID testCloud warmFlexScaleSet "vmssflex1000001").2
      = .ok testVmssFlex1ID ∧
    (getVmssFlexVM testCloud warmFlexScaleSet "VMSSFLEX1000001" .CacheReadTypeDefault).2
      = .err .InstanceNotFound ∧
    (getVmssFlexVM testCloud warmFlexScaleSet "vmssflex1000001" .CacheReadTypeDefault).2
      = .ok testVM1WithInstanceView := by
  decide

/-- C23, as amended: node names are matched exactly against the lower-cased computer names
under which descriptors are indexed. In every state whose node-name keys are lower-case (the
empty indices, and every state the operations lead to from such a state),
`getNodeVmssFlexID(N)` returns an identifier and `getVmssFlexVM(N)` returns a descriptor only
when `N` is its own lower-case form; and a descriptor absorbed with a computer name `C`, in
whatever case, is resolved under the lower-case form of `C`. -/
theorem node_names_matched_exactly (w : Cloud) (fs : FlexScaleSet) (nodeName : String)
    (hkeys : fs.LowerCaseKeys) :
    (∀ id, (getNodeVmssFlexID w fs nodeName).2 = .ok id → ToLower nodeName = nodeName) ∧
    (∀ crt vm, (getVmssFlexVM w fs nodeName crt).2 = .ok vm → ToLower nodeName = nodeName) ∧
    (getNodeVmssFlexID w fs nodeName).1.LowerCaseKeys ∧
    (∀ crt, (getVmssFlexVM w fs nodeName crt).1.LowerCaseKeys) ∧
    (∀ vm name n id, vm.Name = some name → vm.nodeName = some n → vm.vmssID = some id →
      ToLower n = n ∧ (getNodeVmssFlexID w (cacheVirtualMachine fs vm).1 n).2 = .ok id) := by
  have hpres := Preserved.lowerCaseKeys w
  have hafter := hpres.after_getNodeVmssFlexID (listsOnly_true w) fs nodeName hkeys
  have hid : ∀ id, (getNodeVmssFlexID w fs nodeName).2 = .ok id →
      ToLower nodeName = nodeName := by
    intro id h
    have hidx := getNodeVmssFlexID_ok_indexed w fs nodeName id h
    exact hafter.2 nodeName (by rw [hidx]; exact fun hc => nomatch hc)
  refine ⟨hid, ?_, hafter, fun crt => hpres.after_getVmssFlexVM fs nodeName crt hkeys, ?_⟩
  · intro crt vm h
    cases hv : fs.vmssFlexNodeNameToVMName.Load nodeName with
    | some vmName => exact hkeys.1 nodeName (by rw [hv]; exact fun hc => nomatch hc)
    | none =>
      unfold getVmssFlexVM at h
      simp only [hv] at h
      rcases hg : getNodeVmssFlexID w fs nodeName with ⟨fs1, r⟩
      rw [hg] at h
      cases r with
      | err e => simp at h
      | panic m => simp at h
      | ok id => exact hid id (by rw [hg])
  · intro vm name n id hname hnode hvmss
    obtain ⟨p, os, cn, _, _, _, hcn⟩ := VirtualMachine.nodeName_eq_some hnode
    refine ⟨by rw [← hcn]; exact ToLower_ToLower cn, ?_⟩
    rw [getNodeVmssFlexID_of_indexed w _ n id]
    rw [cacheVirtualMachine_eq fs hname hnode]
    simp only [hvmss, SyncMap.Load_Store_self]

/-- C23, witness: from the empty indices the lower-case node name "vmssflex1000001" is
resolved against `testCloud`. -/
theorem node_names_matched_exactly_witness :
    emptyFlexScaleSet.LowerCaseKeys ∧
    (getNodeVmssFlexID testCloud emptyFlexScaleSet "vmssflex1000001").2 = .ok testVmssFlex1ID ∧
    ToLower "vmssflex1000001" = "vmssflex1000001" :=
  have hkeys : emptyFlexScaleSet.LowerCaseKeys :=
    ⟨fun _ h => absurd rfl h, fun _ h => absurd rfl h⟩
  ⟨hkeys, by decide,
    (node_names_matched_exactly testCloud emptyFlexScaleSet "vmssflex1000001" hkeys).1
      testVmssFlex1ID (by decide)⟩

end Provider

namespace Provider

/-! ## C24: the lock operations of the resolvers -/

variable {w : Cloud} {P : FlexScaleSet → Prop}

theorem PreservedByCalls.calls_cacheListedVMs (hP : PreservedByCalls P)
    (vms : List VirtualMachine) :
    ∀ (fs : FlexScaleSet) (localCache : SyncMap VirtualMachine),
      P fs → P (cacheListedVMs vms fs localCache).1 := by
  induction vms with
  | nil => intro fs lc h; exact h
  | cons vm rest ih =>
    intro fs lc h
    unfold cacheListedVMs
    cases hp : vm.VirtualMachineProperties with
    | none => exact h
    | some p =>
      have h1 : P (cacheVirtualMachine fs vm).1 := hP.absorb fs vm h
      rcases hc : cacheVirtualMachine fs vm with ⟨fs1, r⟩
      rw [hc] at h1
      cases r with
      | ok u => exact ih _ _ h1
      | err e => exact h1
      | panic m => exact h1

theorem PreservedByCalls.calls_vmssFlexVMCacheGetter (hP : PreservedByCalls P) (w : Cloud)
    (fs : FlexScaleSet) (key : String) (h : P fs) : P (vmssFlexVMCacheGetter w fs key).1 := by
  unfold vmssFlexVMCacheGetter
  dsimp only
  have h1 := hP.record fs (.ListVmssFlexVMsWithoutInstanceView key) rfl h
  cases hl : w.ListVmssFlexVMsWithoutInstanceView key with
  | error rerr => exact h1
  | ok vms =>
    dsimp only
    have h2 := hP.calls_cacheListedVMs vms _ SyncMap.empty h1
    rcases hc : cacheListedVMs vms (fs.record (.ListVmssFlexVMsWithoutInstanceView key))
      SyncMap.empty with ⟨fs2, r⟩
    rw [hc] at h2
    cases r with
    | err e => exact h2
    | panic m => exact h2
    | ok lc =>
      have h3 := hP.record fs2 (.ListVmssFlexVMsWithOnlyInstanceView key) rfl h2
      dsimp only
      cases hv : w.ListVmssFlexVMsWithOnlyInstanceView key with
      | error rerr => exact h3
      | ok views => exact h3

theorem PreservedByCalls.calls_vmssFlexVMCacheGet (hP : PreservedByCalls P) (w : Cloud)
    (fs : FlexScaleSet) (key : String) (crt : AzureCacheReadType) (h : P fs) :
    P (vmssFlexVMCacheGet w fs key crt).1 := by
  unfold vmssFlexVMCacheGet
  have hg := hP.calls_vmssFlexVMCacheGetter w fs key h
  rcases TimedCache.Get_cases fs.vmssFlexVMCache fs.DisableAPICallCache fs.now
    (vmssFlexVMCacheGetter w) fs key crt with ⟨h1, h2⟩ | ⟨h1, h2⟩ | ⟨hd, data, h0, h1, h2, -⟩
  all_goals
    rcases hget : fs.vmssFlexVMCache.Get fs.DisableAPICallCache fs.now
      (vmssFlexVMCacheGetter w) fs key crt with ⟨fs1, t, r⟩
    rw [hget] at h1 h2
    simp only at h1 h2
    subst h1 h2
  · exact hP.setVmssFlexVMCache _ _ h
  · exact hP.setVmssFlexVMCache _ _ hg
  · exact hP.setVmssFlexVMCache _ _ hg

theorem PreservedByCalls.calls_listScaleSetsOfGroups (hP : PreservedByCalls P) (w : Cloud)
    (groups : List String) :
    ∀ (fs : FlexScaleSet) (localCache : SyncMap VirtualMachineScaleSet),
      P fs → P (listScaleSetsOfGroups w groups fs localCache).1 := by
  induction groups with
  | nil => intro fs lc h; exact h
  | cons rg rest ih =>
    intro fs lc h
    unfold listScaleSetsOfGroups
    have h1 := hP.record fs (.ListScaleSets rg) rfl h
    cases hl : w.ListScaleSets rg with
    | error rerr =>
      by_cases hnf : rerr.IsNotFound
      · simp only [hnf, if_true]; exact ih _ _ h1
      · simp only [hnf]; exact h1
    | ok all =>
      simp only
      cases cacheScaleSets lc all with
      | ok lc1 => exact ih _ _ h1
      | err e => exact h1
      | panic m => exact h1

theorem PreservedByCalls.calls_vmssFlexCacheGetter (hP : PreservedByCalls P) (w : Cloud)
    (fs : FlexScaleSet) (key : String) (h : P fs) : P (vmssFlexCacheGetter w fs key).1 := by
  unfold vmssFlexCacheGetter
  have h1 := hP.record fs .GetResourceGroups rfl h
  cases w.GetResourceGroups with
  | ok groups => exact hP.calls_listScaleSetsOfGroups w groups _ _ h1
  | err e => exact h1
  | panic m => exact h1

theorem PreservedByCalls.calls_vmssFlexCacheGet (hP : PreservedByCalls P) (w : Cloud)
    (fs : FlexScaleSet) (key : String) (crt : AzureCacheReadType) (h : P fs) :
    P (vmssFlexCacheGet w fs key crt).1 := by
  unfold vmssFlexCacheGet
  have hg := hP.calls_vmssFlexCacheGetter w fs key h
  rcases TimedCache.Get_cases fs.vmssFlexCache fs.DisableAPICallCache fs.now
    (vmssFlexCacheGetter w) fs key crt with ⟨h1, h2⟩ | ⟨h1, h2⟩ | ⟨hd, data, h0, h1, h2, -⟩
  all_goals
    rcases hget : fs.vmssFlexCache.Get fs.DisableAPICallCache fs.now
      (vmssFlexCacheGetter w) fs key crt with ⟨fs1, t, r⟩
    rw [hget] at h1 h2
    simp only at h1 h2
    subst h1 h2
  · exact hP.setVmssFlexCache _ _ h
  · exact hP.setVmssFlexCache _ _ hg
  · exact hP.setVmssFlexCache _ _ hg

theorem PreservedByCalls.calls_probeVmssFlexIDs (hP : PreservedByCalls P) (w : Cloud)
    (nodeName : String) (ids : List String) :
    ∀ fs : FlexScaleSet, P fs → P (probeVmssFlexIDs w nodeName ids fs).1 := by
  induction ids with
  | nil => intro fs h; exact h
  | cons id rest ih =>
    intro fs h
    unfold probeVmssFlexIDs
    have h1 := hP.calls_vmssFlexVMCacheGet w fs id .CacheReadTypeForceRefresh h
    rcases hc : vmssFlexVMCacheGet w fs id .CacheReadTypeForceRefresh with ⟨fs1, r⟩
    rw [hc] at h1
    cases r with
    | err e => exact h1
    | panic m => exact h1
    | ok d =>
      simp only
      cases fs1.vmssFlexNodeNameToVmssID.Load nodeName with
      | some c => exact h1
      | none => exact ih _ h1

theorem PreservedByCalls.calls_getter (hP : PreservedByCalls P) (w : Cloud)
    (fs : FlexScaleSet) (nodeName : String) (crt : AzureCacheReadType) (h : P fs) :
    P (getNodeVmssFlexID.getter w fs nodeName crt).1 := by
  unfold getNodeVmssFlexID.getter
  have h1 := hP.calls_vmssFlexCacheGet w fs w.VmssFlexKey crt h
  rcases hc : vmssFlexCacheGet w fs w.VmssFlexKey crt with ⟨fs1, r⟩
  rw [hc] at h1
  cases r with
  | err e => exact h1
  | panic m => exact h1
  | ok d =>
    cases d with
    | none => exact h1
    | some coll =>
      simp only
      cases candidateVmssFlexIDs nodeName coll.Range [] with
      | err e => exact h1
      | panic m => exact h1
      | ok ids => exact hP.calls_probeVmssFlexIDs w nodeName ids fs1 h1

theorem PreservedByCalls.calls_getVmssFlexVMByVMName (hP : PreservedByCalls P) (w : Cloud)
    (fs : FlexScaleSet) (vmName : String) (crt : AzureCacheReadType) (h : P fs) :
    P (getVmssFlexVMByVMName w fs vmName crt).1 := by
  unfold getVmssFlexVMByVMName
  have h1 := hP.record fs (.getVirtualMachine vmName crt) rfl h
  cases w.getVirtualMachine vmName crt with
  | err e => exact h1
  | panic m => exact h1
  | ok vm =>
    simp only
    have h2 := hP.absorb _ vm h1
    rcases hc : cacheVirtualMachine (fs.record (.getVirtualMachine vmName crt)) vm with ⟨fs2, r⟩
    rw [hc] at h2
    cases r <;> exact h2

theorem PreservedByCalls.calls_nameGetter (hP : PreservedByCalls P) (w : Cloud)
    (fs : FlexScaleSet) (vmName : String) (crt : AzureCacheReadType) (h : P fs) :
    P (getNodeNameByVMName.getter w fs vmName crt).1 := by
  unfold getNodeNameByVMName.getter
  have h1 := hP.calls_getVmssFlexVMByVMName w fs vmName crt h
  rcases hc : getVmssFlexVMByVMName w fs vmName crt with ⟨fs1, r⟩
  rw [hc] at h1
  cases r with
  | err e => exact h1
  | panic m => exact h1
  | ok vm =>
    simp only
    cases vm.VirtualMachineProperties with
    | none => exact h1
    | some p =>
      simp only
      cases p.OsProfile with
      | none => exact h1
      | some os =>
        simp only
        cases os.ComputerName with
        | none => exact h1
        | some cn => exact h1

theorem lockEvents_append (a b : List Event) :
    lockEvents (a ++ b) = lockEvents a ++ lockEvents b := by
  simp [lockEvents]

/-- Continuing a trace with given lock operations is kept by the steps below the lock
operations. -/
theorem PreservedByCalls.continues (before locks : List Event) :
    PreservedByCalls (fun s => s.Continues before locks) where
  record := by
    rintro fs e he ⟨events, h1, h2⟩
    refine ⟨events ++ [e], ?_, ?_⟩
    · show fs.trace ++ [e] = before ++ (events ++ [e])
      rw [h1, List.append_assoc]
    · rw [lockEvents_append, h2]
      simp [lockEvents, he]
  absorb := by
    rintro fs vm ⟨events, h1, h2⟩
    exact ⟨events, (cacheVirtualMachine_frame fs vm).2.2.2.2.trans h1, h2⟩
  setVmssFlexCache := fun _ _ h => h
  setVmssFlexVMCache := fun _ _ h => h

/-- Recording a lock operation continues the trace with it. -/
theorem Continues_record_lock (fs : FlexScaleSet) (before locks : List Event) (e : Event)
    (he : e.isRemoteCall = false) (h : fs.Continues before locks) :
    (fs.record e).Continues before (locks ++ [e]) := by
  obtain ⟨events, h1, h2⟩ := h
  refine ⟨events ++ [e], ?_, ?_⟩
  · show fs.trace ++ [e] = before ++ (events ++ [e])
    rw [h1, List.append_assoc]
  · rw [lockEvents_append, h2]
    simp [lockEvents, he]

/-- The method `getNodeVmssFlexID` takes the lookup key and gives it back, whatever its
outcome. -/
theorem getNodeVmssFlexID_continues (w : Cloud) (fs : FlexScaleSet) (nodeName : String)
    (before locks : List Event) (h : fs.Continues before locks) :
    (getNodeVmssFlexID w fs nodeName).1.Continues before
      (locks ++ [.LockEntry w.GetNodeVmssFlexIDLockKey,
        .UnlockEntry w.GetNodeVmssFlexIDLockKey])  := by
  have hP := PreservedByCalls.continues before (locks ++ [.LockEntry w.GetNodeVmssFlexIDLockKey])
  have h0 := Continues_record_lock fs before locks (.LockEntry w.GetNodeVmssFlexIDLockKey) rfl h
  have key : ∀ s : FlexScaleSet,
      s.Continues before (locks ++ [.LockEntry w.GetNodeVmssFlexIDLockKey]) →
      (s.record (.UnlockEntry w.GetNodeVmssFlexIDLockKey)).Continues before
        (locks ++ [.LockEntry w.GetNodeVmssFlexIDLockKey,
          .UnlockEntry w.GetNodeVmssFlexIDLockKey]) := by
    intro s hs
    have hfin := Continues_record_lock s before _ (.UnlockEntry w.GetNodeVmssFlexIDLockKey)
      rfl hs
    rw [List.append_assoc] at hfin
    exact hfin
  unfold getNodeVmssFlexID
  dsimp only
  refine key _ ?_
  cases (fs.record (.LockEntry w.GetNodeVmssFlexIDLockKey)).vmssFlexNodeNameToVmssID.Load nodeName with
  | some c => exact h0
  | none =>
    dsimp only
    have h1 := hP.calls_getter w _ nodeName .CacheReadTypeDefault h0
    rcases hc : getNodeVmssFlexID.getter w (fs.record (.LockEntry w.GetNodeVmssFlexIDLockKey))
      nodeName .CacheReadTypeDefault with ⟨fs1, r⟩
    rw [hc] at h1
    cases r with
    | ok id => exact h1
    | panic m => exact h1
    | err e =>
      dsimp only
      by_cases he : e.isInstanceNotFound = true
      · simp only [he, if_true]
        exact hP.calls_getter w fs1 nodeName .CacheReadTypeForceRefresh h1
      · simp only [he]
        exact h1

/-- The method `getNodeNameByVMName` takes the lookup key and gives it back, whatever its
outcome. -/
theorem getNodeNameByVMName_continues (w : Cloud) (fs : FlexScaleSet) (vmName : String)
    (before locks : List Event) (h : fs.Continues before locks) :
    (getNodeNameByVMName w fs vmName).1.Continues before
      (locks ++ [.LockEntry w.GetNodeVmssFlexIDLockKey,
        .UnlockEntry w.GetNodeVmssFlexIDLockKey])  := by
  have hP := PreservedByCalls.continues before (locks ++ [.LockEntry w.GetNodeVmssFlexIDLockKey])
  have h0 := Continues_record_lock fs before locks (.LockEntry w.GetNodeVmssFlexIDLockKey) rfl h
  have key : ∀ s : FlexScaleSet,
      s.Continues before (locks ++ [.LockEntry w.GetNodeVmssFlexIDLockKey]) →
      (s.record (.UnlockEntry w.GetNodeVmssFlexIDLockKey)).Continues before
        (locks ++ [.LockEntry w.GetNodeVmssFlexIDLockKey,
          .UnlockEntry w.GetNodeVmssFlexIDLockKey]) := by
    intro s hs
    have hfin := Continues_record_lock s before _ (.UnlockEntry w.GetNodeVmssFlexIDLockKey)
      rfl hs
    rw [List.append_assoc] at hfin
    exact hfin
  unfold getNodeNameByVMName
  dsimp only
  refine key _ ?_
  cases (fs.record (.LockEntry w.GetNodeVmssFlexIDLockKey)).vmssFlexVMNameToNodeName.Load vmName with
  | some c => exact h0
  | none =>
    dsimp only
    have h1 := hP.calls_nameGetter w _ vmName .CacheReadTypeDefault h0
    rcases hc : getNodeNameByVMName.getter w (fs.record (.LockEntry w.GetNodeVmssFlexIDLockKey))
      vmName .CacheReadTypeDefault with ⟨fs1, r⟩
    rw [hc] at h1
    cases r with
    | ok id => exact h1
    | panic m => exact h1
    | err e =>
      dsimp only
      by_cases he : e.isInstanceNotFound = true
      · simp only [he, if_true]
        exact hP.calls_nameGetter w fs1 vmName .CacheReadTypeForceRefresh h1
      · simp only [he]
        exact h1

/-- The method `DeleteCacheForNode` takes no key, or the lookup key only, or the lookup key and,
after giving it back, the key of the scale set. -/
theorem DeleteCacheForNode_continues (w : Cloud) (fs : FlexScaleSet) (nodeName : String)
    (before locks : List Event) (h : fs.Continues before locks) :
    ∃ taken, (DeleteCacheForNode w fs nodeName).1.Continues before (locks ++ taken) ∧
      (taken = [] ∨
        taken = [.LockEntry w.GetNodeVmssFlexIDLockKey,
          .UnlockEntry w.GetNodeVmssFlexIDLockKey] ∨
        ∃ vmssFlexID, (getNodeVmssFlexID w fs nodeName).2 = .ok vmssFlexID ∧
          taken = [.LockEntry w.GetNodeVmssFlexIDLockKey,
            .UnlockEntry w.GetNodeVmssFlexIDLockKey, .LockEntry vmssFlexID,
            .UnlockEntry vmssFlexID]) := by
  unfold DeleteCacheForNode
  cases hd : fs.DisableAPICallCache with
  | true =>
    simp only [if_true]
    exact ⟨[], by rw [List.append_nil]; exact h, Or.inl rfl⟩
  | false =>
    simp only [Bool.false_eq_true, if_false]
    have h1 := getNodeVmssFlexID_continues w fs nodeName before locks h
    rcases hg : getNodeVmssFlexID w fs nodeName with ⟨fs1, r⟩
    rw [hg] at h1
    cases r with
    | err e => exact ⟨_, h1, Or.inr (Or.inl rfl)⟩
    | panic m => exact ⟨_, h1, Or.inr (Or.inl rfl)⟩
    | ok id =>
      refine ⟨[.LockEntry w.GetNodeVmssFlexIDLockKey, .UnlockEntry w.GetNodeVmssFlexIDLockKey,
        .LockEntry id, .UnlockEntry id], ?_, Or.inr (Or.inr ⟨id, rfl, rfl⟩)⟩
      dsimp only
      have h2 := Continues_record_lock fs1 before _ (.LockEntry id) rfl h1
      have hP := PreservedByCalls.continues before
        ((locks ++ [.LockEntry w.GetNodeVmssFlexIDLockKey,
          .UnlockEntry w.GetNodeVmssFlexIDLockKey]) ++ [.LockEntry id])
      have h3 := hP.calls_vmssFlexVMCacheGet w _ id .CacheReadTypeNoRefresh h2
      have key : ∀ s : FlexScaleSet,
          s.Continues before ((locks ++ [.LockEntry w.GetNodeVmssFlexIDLockKey,
            .UnlockEntry w.GetNodeVmssFlexIDLockKey]) ++ [.LockEntry id]) →
          (s.record (.UnlockEntry id)).Continues before
            (locks ++ [.LockEntry w.GetNodeVmssFlexIDLockKey,
              .UnlockEntry w.GetNodeVmssFlexIDLockKey, .LockEntry id, .UnlockEntry id]) := by
        intro s hs
        have hfin := Continues_record_lock s before _ (.UnlockEntry id) rfl hs
        simp only [List.append_assoc, List.cons_append, List.nil_append] at hfin
        exact hfin
      rcases hc : vmssFlexVMCacheGet w (fs1.record (.LockEntry id)) id .CacheReadTypeNoRefresh
        with ⟨fs3, r3⟩
      rw [hc] at h3
      cases r3 with
      | err e => exact key _ h3
      | panic m => exact key _ h3
      | ok cached =>
        dsimp only
        refine key _ ?_
        obtain ⟨events, e1, e2⟩ := h3
        refine ⟨events, ?_, e2⟩
        rw [(deleteNodeFromIndices_frame _ nodeName).2.2.2]
        cases cached with
        | none => exact e1
        | some vmMap => exact e1

/-- The keys held after a run of events are those held after its lock operations. -/
theorem heldKeys_lockEvents (events : List Event) :
    ∀ held, heldKeys events held = heldKeys (lockEvents events) held := by
  induction events with
  | nil => intro held; rfl
  | cons e rest ih =>
    intro held
    cases e <;> simp [heldKeys, lockEvents, Event.isRemoteCall, holdAfter] <;> exact ih _

/-- A run that holds keys singly starts with at most one key held. -/
theorem heldSingly_start (events : List Event) (held : List String)
    (h : heldSingly events held = true) : held.length ≤ 1 := by
  cases events with
  | nil => simpa [heldSingly] using h
  | cons e rest =>
    simp only [heldSingly, Bool.and_eq_true, decide_eq_true_eq] at h
    exact h.1

/-- Whether keys are held singly is decided by the lock operations of a run. -/
theorem heldSingly_lockEvents (events : List Event) :
    ∀ held, heldSingly events held = heldSingly (lockEvents events) held := by
  induction events with
  | nil => intro held; rfl
  | cons e rest ih =>
    intro held
    have hremote : e.isRemoteCall = true → holdAfter e held = held := by
      intro he
      cases e <;> first | rfl | cases he
    cases he : e.isRemoteCall with
    | true =>
      have hl : lockEvents (e :: rest) = lockEvents rest := by
        simp [lockEvents, he]
      rw [hl, ← ih held]
      simp only [heldSingly, hremote he]
      cases hs : heldSingly rest held with
      | false => simp
      | true => simp [heldSingly_start rest held hs]
    | false =>
      have hl : lockEvents (e :: rest) = e :: lockEvents rest := by
        simp [lockEvents, he]
      rw [hl]
      simp only [heldSingly, ih]

/-- A key that is taken and given back, once or twice in a row, is held singly and is not held
at the end. -/
theorem heldSingly_pairs (key key2 : String) :
    (heldSingly [.LockEntry key, .UnlockEntry key] [] = true ∧
      heldKeys [.LockEntry key, .UnlockEntry key] [] = []) ∧
    (heldSingly [.LockEntry key, .UnlockEntry key, .LockEntry key2, .UnlockEntry key2] []
        = true ∧
      heldKeys [.LockEntry key, .UnlockEntry key, .LockEntry key2, .UnlockEntry key2] [] = []) := by
  simp [heldSingly, heldKeys, holdAfter]

/-- C24: per-key locks are taken singly and always given back. The events that
`getNodeNameByVMName`, `getNodeVmssFlexID` and `DeleteCacheForNode` add to the trace, whatever
their outcome, hold at most one key at every step and no key at the end. The two lookups take
and give back the lookup key; `DeleteCacheForNode` takes no key (caching disabled), or the
lookup key only (the resolution failed), or the lookup key and, after it was given back, the
key of the scale set. -/
theorem locks_taken_singly (w : Cloud) (fs : FlexScaleSet) (name : String) :
    (∃ events, (getNodeNameByVMName w fs name).1.trace = fs.trace ++ events ∧
      lockEvents events = [.LockEntry w.GetNodeVmssFlexIDLockKey,
        .UnlockEntry w.GetNodeVmssFlexIDLockKey] ∧
      heldSingly events [] = true ∧ heldKeys events [] = []) ∧
    (∃ events, (getNodeVmssFlexID w fs name).1.trace = fs.trace ++ events ∧
      lockEvents events = [.LockEntry w.GetNodeVmssFlexIDLockKey,
        .UnlockEntry w.GetNodeVmssFlexIDLockKey] ∧
      heldSingly events [] = true ∧ heldKeys events [] = []) ∧
    (∃ events, (DeleteCacheForNode w fs name).1.trace = fs.trace ++ events ∧
      (lockEvents events = [] ∨
        lockEvents events = [.LockEntry w.GetNodeVmssFlexIDLockKey,
          .UnlockEntry w.GetNodeVmssFlexIDLockKey] ∨
        ∃ vmssFlexID, (getNodeVmssFlexID w fs name).2 = .ok vmssFlexID ∧
          lockEvents events = [.LockEntry w.GetNodeVmssFlexIDLockKey,
            .UnlockEntry w.GetNodeVmssFlexIDLockKey, .LockEntry vmssFlexID,
            .UnlockEntry vmssFlexID]) ∧
      heldSingly events [] = true ∧ heldKeys events [] = []) := by
  have hstart : fs.Continues fs.trace [] := ⟨[], (List.append_nil _).symm, rfl⟩
  refine ⟨?_, ?_, ?_⟩
  · obtain ⟨events, h1, h2⟩ := getNodeNameByVMName_continues w fs name fs.trace [] hstart
    rw [List.nil_append] at h2
    refine ⟨events, h1, h2, ?_, ?_⟩
    · rw [heldSingly_lockEvents, h2]
      exact (heldSingly_pairs _ "").1.1
    · rw [heldKeys_lockEvents, h2]
      exact (heldSingly_pairs _ "").1.2
  · obtain ⟨events, h1, h2⟩ := getNodeVmssFlexID_continues w fs name fs.trace [] hstart
    rw [List.nil_append] at h2
    refine ⟨events, h1, h2, ?_, ?_⟩
    · rw [heldSingly_lockEvents, h2]
      exact (heldSingly_pairs _ "").1.1
    · rw [heldKeys_lockEvents, h2]
      exact (heldSingly_pairs _ "").1.2
  · obtain ⟨taken, ⟨events, h1, h2⟩, htaken⟩ :=
      DeleteCacheForNode_continues w fs name fs.trace [] hstart
    rw [List.nil_append] at h2
    refine ⟨events, h1, ?_, ?_, ?_⟩
    · rcases htaken with ht | ht | ⟨id, hid, ht⟩
      · exact Or.inl (h2.trans ht)
      · exact Or.inr (Or.inl (h2.trans ht))
      · exact Or.inr (Or.inr ⟨id, hid, h2.trans ht⟩)
    · rw [heldSingly_lockEvents, h2]
      rcases htaken with ht | ht | ⟨id, _, ht⟩
      · rw [ht]; rfl
      · rw [ht]; exact (heldSingly_pairs _ "").1.1
      · rw [ht]; exact (heldSingly_pairs _ id).2.1
    · rw [heldKeys_lockEvents, h2]
      rcases htaken with ht | ht | ⟨id, _, ht⟩
      · rw [ht]; rfl
      · rw [ht]; exact (heldSingly_pairs _ "").1.2
      · rw [ht]; exact (heldSingly_pairs _ id).2.2

/-- C24, on the test fixtures: `DeleteCacheForNode` of a resolved node takes the lookup key,
gives it back, and then takes and gives back the key of the scale set; the failed resolution of
an unlisted node holds the lookup key over its remote calls and gives it back. -/
theorem locks_taken_singly_witness :
    lockEvents (DeleteCacheForNode testCloud warmFlexScaleSet "vmssflex1000001").1.trace
      = lockEvents warmFlexScaleSet.trace ++
        [.LockEntry "k8sGetNodeVmssFlexIDLockKey", .UnlockEntry "k8sGetNodeVmssFlexIDLockKey",
          .LockEntry testVmssFlex1ID, .UnlockEntry testVmssFlex1ID] ∧
    (getNodeVmssFlexID testCloud emptyFlexScaleSet "vmssflex1000009").2
      = .err .InstanceNotFound ∧
    heldSingly (getNodeVmssFlexID testCloud emptyFlexScaleSet "vmssflex1000009").1.trace []
      = true ∧
    heldKeys (getNodeVmssFlexID testCloud emptyFlexScaleSet "vmssflex1000009").1.trace [] = [] ∧
    ∃ events, (getNodeVmssFlexID testCloud emptyFlexScaleSet "vmssflex1000009").1.trace
        = emptyFlexScaleSet.trace ++ events ∧
      heldSingly events [] = true :=
  ⟨by decide, by decide, by decide, by decide,
    match (locks_taken_singly testCloud emptyFlexScaleSet "vmssflex1000009").2.1 with
    | ⟨events, h1, _, h3, _⟩ => ⟨events, h1, h3⟩⟩

end Provider

namespace Provider

/-! ## C30: a scale set is returned under its own identifier -/

theorem cacheScaleSets_keyedByID (all : List VirtualMachineScaleSet) :
    ∀ lc lc1 : SyncMap VirtualMachineScaleSet, KeyedByID lc →
      cacheScaleSets lc all = .ok lc1 → KeyedByID lc1 := by
  induction all with
  | nil =>
    intro lc lc1 h heq
    simp only [cacheScaleSets, Outcome.ok.injEq] at heq
    rw [← heq]; exact h
  | cons ss rest ih =>
    intro lc lc1 h heq
    unfold cacheScaleSets at heq
    cases hid : ss.ID with
    | none => simp only [hid] at heq; exact ih lc lc1 h heq
    | some id =>
      simp only [hid] at heq
      by_cases he : id = ""
      · simp only [he, if_true] at heq; exact ih lc lc1 h heq
      · simp only [he, if_false] at heq
        cases hp : ss.VirtualMachineScaleSetProperties with
        | none => simp [hp] at heq
        | some p =>
          simp only [hp] at heq
          by_cases hm : p.OrchestrationMode = .Flexible
          · simp only [hm, if_true] at heq
            refine ih _ lc1 ?_ heq
            intro k v hk
            rw [SyncMap.Load_Store] at hk
            by_cases hkid : k = id
            · simp only [hkid, if_true, Option.some.injEq] at hk
              subst hk
              subst hkid
              exact ⟨hid, p, hp, hm⟩
            · simp only [hkid, if_false] at hk
              exact h k v hk
          · simp only [hm, if_false] at heq
            exact ih lc lc1 h heq

theorem listScaleSetsOfGroups_keyedByID (w : Cloud) (groups : List String) :
    ∀ (fs fs1 : FlexScaleSet) (lc lc1 : SyncMap VirtualMachineScaleSet), KeyedByID lc →
      listScaleSetsOfGroups w groups fs lc = (fs1, .ok lc1) → KeyedByID lc1 := by
  induction groups with
  | nil =>
    intro fs fs1 lc lc1 h heq
    simp only [listScaleSetsOfGroups, Prod.mk.injEq, Outcome.ok.injEq] at heq
    rw [← heq.2]; exact h
  | cons rg rest ih =>
    intro fs fs1 lc lc1 h heq
    unfold listScaleSetsOfGroups at heq
    cases hl : w.ListScaleSets rg with
    | error rerr =>
      simp only [hl] at heq
      by_cases hnf : rerr.IsNotFound
      · simp only [hnf, if_true] at heq; exact ih _ fs1 lc lc1 h heq
      · simp [hnf] at heq
    | ok all =>
      simp only [hl] at heq
      cases hc : cacheScaleSets lc all with
      | ok lc2 =>
        simp only [hc] at heq
        exact ih _ fs1 lc2 lc1 (cacheScaleSets_keyedByID all lc lc2 h hc) heq
      | err e => simp [hc] at heq
      | panic m => simp [hc] at heq

/-- Every key of a collection that the getter of `newVmssFlexCache` returns is the identifier
of the scale set stored under it, and that scale set is flexible. -/
theorem vmssFlexCacheGetter_keyedByID (w : Cloud) (fs fs1 : FlexScaleSet) (key : String)
    (data : SyncMap VirtualMachineScaleSet) (h : vmssFlexCacheGetter w fs key = (fs1, .ok data)) :
    KeyedByID data := by
  unfold vmssFlexCacheGetter at h
  cases hg : w.GetResourceGroups with
  | ok groups =>
    simp only [hg] at h
    exact listScaleSetsOfGroups_keyedByID w groups _ fs1 SyncMap.empty data
      (fun k v hk => by simp at hk) h
  | err e => simp [hg] at h
  | panic m => simp [hg] at h

theorem Preserved.scaleSetsKeyedByID (w : Cloud) :
    Preserved w (fun _ => True) FlexScaleSet.ScaleSetsKeyedByID where
  record := fun _ _ h => h
  absorb := by
    intro fs vm _ h key coll hc
    rw [(cacheVirtualMachine_frame fs vm).2.2.1] at hc
    exact h key coll hc
  keepVmssFlexCache := fun _ _ h _ => h
  setVmssFlexCache := by
    intro fs fs1 key data h _ _ hg key1 coll hc
    simp only [TimedCache.cached, SyncMap.Load_Store] at hc
    by_cases hk : key1 = key
    · simp only [hk, if_true, Option.some.injEq] at hc
      rw [← hc]
      exact vmssFlexCacheGetter_keyedByID w fs fs1 key data hg
    · simp only [hk, if_false] at hc
      exact h key1 coll hc
  keepVmssFlexVMCache := fun _ _ _ h1 => h1
  setVmssFlexVMCache := fun _ _ _ _ _ h1 _ _ => h1

/-- A payload that a read of a timed cache returns is the payload of its getter or the cached
payload. -/
theorem TimedCache.Get_ok_source {σ α : Type} (t : TimedCache α) (disabled : Bool)
    (now : Nat) (getter : σ → String → σ × Outcome α) (s : σ) (key : String)
    (crt : AzureCacheReadType) (d : α)
    (h : (t.Get disabled now getter s key crt).2.2 = .ok (some d)) :
    (getter s key).2 = .ok d ∨ t.cached key = some d := by
  unfold TimedCache.Get at h
  unfold TimedCache.cached
  rcases hg : getter s key with ⟨s1, r⟩
  rw [hg] at h
  have hrefresh : ∀ x : σ × TimedCache α × Outcome (Option α),
      (match (s1, r) with
        | (s1, .ok data) =>
          if disabled then (s1, t, Outcome.ok (some data))
          else (s1, { t with Store := t.Store.Store key ⟨some data, now⟩ }, .ok (some data))
        | (s1, .err e) => (s1, t, .err e)
        | (s1, .panic msg) => (s1, t, .panic msg)) = x →
      x.2.2 = .ok (some d) → r = .ok d := by
    intro x hx hok
    subst hx
    cases r with
    | err e => simp at hok
    | panic m => simp at hok
    | ok data =>
      cases disabled <;> simp at hok <;> rw [hok]
  cases disabled with
  | true =>
    simp only [if_true] at h
    exact Or.inl (hrefresh _ (by simp) h)
  | false =>
    simp only [Bool.false_eq_true, if_false] at h
    cases crt with
    | CacheReadTypeForceRefresh => exact Or.inl (hrefresh _ (by simp) h)
    | CacheReadTypeUnsafe =>
      simp only [TimedCache.cached] at h
      cases hl : t.Store.Load key with
      | none => simp [hl] at h
      | some entry =>
        simp only [hl] at h ⊢
        cases hd : entry.Data with
        | none => simp [hd] at h
        | some data =>
          simp only [hd, Outcome.ok.injEq, Option.some.injEq] at h
          exact Or.inr (by rw [h])
    | CacheReadTypeNoRefresh =>
      simp only [TimedCache.cached, Outcome.ok.injEq] at h
      exact Or.inr h
    | CacheReadTypeDefault =>
      simp only at h
      cases hl : t.Store.Load key with
      | none =>
        simp only [hl] at h
        exact Or.inl (hrefresh _ (by simp) h)
      | some entry =>
        obtain ⟨data, lu⟩ := entry
        cases data with
        | none =>
          simp only [hl] at h
          exact Or.inl (hrefresh _ (by simp) h)
        | some data =>
          simp only [hl] at h
          by_cases hfresh : now - lu < t.TTL
          · simp only [hfresh, if_true, Outcome.ok.injEq, Option.some.injEq] at h
            exact Or.inr (by rw [h])
          · simp only [hfresh, if_false] at h
            exact Or.inl (hrefresh _ (by simp) h)

/-- A collection that a read of the scale-set cache returns is keyed by the identifiers of its
scale sets, when the cached collections are. -/
theorem vmssFlexCacheGet_keyedByID (w : Cloud) (fs : FlexScaleSet) (hI : fs.ScaleSetsKeyedByID)
    (key : String) (crt : AzureCacheReadType) (coll : SyncMap VirtualMachineScaleSet)
    (h : (vmssFlexCacheGet w fs key crt).2 = .ok (some coll)) : KeyedByID coll := by
  unfold vmssFlexCacheGet at h
  have hsrc := TimedCache.Get_ok_source fs.vmssFlexCache fs.DisableAPICallCache fs.now
    (vmssFlexCacheGetter w) fs key crt coll
  rcases hget : fs.vmssFlexCache.Get fs.DisableAPICallCache fs.now (vmssFlexCacheGetter w) fs key
    crt with ⟨fs1, t, r⟩
  rw [hget] at h hsrc
  rcases hsrc h with hg | hc
  · exact vmssFlexCacheGetter_keyedByID w fs (vmssFlexCacheGetter w fs key).1 key coll
      (Prod.ext rfl hg)
  · exact hI key coll hc

/-- C30: whenever `getVmssFlexByVmssFlexID(id, policy)` returns a scale set without error, over
collections produced by the scale-set refresh, the identifier of the returned descriptor is the
requested id and its orchestration mode is `Flexible`: every key of a collection that the
refresh returns is the identifier of the value stored under it, and a cache that holds such
collections only keeps holding such collections only. -/
theorem getVmssFlexByVmssFlexID_own_id (w : Cloud) (fs : FlexScaleSet) (vmssFlexID : String)
    (crt : AzureCacheReadType) (hI : fs.ScaleSetsKeyedByID) :
    (∀ vmssFlex, (getVmssFlexByVmssFlexID w fs vmssFlexID crt).2 = .ok vmssFlex →
      vmssFlex.ID = some vmssFlexID ∧
      ∃ p, vmssFlex.VirtualMachineScaleSetProperties = some p ∧
        p.OrchestrationMode = .Flexible) ∧
    (∀ fs1 key coll, vmssFlexCacheGetter w fs key = (fs1, .ok coll) → KeyedByID coll) ∧
    (getVmssFlexByVmssFlexID w fs vmssFlexID crt).1.ScaleSetsKeyedByID := by
  have hP := Preserved.scaleSetsKeyedByID w
  have h1 := hP.after_vmssFlexCacheGet fs w.VmssFlexKey crt hI
  have k1 := vmssFlexCacheGet_keyedByID w fs hI w.VmssFlexKey crt
  unfold getVmssFlexByVmssFlexID
  rcases hr : vmssFlexCacheGet w fs w.VmssFlexKey crt with ⟨fs1, r⟩
  rw [hr] at h1 k1
  refine ⟨?_, fun fs1 key coll hg => vmssFlexCacheGetter_keyedByID w fs fs1 key coll hg, ?_⟩
  · intro vmssFlex h
    cases r with
    | err e => simp at h
    | panic m => simp at h
    | ok d =>
      cases d with
      | none => simp at h
      | some coll =>
        simp only at h
        cases hl : coll.Load vmssFlexID with
        | some ss =>
          simp only [hl, Outcome.ok.injEq] at h
          subst h
          exact k1 coll rfl vmssFlexID ss hl
        | none =>
          simp only [hl] at h
          have k2 := vmssFlexCacheGet_keyedByID w fs1 h1 w.VmssFlexKey .CacheReadTypeForceRefresh
          rcases hr2 : vmssFlexCacheGet w fs1 w.VmssFlexKey .CacheReadTypeForceRefresh
            with ⟨fs2, r2⟩
          rw [hr2] at h k2
          cases r2 with
          | err e => simp at h
          | panic m => simp at h
          | ok d2 =>
            cases d2 with
            | none => simp at h
            | some coll2 =>
              simp only at h
              cases hl2 : coll2.Load vmssFlexID with
              | some ss =>
                simp only [hl2, Outcome.ok.injEq] at h
                subst h
                exact k2 coll2 rfl vmssFlexID ss hl2
              | none => simp [hl2] at h
  · cases r with
    | err e => exact h1
    | panic m => exact h1
    | ok d =>
      cases d with
      | none => exact h1
      | some coll =>
        simp only
        cases hl : coll.Load vmssFlexID with
        | some ss => exact h1
        | none =>
          simp only
          have h2 := hP.after_vmssFlexCacheGet fs1 w.VmssFlexKey .CacheReadTypeForceRefresh h1
          rcases hr2 : vmssFlexCacheGet w fs1 w.VmssFlexKey .CacheReadTypeForceRefresh
            with ⟨fs2, r2⟩
          rw [hr2] at h2
          cases r2 with
          | err e => exact h2
          | panic m => exact h2
          | ok d2 =>
            cases d2 with
            | none => exact h2
            | some coll2 =>
              simp only
              cases coll2.Load vmssFlexID <;> exact h2

/-- C30, witness: against `mixedScaleSetsCloud`, which also lists a uniform scale set and one
without identifier, the lookup of the identifier of `testVmssFlex1` returns it. -/
theorem getVmssFlexByVmssFlexID_own_id_witness :
    emptyFlexScaleSet.ScaleSetsKeyedByID ∧
    (getVmssFlexByVmssFlexID mixedScaleSetsCloud emptyFlexScaleSet testVmssFlex1ID
      .CacheReadTypeDefault).2 = .ok testVmssFlex1 ∧
    testVmssFlex1.ID = some testVmssFlex1ID :=
  have hI : emptyFlexScaleSet.ScaleSetsKeyedByID := fun _ _ h => nomatch h
  ⟨hI, by decide,
    ((getVmssFlexByVmssFlexID_own_id mixedScaleSetsCloud emptyFlexScaleSet testVmssFlex1ID
      .CacheReadTypeDefault hI).1 testVmssFlex1 (by decide)).1⟩

end Provider

namespace Provider

/-! ## C26: the status codes for retry after the initialisation of the sender -/

/-- The loop of `sender` appends the codes other than 429, in their order. -/
theorem appendCodesForRetry_eq (codes : List Int) :
    ∀ statusCodesForRetry, appendCodesForRetry codes statusCodesForRetry
      = statusCodesForRetry ++ codes.filter (fun code => code ≠ StatusTooManyRequests) := by
  induction codes with
  | nil => intro acc; simp [appendCodesForRetry]
  | cons code rest ih =>
    intro acc
    unfold appendCodesForRetry
    by_cases h : code = StatusTooManyRequests
    · simp [h, ih]
    · simp [h, ih]

/-- C26: after the one-time initialisation in `sender`, the list of status codes that trigger a
retry is the original list with every occurrence of 429 removed and all other codes kept in
their original order; calling `sender` again leaves the list, and every other package
variable, unchanged and returns the same sender. -/
theorem sender_removes_429 (tracingEnabled : Bool) (s : Senders) (hfirst : s.initDone = false) :
    (sender tracingEnabled s).1.StatusCodesForRetry
      = s.StatusCodesForRetry.filter (fun code => code ≠ 429) ∧
    (429 : Int) ∉ (sender tracingEnabled s).1.StatusCodesForRetry ∧
    (∀ code ∈ s.StatusCodesForRetry, code ≠ 429 →
      code ∈ (sender tracingEnabled s).1.StatusCodesForRetry) ∧
    (sender tracingEnabled s).1.StatusCodesForRetry.Sublist s.StatusCodesForRetry ∧
    (∀ tracingEnabledThen, sender tracingEnabledThen (sender tracingEnabled s).1
      = ((sender tracingEnabled s).1, (sender tracingEnabled s).2)) := by
  have hcodes : (sender tracingEnabled s).1.StatusCodesForRetry
      = s.StatusCodesForRetry.filter (fun code => code ≠ 429) := by
    simp only [sender, hfirst, Bool.false_eq_true, if_false, appendCodesForRetry_eq,
      List.nil_append, StatusTooManyRequests]
  refine ⟨hcodes, ?_, ?_, ?_, ?_⟩
  · rw [hcodes]
    simp
  · intro code hmem hne
    rw [hcodes]
    simp [hmem, hne]
  · rw [hcodes]
    exact List.filter_sublist _
  · intro t
    simp only [sender, hfirst, Bool.false_eq_true, if_false, if_true]

/-- C26, witness: from the codes 408, 429, 500, 502, 503 and 504 the initialisation leaves
408, 500, 502, 503 and 504. -/
theorem sender_removes_429_witness :
    initialSenders.initDone = false ∧
    (sender false initialSenders).1.StatusCodesForRetry = [408, 500, 502, 503, 504] :=
  ⟨rfl, (sender_removes_429 false initialSenders rfl).1.trans (by decide)⟩

end Provider

namespace Provider

/-! ## C27: getNodeVmssFlexID on a short node name -/

/-- C27, the code at the failing input: the node name "vm1" has three bytes; resolved against
`testCloud`, whose scale-set collection holds one scale set, `getNodeVmssFlexID` returns
neither an identifier nor an error: the slice `nodeName[:len(nodeName)-6]` is out of range.
With an empty scale-set collection the `Range` callback does not run, and the same name ends
with not-found. -/
theorem getNodeVmssFlexID_panics_on_short_name :
    (utf8Bytes "vm1").length = 3 ∧
    (getNodeVmssFlexID testCloud emptyFlexScaleSet "vm1").2
      = .panic "slice bounds out of range" ∧
    (getNodeVmssFlexID noScaleSetsCloud emptyFlexScaleSet "vm1").2 = .err .InstanceNotFound := by
  decide

/-! ## C28: cacheVirtualMachine on descriptors with absent fields -/

/-- C28, the code at the failing inputs: on a descriptor without its properties sub-object,
and on a descriptor with a computer name and without a VM name, `cacheVirtualMachine` does not
complete: reading `vm.OsProfile`, or `*vm.Name`, dereferences a nil pointer. The refresh of the
VM collection that lists such a descriptor does not complete either. -/
theorem cacheVirtualMachine_panics_on_absent_fields :
    (cacheVirtualMachine emptyFlexScaleSet vmWithoutProperties).2
      = .panic "nil pointer dereference: vm.OsProfile" ∧
    (cacheVirtualMachine emptyFlexScaleSet vmWithoutName).2
      = .panic "nil pointer dereference: *vm.Name" ∧
    (vmssFlexVMCacheGetter bareListingCloud emptyFlexScaleSet testVmssFlex1ID).2
      = .panic "nil pointer dereference: vm.OsProfile" := by
  decide

end Provider
